import Mathlib

/-!
# Self Node Remediation: remediation reconciler

A shallow embedding of `controllers/selfnoderemediation_controller.go`, with
the health decision of the peer health server (`pkg/peerhealth/server.go`), the
health decision of the control-plane manager (`pkg/controlplane/manager.go`)
and the default configuration
(`api/v1alpha2/selfnoderemediationconfig_types.go`).

Conventions of the embedding.

* Go pointers that the code tests against `nil` are `Option`s; Go maps are
  association lists (the first binding of a key is the one a lookup sees).
* `time.Time` is an integer count of nanoseconds since the zero instant of
  `time.Time` (so `IsZero` is `= 0`), `time.Duration` an integer count of
  nanoseconds. A function reads the clock once and finds `Env.now`, except
  `wasNodeRebooted`, which calls `time.Now()` twice: its second reading is
  `Env.nowAgain`, a value of its own. Instants are exact integers; the
  duration that `wasNodeRebooted` computes is that of Go: `Time.Sub` saturates
  at the ends of the range of `time.Duration` and the sum of two durations
  wraps around in `int64`.
* Every call that leaves the process (API client, reboot engine, uptime,
  safe-time calculator) is answered by the environment `Env`; each write call
  that the code issues is recorded, in order, in a list of `Action`s. A client
  call is modelled by the error it returns: the objects held in memory are
  what the code assigns to them.
* Functions that mutate the objects they are handed return the mutated
  objects. A nil-pointer dereference is a panic, recorded in the field
  `panicked` of the result.
-/

namespace Controllers

/-! ## Values -/

abbrev Time := Int

abbrev Duration := Int

/-- The constant `time.Second`, in nanoseconds. -/
def Second : Duration := 1000000000

/-- The largest `time.Duration`: `1<<63 - 1` nanoseconds. -/
def maxDuration : Duration := 9223372036854775807

/-- The smallest `time.Duration`: `-1 << 63` nanoseconds. -/
def minDuration : Duration := -9223372036854775808

/-- The method `Time.Sub`: the duration `t - u`, and the largest or the smallest
duration when the difference is outside the range of `time.Duration`. -/
def Sub (t u : Time) : Duration :=
  if t - u > maxDuration then maxDuration
  else if t - u < minDuration then minDuration
  else t - u

/-- The sum of two durations as Go computes it: in `int64`, with wrap-around. -/
def addDuration (a b : Duration) : Duration :=
  (a + b - minDuration) % 18446744073709551616 + minDuration

/-- Go `error` values, as far as the controller tells them apart:
`apiErrors.IsNotFound`, `apiErrors.IsConflict`, the type `*UnreconcilableError`,
the aggregate built by `utilerrors.NewAggregate`, and everything else. -/
inductive GoError where
  | notFound (msg : String)
  | conflict (msg : String)
  | plain (msg : String)
  | unreconcilable (msg : String)
  | aggregate (updateErr : GoError) (returnErr : GoError)
  deriving DecidableEq, Repr

/-- The messages of the errors that the method `visit` of an aggregate reaches,
in order: an aggregate inside an aggregate is flattened. -/
def GoError.messages : GoError → List String
  | .notFound msg => [msg]
  | .conflict msg => [msg]
  | .plain msg => [msg]
  | .unreconcilable msg => [msg]
  | .aggregate e₁ e₂ => e₁.messages ++ e₂.messages

/-- The method `Error()`. That of an aggregate is the one of `utilerrors`: the
distinct messages in the order of their first occurrence, joined by a comma and
a blank, and put in brackets when there is more than one. -/
def GoError.Error : GoError → String
  | .notFound msg => msg
  | .conflict msg => msg
  | .plain msg => msg
  | .unreconcilable msg => msg
  | .aggregate e₁ e₂ =>
    match (e₁.messages ++ e₂.messages).eraseDups with
    | [msg] => msg
    | msgs => "[" ++ ", ".intercalate msgs ++ "]"

/-- The test `apiErrors.IsNotFound`. -/
def IsNotFound : GoError → Bool
  | .notFound _ => true
  | _ => false

/-- The test `apiErrors.IsConflict`. -/
def IsConflict : GoError → Bool
  | .conflict _ => true
  | _ => false

/-- The type assertion `err.(*UnreconcilableError)`. -/
def isUnreconcilableError : Option GoError → Bool
  | some (.unreconcilable _) => true
  | _ => false

/-- The call `utilerrors.NewAggregate([]error{updateErr, returnErr})` with a
non-nil `updateErr`: nil entries are dropped. -/
def NewAggregate (updateErr : GoError) (returnErr : Option GoError) : GoError :=
  match returnErr with
  | none => updateErr
  | some e => .aggregate updateErr e

/-- A Go map lookup `m[k]` on a string map: the zero value when the key is absent. -/
def mapGet (m : List (String × String)) (k : String) : String :=
  (m.lookup k).getD ""

/-- The comma-ok lookup `_, ok := m[k]`. -/
def mapHas (m : List (String × String)) (k : String) : Bool :=
  (m.lookup k).isSome

/-- The method `IsZero` of `*metav1.Time`: nil or the zero instant. -/
def IsZero (t : Option Time) : Bool :=
  match t with
  | none => true
  | some v => v == 0

/-! ## Objects -/

structure Taint where
  Key : String
  Value : String := ""
  Effect : String
  TimeAdded : Option Time := none
  deriving DecidableEq, Repr

structure Node where
  Name : String
  Labels : List (String × String) := []
  Annotations : Option (List (String × String)) := none
  Unschedulable : Bool := false
  Taints : List Taint := []
  deriving DecidableEq, Repr

structure ObjectReference where
  Name : String
  Namespace : String := ""
  deriving DecidableEq, Repr

/-- The part of a `v1beta1.Machine` that the controller reads: `Status.NodeRef`. -/
structure Machine where
  Name : String
  NodeRef : Option ObjectReference := none
  deriving DecidableEq, Repr

structure OwnerReference where
  Kind : String
  Name : String
  deriving DecidableEq, Repr

inductive ConditionStatus where
  | ConditionTrue
  | ConditionFalse
  | ConditionUnknown
  deriving DecidableEq, Repr

structure Condition where
  type : String
  Status : ConditionStatus
  Reason : String := ""
  Message : String := ""
  ObservedGeneration : Int := 0
  LastTransitionTime : Time := 0
  deriving DecidableEq, Repr

structure SelfNodeRemediationSpec where
  RemediationStrategy : String
  deriving DecidableEq, Repr

structure SelfNodeRemediationStatus where
  Phase : Option String := none
  TimeAssumedRebooted : Option Time := none
  Conditions : List Condition := []
  LastError : String := ""
  deriving DecidableEq, Repr

structure SelfNodeRemediation where
  Name : String
  Namespace : String := ""
  Annotations : Option (List (String × String)) := none
  CreationTimestamp : Time := 0
  DeletionTimestamp : Option Time := none
  Finalizers : List String := []
  OwnerReferences : List OwnerReference := []
  Spec : SelfNodeRemediationSpec
  Status : SelfNodeRemediationStatus := {}
  deriving DecidableEq, Repr

structure Pod where
  Name : String
  NodeName : String
  DeletionTimestamp : Option Time := none
  deriving DecidableEq, Repr

structure VolumeAttachment where
  Name : String
  NodeName : String
  deriving DecidableEq, Repr

/-- The value `ctrl.Result`. -/
structure Result where
  Requeue : Bool := false
  RequeueAfter : Duration := 0
  deriving DecidableEq, Repr

/-- The request key `ctrl.Request`. -/
structure Request where
  Namespace : String := ""
  Name : String
  deriving DecidableEq, Repr

/-! ## Constants of the controller -/

def SNRFinalizer : String := "self-node-remediation.medik8s.io/snr-finalizer"

def nhcTimeOutAnnotation : String := "remediation.medik8s.io/nhc-timed-out"

def excludeRemediationLabel : String := "remediation.medik8s.io/exclude-from-remediation"

def eventReasonRemediationSkipped : String := "RemediationSkipped"

def eventReasonAddFinalizer : String := "AddFinalizer"

def eventReasonMarkUnschedulable : String := "MarkUnschedulable"

def eventReasonAddNoExecute : String := "AddNoExecute"

def eventReasonAddOutOfService : String := "AddOutOfService"

def eventReasonUpdateTimeAssumedRebooted : String := "UpdateTimeAssumedRebooted"

def eventReasonDeleteResources : String := "DeleteResources"

def eventReasonMarkSchedulable : String := "MarkNodeSchedulable"

def eventReasonRemoveFinalizer : String := "RemoveFinalizer"

def eventReasonRemoveNoExecute : String := "RemoveNoExecuteTaint"

def eventReasonRemoveOutOfService : String := "RemoveOutOfService"

def eventReasonNodeReboot : String := "NodeReboot"

def NodeUnschedulableTaint : Taint :=
  { Key := "node.kubernetes.io/unschedulable", Effect := "NoSchedule" }

def NodeNoExecuteTaint : Taint :=
  { Key := "medik8s.io/remediation", Value := "self-node-remediation", Effect := "NoExecute" }

def OutOfServiceTaint : Taint :=
  { Key := "node.kubernetes.io/out-of-service", Value := "nodeshutdown", Effect := "NoExecute" }

abbrev processingChangeReason := String

def remediationStarted : processingChangeReason := "RemediationStarted"

def remediationTimeoutByNHC : processingChangeReason := "RemediationTimeoutByNHC"

def remediationFinishedSuccessfully : processingChangeReason := "RemediationFinishedSuccessfully"

def remediationSkippedNodeNotFound : processingChangeReason := "RemediationSkippedNodeNotFound"

abbrev remediationPhase := String

def fencingStartedPhase : remediationPhase := "Fencing-Started"

def preRebootCompletedPhase : remediationPhase := "Pre-Reboot-Completed"

def rebootCompletedPhase : remediationPhase := "Reboot-Completed"

def fencingCompletedPhase : remediationPhase := "Fencing-Completed"

def unknownPhase : remediationPhase := "Unknown"

/-- The condition type `v1alpha1.ProcessingConditionType`. -/
def ProcessingConditionType : String := "Processing"

/-- The condition type `v1alpha1.SucceededConditionType`. -/
def SucceededConditionType : String := "Succeeded"

/-- Modelled from the spec: the strategy constant
`v1alpha1.ResourceDeletionRemediationStrategy`, whose declaration is not among
the sources; the spec spells the value `ResourceDeletion`. -/
def ResourceDeletionRemediationStrategy : String := "ResourceDeletion"

/-- Modelled from the spec: the strategy constant
`v1alpha1.OutOfServiceTaintRemediationStrategy`, whose declaration is not among
the sources; the spec spells the value `OutOfServiceTaint`. -/
def OutOfServiceTaintRemediationStrategy : String := "OutOfServiceTaint"

/-- Modelled from the spec: the strategy constant
`v1alpha1.AutomaticRemediationStrategy`, whose declaration is not among the
sources; the spec spells the value `Automatic`. -/
def AutomaticRemediationStrategy : String := "Automatic"

/-- Modelled from the spec: the node annotation key
`utils.IsRebootCapableAnnotation`, whose declaration is not among the sources;
the spec names the annotation `is-reboot-capable`. -/
def IsRebootCapableAnnotation : String := "is-reboot-capable"

/-! ## Environment, effects and the reconciler -/

/-- A write call or notification issued by the reconciler, in the order of issue.
A call is recorded when it is made, whatever the environment answers. -/
inductive Action where
  /-- The call `events.NormalEvent(r.Recorder, obj, reason, message)`. -/
  | event (reason : String)
  /-- The call `events.RemediationStoppedByNHC`. -/
  | remediationStoppedByNHC
  /-- The call `events.GetTargetNodeFailed`. -/
  | getTargetNodeFailed
  /-- The call `events.RemediationFinished`. -/
  | remediationFinished
  /-- The call `r.Client.Update(ctx, snr)`, with the finalizers it sends. -/
  | updateSnr (finalizers : List String)
  /-- The call `r.Client.Update(ctx, node)`, with the node it sends. -/
  | updateNode (node : Node)
  /-- The call `r.Client.Patch(ctx, node, patch)` that adds (`added = true`) or
  removes (`added = false`) the taint `taint`, with the node it sends. -/
  | patchNode (taint : Taint) (added : Bool) (node : Node)
  /-- The call `r.Client.Status().Patch(ctx, snr, patch)` of `updateSnrStatusLastError`. -/
  | patchSnrStatus (lastError : String)
  /-- The call `r.Client.Status().Update(ctx, snr)` of `updateSnrStatus`. -/
  | updateSnrStatus (status : SelfNodeRemediationStatus)
  /-- The call `resources.DeletePods(ctx, r.Client, nodeName)`. -/
  | deletePods (nodeName : String)
  /-- The call `r.Rebooter.Reboot()`. -/
  | reboot
  deriving DecidableEq, Repr

/-- What the world answers to the calls of one invocation. -/
structure Env where
  /-- The clock: `time.Now()`, `metav1.Now()`. -/
  now : Time
  /-- The second reading of the clock in `wasNodeRebooted`: the `time.Now()` of
  `maxNodeRebootTime.Sub(time.Now())`, called after the one of the comparison. -/
  nowAgain : Time
  /-- The answer to `r.Get(ctx, req.NamespacedName, snr)`. -/
  getSnr : Except GoError SelfNodeRemediation
  /-- The answer to `r.Get(ctx, key, node)` for a node name and namespace. -/
  getNode : String → String → Except GoError Node
  /-- The answer to `r.Client.Get(ctx, machineKey, machine)` for a name and namespace. -/
  getMachine : String → String → Except GoError Machine
  /-- The error of `utils.GetSelfNodeRemediationAgentPod(node.Name, r.Client)`. -/
  agentPodErr : String → Option GoError
  /-- The error of `r.Client.Update(ctx, snr)`. -/
  updateSnrErr : Option GoError
  /-- The error of `r.Client.Update(ctx, node)`. -/
  updateNodeErr : Option GoError
  /-- The error of `r.Client.Patch(ctx, node, patch)` for the taint patched and
  whether it is added. -/
  patchNodeErr : Taint → Bool → Option GoError
  /-- The error of `r.Client.Status().Patch(ctx, snr, patch)`. -/
  patchSnrStatusErr : Option GoError
  /-- The error of `r.Client.Status().Update(ctx, snr)`. -/
  updateSnrStatusErr : Option GoError
  /-- The answer of `r.SafeTimeCalculator.GetTimeToAssumeNodeRebooted()`. -/
  timeToAssumeNodeRebooted : Except GoError Duration
  /-- The answer of `utils.GetLinuxUptime()`. -/
  uptime : Except GoError Duration
  /-- The error of `r.Rebooter.Reboot()`. -/
  rebootErr : Option GoError
  /-- The error of `resources.DeletePods(ctx, r.Client, nodeName)`. -/
  deletePodsErr : Option GoError
  /-- The answer to `r.Client.List(ctx, pods)`. -/
  listPods : Except GoError (List Pod)
  /-- The answer to `r.Client.List(ctx, volumeAttachments)`. -/
  listVolumeAttachments : Except GoError (List VolumeAttachment)

/-- The fields of `SelfNodeRemediationReconciler` that the control flow reads,
with the three values it takes from declarations that are not among the
sources: the method `IsAgent`, the variable `utils.IsOutOfServiceTaintGA` and
the constant `reboot.TimeToAssumeRebootHasStarted`. -/
structure Reconciler where
  MyNodeName : String
  IsAgent : Bool
  IsOutOfServiceTaintGA : Bool
  TimeToAssumeRebootHasStarted : Duration

/-- What a function handed a node and a request leaves behind: its return
values, the two objects as mutated, the calls issued, and whether it ended in
a nil-pointer panic instead of returning. -/
structure Ret where
  result : Result := {}
  err : Option GoError := none
  node : Node
  snr : SelfNodeRemediation
  acts : List Action := []
  panicked : Bool := false

/-- What a function of type `removeNodeResources` leaves behind. -/
structure RmRet where
  waitTime : Duration := 0
  err : Option GoError := none
  node : Node
  acts : List Action := []
  panicked : Bool := false

/-- What a function handed a node and returning an error leaves behind. -/
structure NodeRet where
  err : Option GoError := none
  node : Node
  acts : List Action := []

abbrev removeNodeResources := Node → SelfNodeRemediation → RmRet

/-! ## Library functions -/

/-- Modelled from the spec: `utils.TaintExists`, whose package is not among the
sources. The spec identifies a taint by key and effect; a taint of the list
matches when both agree (`Taint.MatchTaint`). -/
def TaintExists (taints : List Taint) (taintToFind : Taint) : Bool :=
  taints.any (fun t => t.Key == taintToFind.Key && t.Effect == taintToFind.Effect)

/-- Modelled from the spec: `utils.DeleteTaint`, whose package is not among the
sources: the taints left after dropping every taint with the key and effect of
`taintToDelete`, and whether one was dropped. -/
def DeleteTaint (taints : List Taint) (taintToDelete : Taint) : List Taint × Bool :=
  (taints.filter (fun t => !(t.Key == taintToDelete.Key && t.Effect == taintToDelete.Effect)),
   taints.any (fun t => t.Key == taintToDelete.Key && t.Effect == taintToDelete.Effect))

/-- The function `controllerutil.ContainsFinalizer`. -/
def ContainsFinalizer (snr : SelfNodeRemediation) (finalizer : String) : Bool :=
  snr.Finalizers.contains finalizer

/-- The function `controllerutil.AddFinalizer`: appends unless already present. -/
def AddFinalizer (snr : SelfNodeRemediation) (finalizer : String) : SelfNodeRemediation :=
  if snr.Finalizers.contains finalizer then snr
  else { snr with Finalizers := snr.Finalizers ++ [finalizer] }

/-- The function `controllerutil.RemoveFinalizer`: drops every occurrence. -/
def RemoveFinalizer (snr : SelfNodeRemediation) (finalizer : String) : SelfNodeRemediation :=
  { snr with Finalizers := snr.Finalizers.filter (fun f => f != finalizer) }

/-- The function `meta.FindStatusCondition`: the first condition of the type. -/
def FindStatusCondition (conditions : List Condition) (conditionType : String) :
    Option Condition :=
  conditions.find? (fun c => c.type == conditionType)

/-- The function `meta.IsStatusConditionPresentAndEqual`. -/
def IsStatusConditionPresentAndEqual (conditions : List Condition) (conditionType : String)
    (status : ConditionStatus) : Bool :=
  match FindStatusCondition conditions conditionType with
  | some c => c.Status == status
  | none => false

/-- The function `meta.SetStatusCondition`: the first condition of the new
condition's type is overwritten in place (its transition time only when the
status changes), and the new condition is appended when there is none. A zero
transition time in the new condition stands for the current time. -/
def SetStatusCondition (now : Time) : List Condition → Condition → List Condition
  | [], newCondition =>
    [{ newCondition with
        LastTransitionTime :=
          if newCondition.LastTransitionTime == 0 then now
          else newCondition.LastTransitionTime }]
  | c :: cs, newCondition =>
    if c.type == newCondition.type then
      { type := c.type
        Status := newCondition.Status
        Reason := newCondition.Reason
        Message := newCondition.Message
        ObservedGeneration := newCondition.ObservedGeneration
        LastTransitionTime :=
          if c.Status != newCondition.Status then
            (if newCondition.LastTransitionTime != 0 then newCondition.LastTransitionTime
             else now)
          else c.LastTransitionTime } :: cs
    else c :: SetStatusCondition now cs newCondition

/-! ## The controller -/

def updateConditions (now : Time) (processingTypeReason : processingChangeReason)
    (snr : SelfNodeRemediation) : Option GoError × SelfNodeRemediation :=
  let statuses : Option (ConditionStatus × ConditionStatus) :=
    if processingTypeReason = remediationStarted then
      some (.ConditionTrue, .ConditionUnknown)
    else if processingTypeReason = remediationFinishedSuccessfully then
      some (.ConditionFalse, .ConditionTrue)
    else if processingTypeReason = remediationTimeoutByNHC then
      some (.ConditionFalse, .ConditionFalse)
    else if processingTypeReason = remediationSkippedNodeNotFound then
      some (.ConditionFalse, .ConditionFalse)
    else none
  match statuses with
  | none => (some (.plain ("unkown processingChangeReason:" ++ processingTypeReason)), snr)
  | some (processingConditionStatus, succeededConditionStatus) =>
    if IsStatusConditionPresentAndEqual snr.Status.Conditions ProcessingConditionType
          processingConditionStatus &&
        IsStatusConditionPresentAndEqual snr.Status.Conditions SucceededConditionType
          succeededConditionStatus then
      (none, snr)
    else
      let conditions₁ := SetStatusCondition now snr.Status.Conditions
        { type := ProcessingConditionType
          Status := processingConditionStatus
          Reason := processingTypeReason }
      let conditions₂ := SetStatusCondition now conditions₁
        { type := SucceededConditionType
          Status := succeededConditionStatus
          Reason := processingTypeReason }
      (none, { snr with Status := { snr.Status with Conditions := conditions₂ } })

def getPhase (snr : SelfNodeRemediation) : remediationPhase :=
  match snr.Status.Phase with
  | none => fencingStartedPhase
  | some phase =>
    if phase = preRebootCompletedPhase ∨ phase = rebootCompletedPhase ∨
        phase = fencingCompletedPhase then phase
    else unknownPhase

def isStoppedByNHC (snr : SelfNodeRemediation) : Bool :=
  match snr.Annotations, snr.DeletionTimestamp with
  | some annotations, none => mapHas annotations nhcTimeOutAnnotation
  | _, _ => false

def IsOwnedByNHC (snr : SelfNodeRemediation) : Bool :=
  snr.OwnerReferences.any (fun ownerRef => ownerRef.Kind == "NodeHealthCheck")

def getNodeFromMachine (env : Env) (ref : OwnerReference) (ns : String) :
    Except GoError Node :=
  match env.getMachine ref.Name ns with
  | .error err => .error err
  | .ok machine =>
    match machine.NodeRef with
    | none => .error (.plain "nodeRef is nil")
    | some nodeRef => env.getNode nodeRef.Name nodeRef.Namespace

def getNodeFromSnr (env : Env) (snr : SelfNodeRemediation) : Except GoError Node :=
  if !IsOwnedByNHC snr then
    match snr.OwnerReferences.find? (fun ownerRef => ownerRef.Kind == "Machine") with
    | some ownerRef => getNodeFromMachine env ownerRef snr.Namespace
    | none => env.getNode snr.Name ""
  else env.getNode snr.Name ""

def getRuntimeStrategy (r : Reconciler) (snr : SelfNodeRemediation) : String :=
  let strategy := snr.Spec.RemediationStrategy
  if strategy != AutomaticRemediationStrategy then strategy
  else if r.IsOutOfServiceTaintGA then OutOfServiceTaintRemediationStrategy
  else ResourceDeletionRemediationStrategy

def isNodeRebootCapable (env : Env) (node : Node) : Bool :=
  match env.agentPodErr node.Name with
  | some _ => false
  | none =>
    match node.Annotations with
    | none => false
    | some annotations =>
      if mapGet annotations IsRebootCapableAnnotation != "true" then false else true

def addFinalizer (env : Env) (node : Node) (snr : SelfNodeRemediation) : Ret :=
  if !IsZero snr.DeletionTimestamp then
    { node := node, snr := snr }
  else
    let snr₁ := AddFinalizer snr SNRFinalizer
    match env.updateSnrErr with
    | some err =>
      if IsConflict err then
        { result := { RequeueAfter := 1 * Second }, node := node, snr := snr₁,
          acts := [.updateSnr snr₁.Finalizers] }
      else
        { err := some err, node := node, snr := snr₁, acts := [.updateSnr snr₁.Finalizers] }
    | none =>
      { result := { Requeue := true }, node := node, snr := snr₁,
        acts := [.updateSnr snr₁.Finalizers, .event eventReasonAddFinalizer] }

def removeFinalizer (env : Env) (snr : SelfNodeRemediation) :
    Option GoError × SelfNodeRemediation × List Action :=
  let snr₁ := RemoveFinalizer snr SNRFinalizer
  (env.updateSnrErr, snr₁, [.updateSnr snr₁.Finalizers])

def addNoExecuteTaint (env : Env) (node : Node) : NodeRet :=
  if TaintExists node.Taints NodeNoExecuteTaint then { node := node }
  else
    let taint := { NodeNoExecuteTaint with TimeAdded := some env.now }
    let node₁ := { node with Taints := node.Taints ++ [taint] }
    match env.patchNodeErr NodeNoExecuteTaint true with
    | some err => { err := some err, node := node₁, acts := [.patchNode NodeNoExecuteTaint true node₁] }
    | none =>
      { node := node₁
        acts := [.patchNode NodeNoExecuteTaint true node₁, .event eventReasonAddNoExecute] }

def removeNoExecuteTaint (env : Env) (node : Node) : NodeRet :=
  if !TaintExists node.Taints NodeNoExecuteTaint then { node := node }
  else
    let (taints, deleted) := DeleteTaint node.Taints NodeNoExecuteTaint
    if !deleted then { node := node }
    else
      let node₁ := { node with Taints := taints }
      match env.patchNodeErr NodeNoExecuteTaint false with
      | some err =>
        { err := some err, node := node₁, acts := [.patchNode NodeNoExecuteTaint false node₁] }
      | none =>
        { node := node₁
          acts := [.patchNode NodeNoExecuteTaint false node₁, .event eventReasonRemoveNoExecute] }

def addOutOfServiceTaint (env : Env) (node : Node) : NodeRet :=
  if TaintExists node.Taints OutOfServiceTaint then { node := node }
  else
    let taint := { OutOfServiceTaint with TimeAdded := some env.now }
    let node₁ := { node with Taints := node.Taints ++ [taint] }
    match env.patchNodeErr OutOfServiceTaint true with
    | some err => { err := some err, node := node₁, acts := [.patchNode OutOfServiceTaint true node₁] }
    | none =>
      { node := node₁
        acts := [.patchNode OutOfServiceTaint true node₁, .event eventReasonAddOutOfService] }

def removeOutOfServiceTaint (env : Env) (node : Node) : NodeRet :=
  if !TaintExists node.Taints OutOfServiceTaint then { node := node }
  else
    let (taints, deleted) := DeleteTaint node.Taints OutOfServiceTaint
    if !deleted then { node := node }
    else
      let node₁ := { node with Taints := taints }
      match env.patchNodeErr OutOfServiceTaint false with
      | some err =>
        { err := some err, node := node₁, acts := [.patchNode OutOfServiceTaint false node₁] }
      | none =>
        { node := node₁
          acts := [.patchNode OutOfServiceTaint false node₁, .event eventReasonRemoveOutOfService] }

def markNodeAsUnschedulable (env : Env) (node : Node) (snr : SelfNodeRemediation) : Ret :=
  if node.Unschedulable then
    { result := { RequeueAfter := 1 * Second }, node := node, snr := snr }
  else
    let node₁ := { node with Unschedulable := true }
    match env.updateNodeErr with
    | some err =>
      if IsConflict err then
        { result := { RequeueAfter := 1 * Second }, node := node₁, snr := snr,
          acts := [.updateNode node₁] }
      else { err := some err, node := node₁, snr := snr, acts := [.updateNode node₁] }
    | none =>
      { result := { RequeueAfter := 1 * Second }, node := node₁, snr := snr,
        acts := [.updateNode node₁, .event eventReasonMarkUnschedulable] }

def updateTimeAssumedRebooted (env : Env) (snr : SelfNodeRemediation) :
    Option GoError × SelfNodeRemediation × List Action :=
  match env.timeToAssumeNodeRebooted with
  | .error err => (some err, snr, [])
  | .ok toAssumeNodeRebooted =>
    let maxTimeNodeHasRebooted := env.now + toAssumeNodeRebooted
    (none,
     { snr with Status := { snr.Status with TimeAssumedRebooted := some maxTimeNodeHasRebooted } },
     [.event eventReasonUpdateTimeAssumedRebooted])

def prepareReboot (env : Env) (node : Node) (snr : SelfNodeRemediation) : Ret :=
  if !isNodeRebootCapable env node then
    { err := some (.plain "Node is not capable to reboot itself"), node := node, snr := snr }
  else if !ContainsFinalizer snr SNRFinalizer then
    addFinalizer env node snr
  else
    let taintRet := addNoExecuteTaint env node
    match taintRet.err with
    | some err => { err := some err, node := taintRet.node, snr := snr, acts := taintRet.acts }
    | none =>
      if !taintRet.node.Unschedulable ||
          !TaintExists taintRet.node.Taints NodeUnschedulableTaint then
        let ret := markNodeAsUnschedulable env taintRet.node snr
        { ret with acts := taintRet.acts ++ ret.acts }
      else
        let (timeErr, snr₁, timeActs) :=
          if IsZero snr.Status.TimeAssumedRebooted then updateTimeAssumedRebooted env snr
          else (none, snr, [])
        match timeErr with
        | some err =>
          { err := some err, node := taintRet.node, snr := snr₁,
            acts := taintRet.acts ++ timeActs }
        | none =>
          { node := taintRet.node
            snr := { snr₁ with Status := { snr₁.Status with Phase := some preRebootCompletedPhase } }
            acts := taintRet.acts ++ timeActs }

def handleFencingStartedPhase (env : Env) (node : Node) (snr : SelfNodeRemediation) : Ret :=
  prepareReboot env node snr

/-- The function `wasNodeRebooted`; `none` is the nil-pointer panic of calling
`After` through a nil `snr.Status.TimeAssumedRebooted`. The comparison reads
the clock as `env.now`, the subtraction reads it again as `env.nowAgain`. -/
def wasNodeRebooted (env : Env) (snr : SelfNodeRemediation) : Option (Bool × Duration) :=
  match snr.Status.TimeAssumedRebooted with
  | none => none
  | some maxNodeRebootTime =>
    if maxNodeRebootTime > env.now then
      some (false, addDuration (Sub maxNodeRebootTime env.nowAgain) Second)
    else some (true, 0)

def didIRebootMyself (env : Env) (snr : SelfNodeRemediation) : Bool × Option GoError :=
  match env.uptime with
  | .error err => (false, some err)
  | .ok uptime => (decide (uptime < env.now - snr.CreationTimestamp), none)

def rebootIfNeeded (r : Reconciler) (env : Env) (snr : SelfNodeRemediation) (node : Node) :
    Ret :=
  match didIRebootMyself env snr with
  | (_, some err) => { err := some err, node := node, snr := snr }
  | (shouldAvoidReboot, none) =>
    if shouldAvoidReboot then { node := node, snr := snr }
    else
      { result := { RequeueAfter := r.TimeToAssumeRebootHasStarted }
        err := env.rebootErr
        node := node
        snr := snr
        acts := [.event eventReasonNodeReboot, .reboot] }

def rebootNode (r : Reconciler) (env : Env) (node : Node) (snr : SelfNodeRemediation) : Ret :=
  if r.MyNodeName = node.Name then rebootIfNeeded r env snr node
  else
    match wasNodeRebooted env snr with
    | none => { node := node, snr := snr, panicked := true }
    | some (wasRebooted, timeLeft) =>
      if !wasRebooted then { result := { RequeueAfter := timeLeft }, node := node, snr := snr }
      else
        { node := node
          snr := { snr with Status := { snr.Status with Phase := some rebootCompletedPhase } } }

def handlePreRebootCompletedPhase (r : Reconciler) (env : Env) (node : Node)
    (snr : SelfNodeRemediation) : Ret :=
  rebootNode r env node snr

def handleRebootCompletedPhase (env : Env) (node : Node) (snr : SelfNodeRemediation)
    (rmNodeResources : removeNodeResources) : Ret :=
  let rm := rmNodeResources node snr
  if rm.panicked then { node := rm.node, snr := snr, acts := rm.acts, panicked := true }
  else
    match rm.err with
    | some err => { err := some err, node := rm.node, snr := snr, acts := rm.acts }
    | none =>
      if rm.waitTime != 0 then
        { result := { RequeueAfter := rm.waitTime }, node := rm.node, snr := snr, acts := rm.acts }
      else
        let snr₁ := { snr with Status := { snr.Status with Phase := some fencingCompletedPhase } }
        let (condErr, snr₂) := updateConditions env.now remediationFinishedSuccessfully snr₁
        { err := condErr, node := rm.node, snr := snr₂,
          acts := rm.acts ++ [.event eventReasonDeleteResources] }

/-- The part of `recoverNode` after the node has been made schedulable: wait for
the unschedulable taint to go, remove the NoExecute taint, remove the finalizer.
`acts` are the calls already issued. -/
def recoverNodeTaints (env : Env) (node : Node) (snr : SelfNodeRemediation)
    (acts : List Action) : Ret :=
  if TaintExists node.Taints NodeUnschedulableTaint then
    { result := { RequeueAfter := Second }, node := node, snr := snr, acts := acts }
  else
    let taintRet := removeNoExecuteTaint env node
    match taintRet.err with
    | some err =>
      { err := some err, node := taintRet.node, snr := snr, acts := acts ++ taintRet.acts }
    | none =>
      if ContainsFinalizer snr SNRFinalizer then
        match removeFinalizer env snr with
        | (some err, snr₁, finalizerActs) =>
          { err := some err, node := taintRet.node, snr := snr₁,
            acts := acts ++ taintRet.acts ++ finalizerActs }
        | (none, snr₁, finalizerActs) =>
          { node := taintRet.node, snr := snr₁
            acts := acts ++ taintRet.acts ++ finalizerActs ++
              [.event eventReasonRemoveFinalizer, .remediationFinished] }
      else { node := taintRet.node, snr := snr, acts := acts ++ taintRet.acts }

def recoverNode (env : Env) (node : Node) (snr : SelfNodeRemediation) : Ret :=
  if node.Unschedulable then
    let node₁ := { node with Unschedulable := false }
    match env.updateNodeErr with
    | some err =>
      if IsConflict err then
        { result := { RequeueAfter := Second }, node := node₁, snr := snr,
          acts := [.updateNode node₁] }
      else { err := some err, node := node₁, snr := snr, acts := [.updateNode node₁] }
    | none =>
      recoverNodeTaints env node₁ snr [.updateNode node₁, .event eventReasonMarkSchedulable]
  else recoverNodeTaints env node snr []

def handleFencingCompletedPhase (env : Env) (node : Node) (snr : SelfNodeRemediation) : Ret :=
  match snr.DeletionTimestamp with
  | some _ => recoverNode env node snr
  | none => { node := node, snr := snr }

def remediateWithResourceRemoval (r : Reconciler) (env : Env) (snr : SelfNodeRemediation)
    (node : Node) (rmNodeResources : removeNodeResources) : Ret :=
  let phase := getPhase snr
  if phase = fencingStartedPhase then handleFencingStartedPhase env node snr
  else if phase = preRebootCompletedPhase then handlePreRebootCompletedPhase r env node snr
  else if phase = rebootCompletedPhase then handleRebootCompletedPhase env node snr rmNodeResources
  else if phase = fencingCompletedPhase then handleFencingCompletedPhase env node snr
  else { err := some (.plain "unknown phase"), node := node, snr := snr }

def deleteResourcesWrapper (env : Env) : removeNodeResources :=
  fun node _ => { waitTime := 0, err := env.deletePodsErr, node := node,
                  acts := [.deletePods node.Name] }

def remediateWithResourceDeletion (r : Reconciler) (env : Env) (snr : SelfNodeRemediation)
    (node : Node) : Ret :=
  remediateWithResourceRemoval r env snr node (deleteResourcesWrapper env)

def isPodTerminating (pod : Pod) : Bool :=
  pod.DeletionTimestamp.isSome

def isResourceDeletionCompleted (env : Env) (node : Node) : Bool :=
  match env.listPods with
  | .error _ => false
  | .ok pods =>
    if pods.any (fun pod => pod.NodeName == node.Name && isPodTerminating pod) then false
    else
      match env.listVolumeAttachments with
      | .error _ => false
      | .ok volumeAttachments =>
        if volumeAttachments.any (fun va => va.NodeName == node.Name) then false else true

/-- The function `isResourceDeletionExpired`; `none` is the nil-pointer panic of
calling `Add` through a nil `snr.Status.TimeAssumedRebooted`. -/
def isResourceDeletionExpired (env : Env) (snr : SelfNodeRemediation) :
    Option (Bool × Duration) :=
  match snr.Status.TimeAssumedRebooted with
  | none => none
  | some timeAssumedRebooted =>
    let waitTime := timeAssumedRebooted + 300 * Second
    if waitTime > env.now then some (false, 5 * Second) else some (true, 0)

def useOutOfServiceTaint (env : Env) : removeNodeResources :=
  fun node snr =>
    let addRet := addOutOfServiceTaint env node
    match addRet.err with
    | some err => { waitTime := 0, err := some err, node := addRet.node, acts := addRet.acts }
    | none =>
      if !isResourceDeletionCompleted env addRet.node then
        match isResourceDeletionExpired env snr with
        | none => { node := addRet.node, acts := addRet.acts, panicked := true }
        | some (isExpired, timeLeft) =>
          if !isExpired then { waitTime := timeLeft, node := addRet.node, acts := addRet.acts }
          else
            { waitTime := 0, err := some (.plain "Not ready to delete out-of-service taint")
              node := addRet.node, acts := addRet.acts }
      else
        let removeRet := removeOutOfServiceTaint env addRet.node
        { waitTime := 0, err := removeRet.err, node := removeRet.node
          acts := addRet.acts ++ removeRet.acts }

def remediateWithOutOfServiceTaint (r : Reconciler) (env : Env) (snr : SelfNodeRemediation)
    (node : Node) : Ret :=
  remediateWithResourceRemoval r env snr node (useOutOfServiceTaint env)

def updateSnrStatusLastError (env : Env) (snr : SelfNodeRemediation) (err : Option GoError) :
    Option GoError × SelfNodeRemediation × List Action :=
  let lastErrorVal : String :=
    match err with
    | some e => e.Error
    | none => ""
  let returned : Option GoError := if isUnreconcilableError err then none else err
  if snr.Status.LastError != lastErrorVal then
    let snr₁ := { snr with Status := { snr.Status with LastError := lastErrorVal } }
    match env.patchSnrStatusErr with
    | some updateErr => (some updateErr, snr₁, [.patchSnrStatus lastErrorVal])
    | none => (returned, snr₁, [.patchSnrStatus lastErrorVal])
  else (returned, snr, [])

/-- What `Reconcile` leaves behind: its return values, the request and node as
last held in memory (`none` when not fetched), the calls issued, and whether it
ended in a panic instead of returning. -/
structure ReconcileOut where
  result : Result := {}
  err : Option GoError := none
  snr : Option SelfNodeRemediation := none
  node : Option Node := none
  acts : List Action := []
  panicked : Bool := false

/-- The strategy switch of `Reconcile`. In the default case the source declares
a new variable `err` inside the case block, so the `result` and `err` that
`Reconcile` goes on with are left at their zero values. -/
def remediateWithStrategy (r : Reconciler) (env : Env) (snr : SelfNodeRemediation)
    (node : Node) : Ret :=
  let strategy := getRuntimeStrategy r snr
  if strategy = ResourceDeletionRemediationStrategy then
    remediateWithResourceDeletion r env snr node
  else if strategy = OutOfServiceTaintRemediationStrategy then
    remediateWithOutOfServiceTaint r env snr node
  else { node := node, snr := snr }

/-- The end of `Reconcile`, for a node that is not excluded: the
`RemediationStarted` event, the strategy switch, and the final
`updateSnrStatusLastError`. -/
def reconcileRemediation (r : Reconciler) (env : Env) (snr : SelfNodeRemediation)
    (node : Node) : ReconcileOut :=
  let startedActs : List Action :=
    if !ContainsFinalizer snr SNRFinalizer then [.event "RemediationStarted"] else []
  let ret := remediateWithStrategy r env snr node
  if ret.panicked then
    { snr := some ret.snr, node := some ret.node, acts := startedActs ++ ret.acts
      panicked := true }
  else
    match updateSnrStatusLastError env ret.snr ret.err with
    | (lastErr, snr₁, lastActs) =>
      { result := ret.result, err := lastErr, snr := some snr₁, node := some ret.node
        acts := startedActs ++ ret.acts ++ lastActs }

/-- The part of `Reconcile` from the lookup of the node on. -/
def reconcileNode (r : Reconciler) (env : Env) (snr : SelfNodeRemediation) : ReconcileOut :=
  match getNodeFromSnr env snr with
  | .error err =>
    if IsNotFound err then
      match updateConditions env.now remediationSkippedNodeNotFound snr with
      | (some updateErr, snr₁) => { err := some updateErr, snr := some snr₁ }
      | (none, snr₁) =>
        match updateSnrStatusLastError env snr₁ (some err) with
        | (lastErr, snr₂, lastActs) =>
          { err := lastErr, snr := some snr₂, acts := .getTargetNodeFailed :: lastActs }
    else
      match updateSnrStatusLastError env snr (some err) with
      | (lastErr, snr₁, lastActs) => { err := lastErr, snr := some snr₁, acts := lastActs }
  | .ok node =>
    if mapGet node.Labels excludeRemediationLabel = "true" then
      { snr := some snr, node := some node, acts := [.event eventReasonRemediationSkipped] }
    else reconcileRemediation r env snr node

/-- The part of `Reconcile` after the detector-timeout check. -/
def reconcileStarted (r : Reconciler) (env : Env) (snr : SelfNodeRemediation) : ReconcileOut :=
  if getPhase snr != fencingCompletedPhase then
    match updateConditions env.now remediationStarted snr with
    | (some err, snr₁) => { err := some err, snr := some snr₁ }
    | (none, snr₁) => reconcileNode r env snr₁
  else reconcileNode r env snr

/-- The body of `Reconcile` between the registration of the deferred status
update and the return statement that triggers it. -/
def reconcileBody (r : Reconciler) (env : Env) (snr : SelfNodeRemediation) : ReconcileOut :=
  if isStoppedByNHC snr then
    match updateConditions env.now remediationTimeoutByNHC snr with
    | (condErr, snr₁) => { err := condErr, snr := some snr₁, acts := [.remediationStoppedByNHC] }
  else reconcileStarted r env snr

/-- The deferred function of `Reconcile`: the status update and its effect on
the named return values. It also runs when the body panics; the panic then goes on. -/
def deferredStatusUpdate (env : Env) (snr : SelfNodeRemediation) (body : ReconcileOut) :
    ReconcileOut :=
  let acts := body.acts ++ [.updateSnrStatus snr.Status]
  match env.updateSnrStatusErr with
  | none => { body with acts := acts }
  | some updateErr =>
    if IsConflict updateErr then
      let minRequeue : Duration :=
        if body.result.RequeueAfter > 0 ∧ Second > body.result.RequeueAfter then
          body.result.RequeueAfter
        else Second
      if body.err = none then
        { body with result := { body.result with RequeueAfter := minRequeue }, acts := acts }
      else { body with acts := acts }
    else { body with err := some (NewAggregate updateErr body.err), acts := acts }

def Reconcile (r : Reconciler) (req : Request) (env : Env) : ReconcileOut :=
  if r.IsAgent ∧ req.Name ≠ r.MyNodeName then {}
  else
    match env.getSnr with
    | .error err => if IsNotFound err then {} else { err := some err }
    | .ok snr =>
      let body := reconcileBody r env snr
      deferredStatusUpdate env (body.snr.getD snr) body

/-! ## Runs of the reconciler -/

/-- Whether a call removes resources of the node: the deletion of its pods, or
a patch that adds or removes the out-of-service taint. -/
def isResourceRemoval : Action → Bool
  | .deletePods _ => true
  | .patchNode taint _ _ => taint == OutOfServiceTaint
  | _ => false

/-- Whether `r.Client.Status().Patch` was among the calls issued. -/
def issuedPatchSnrStatus (acts : List Action) : Bool :=
  acts.any (fun a => match a with
    | .patchSnrStatus _ => true
    | _ => false)

/-- Whether `r.Client.Update(ctx, snr)` was among the calls issued. -/
def issuedUpdateSnr (acts : List Action) : Bool :=
  acts.any (fun a => match a with
    | .updateSnr _ => true
    | _ => false)

/-- The status of the request in the store after an invocation that fetched
`before`: the status sent by the deferred update when that update succeeded;
otherwise the status fetched, with the last error of a successful status patch. -/
def storedStatus (env : Env) (before : SelfNodeRemediation) (out : ReconcileOut) :
    SelfNodeRemediationStatus :=
  match out.snr with
  | none => before.Status
  | some snr =>
    if env.updateSnrStatusErr = none then snr.Status
    else if issuedPatchSnrStatus out.acts ∧ env.patchSnrStatusErr = none then
      { before.Status with LastError := snr.Status.LastError }
    else before.Status

/-- The finalizers of the request in the store after an invocation that fetched
`before`: those sent by a successful `r.Client.Update(ctx, snr)`, otherwise
those fetched. -/
def storedFinalizers (env : Env) (before : SelfNodeRemediation) (out : ReconcileOut) :
    List String :=
  match out.snr with
  | none => before.Finalizers
  | some snr =>
    if issuedUpdateSnr out.acts ∧ env.updateSnrErr = none then snr.Finalizers
    else before.Finalizers

/-- The requests that a sequence of `Reconcile` invocations under a
non-decreasing clock can find in the store, starting from a fresh request (no
phase, no `timeAssumedRebooted`), together with the clock value of the last
invocation. Each invocation may be made by any reconciler (manager or agent)
in any environment that hands it the stored request. Status and finalizers
are written by the reconciler alone; the other fields of the request belong
to other actors and may change between invocations. -/
inductive Reachable : SelfNodeRemediation → Time → Prop where
  | fresh (snr : SelfNodeRemediation) (clock : Time) :
      snr.Status.Phase = none → snr.Status.TimeAssumedRebooted = none → Reachable snr clock
  | reconcile (snr next : SelfNodeRemediation) (clock : Time) (r : Reconciler)
      (req : Request) (env : Env) :
      Reachable snr clock → clock ≤ env.now → env.getSnr = .ok snr →
      next.Status = storedStatus env snr (Reconcile r req env) →
      next.Finalizers = storedFinalizers env snr (Reconcile r req env) →
      Reachable next env.now

/-- How one invocation at `env.now` may move phase and `timeAssumedRebooted`
from the status `a` to the status `b`. -/
def StatusStep (env : Env) (a b : SelfNodeRemediationStatus) : Prop :=
  (b.Phase = a.Phase ∧ b.TimeAssumedRebooted = a.TimeAssumedRebooted) ∨
  (a.Phase = none ∧ b.Phase = some preRebootCompletedPhase ∧
    ((IsZero a.TimeAssumedRebooted = false ∧ b.TimeAssumedRebooted = a.TimeAssumedRebooted) ∨
     (IsZero a.TimeAssumedRebooted = true ∧
       ∃ d, env.timeToAssumeNodeRebooted = .ok d ∧ b.TimeAssumedRebooted = some (env.now + d)))) ∨
  (a.Phase = some preRebootCompletedPhase ∧ b.Phase = some rebootCompletedPhase ∧
    b.TimeAssumedRebooted = a.TimeAssumedRebooted ∧
    ∃ t, a.TimeAssumedRebooted = some t ∧ t ≤ env.now) ∨
  (a.Phase = some rebootCompletedPhase ∧ b.Phase = some fencingCompletedPhase ∧
    b.TimeAssumedRebooted = a.TimeAssumedRebooted)

/-- The safe-time invariant of a stored request at clock value `clock`: once a
phase is recorded, `timeAssumedRebooted` is recorded too, the phase is one of
the three that the reconciler writes, and from Reboot-Completed on the
recorded time is not later than the clock. -/
def SafeTime (snr : SelfNodeRemediation) (clock : Time) : Prop :=
  snr.Status.Phase = none ∨
  ∃ t, snr.Status.TimeAssumedRebooted = some t ∧
    (snr.Status.Phase = some preRebootCompletedPhase ∨
      ((snr.Status.Phase = some rebootCompletedPhase ∨
          snr.Status.Phase = some fencingCompletedPhase) ∧ t ≤ clock))

/-- The order of the phases: `b` is `a` or the phase right after `a`. -/
def PhaseOrder (a b : remediationPhase) : Prop :=
  b = a ∨
  (a = fencingStartedPhase ∧ b = preRebootCompletedPhase) ∨
  (a = preRebootCompletedPhase ∧ b = rebootCompletedPhase) ∨
  (a = rebootCompletedPhase ∧ b = fencingCompletedPhase)

/-- The statuses that `updateConditions` assigns for a recognised reason: the
cases of its switch. -/
def RecognisedReason (reason : processingChangeReason)
    (processing succeeded : ConditionStatus) : Prop :=
  (reason = remediationStarted ∧ processing = .ConditionTrue ∧
    succeeded = .ConditionUnknown) ∨
  (reason = remediationFinishedSuccessfully ∧ processing = .ConditionFalse ∧
    succeeded = .ConditionTrue) ∨
  (reason = remediationTimeoutByNHC ∧ processing = .ConditionFalse ∧
    succeeded = .ConditionFalse) ∨
  (reason = remediationSkippedNodeNotFound ∧ processing = .ConditionFalse ∧
    succeeded = .ConditionFalse)

/-- The reason carried by the first condition of a type, if there is one. -/
def conditionReason (conditions : List Condition) (conditionType : String) : Option String :=
  (FindStatusCondition conditions conditionType).map (fun c => c.Reason)

/-! ## Example data -/

/-- A reconciler in manager mode. -/
def exManager : Reconciler :=
  { MyNodeName := "", IsAgent := false, IsOutOfServiceTaintGA := false,
    TimeToAssumeRebootHasStarted := 10 * Second }

/-- A reboot-capable node that is already tainted and unschedulable. -/
def exNode : Node :=
  { Name := "node-1"
    Annotations := some [( IsRebootCapableAnnotation, "true")]
    Unschedulable := true
    Taints := [NodeUnschedulableTaint, NodeNoExecuteTaint] }

/-- An environment in which every reading of the clock is `now`, the store
holds `snr`, the node of every request is `exNode`, and every call succeeds;
the safe time to assume a reboot is 180 seconds. -/
def exEnv (now : Time) (snr : SelfNodeRemediation) : Env :=
  { now := now
    nowAgain := now
    getSnr := .ok snr
    getNode := fun _ _ => .ok exNode
    getMachine := fun _ _ => .error (.notFound "machine not found")
    agentPodErr := fun _ => none
    updateSnrErr := none
    updateNodeErr := none
    patchNodeErr := fun _ _ => none
    patchSnrStatusErr := none
    updateSnrStatusErr := none
    timeToAssumeNodeRebooted := .ok (180 * Second)
    uptime := .ok (3600 * Second)
    rebootErr := none
    deletePodsErr := none
    listPods := .ok []
    listVolumeAttachments := .ok [] }

def exRequest : Request := { Name := "node-1" }

/-- A fresh request for `exNode` that already carries the finalizer. -/
def exFresh : SelfNodeRemediation :=
  { Name := "node-1"
    Finalizers := [SNRFinalizer]
    Spec := { RemediationStrategy := ResourceDeletionRemediationStrategy } }

/-- The request `exFresh` after the invocation at clock value 1000. -/
def exPreReboot : SelfNodeRemediation :=
  { exFresh with
    Status := storedStatus (exEnv 1000 exFresh) exFresh
      (Reconcile exManager exRequest (exEnv 1000 exFresh)) }

/-- The request `exPreReboot` after the invocation 180 seconds later. -/
def exRebooted : SelfNodeRemediation :=
  { exFresh with
    Status := storedStatus (exEnv (1000 + 180 * Second) exPreReboot) exPreReboot
      (Reconcile exManager exRequest (exEnv (1000 + 180 * Second) exPreReboot)) }

/-- A reconciler running as the agent of `exNode`. -/
def exAgent : Reconciler :=
  { MyNodeName := "node-1", IsAgent := true, IsOutOfServiceTaintGA := false,
    TimeToAssumeRebootHasStarted := 10 * Second }

/-- A node without the annotation `is-reboot-capable`. -/
def exIncapableNode : Node :=
  { Name := "node-1", Annotations := some [("other", "true")] }

/-- A request created at instant 100. -/
def exCreatedAt100 : SelfNodeRemediation :=
  { exFresh with CreationTimestamp := 100 }

/-- An environment at clock value 110 with an uptime of 10: the node booted at
instant 100. -/
def exEnvBootedAt100 : Env :=
  { exEnv 110 exCreatedAt100 with uptime := .ok 10 }

/-- A request for `exNode` in phase Pre-Reboot-Completed that carries the
finalizer and the `nhc-timed-out` annotation, and is not being deleted. -/
def exTimedOut : SelfNodeRemediation :=
  { exPreReboot with Annotations := some [( nhcTimeOutAnnotation, "")] }

/-- A node carrying the label `exclude-from-remediation=true`. -/
def exExcludedNode : Node :=
  { exNode with Labels := [(excludeRemediationLabel, "true")] }

/-- The environment `exEnv` with `exExcludedNode` as the node of every request. -/
def exEnvExcluded (now : Time) (snr : SelfNodeRemediation) : Env :=
  { exEnv now snr with getNode := fun _ _ => .ok exExcludedNode }

/-- A request whose node was not found: both conditions are false with reason
`RemediationSkippedNodeNotFound`; the detector has since added the
`nhc-timed-out` annotation. -/
def exSkippedThenTimedOut : SelfNodeRemediation :=
  { Name := "node-1"
    Annotations := some [( nhcTimeOutAnnotation, "")]
    Spec := { RemediationStrategy := ResourceDeletionRemediationStrategy }
    Status :=
      { Conditions :=
          [{ type := ProcessingConditionType, Status := .ConditionFalse
             Reason := remediationSkippedNodeNotFound, LastTransitionTime := 500 },
           { type := SucceededConditionType, Status := .ConditionFalse
             Reason := remediationSkippedNodeNotFound, LastTransitionTime := 500 }] } }

/-- A request in phase Reboot-Completed under the strategy OutOfServiceTaint. -/
def exRebootedOutOfService : SelfNodeRemediation :=
  { exRebooted with Spec := { RemediationStrategy := OutOfServiceTaintRemediationStrategy } }

/-- The environment `exEnv` in which the node of the request still has a
running pod (one without deletion timestamp) and no volume attachment. -/
def exEnvRunningPod (now : Time) (snr : SelfNodeRemediation) : Env :=
  { exEnv now snr with listPods := .ok [{ Name := "workload", NodeName := "node-1" }] }

/-- The environment `exEnv` in which the node of the request still has a
terminating pod. -/
def exEnvTerminatingPod (now : Time) (snr : SelfNodeRemediation) : Env :=
  { exEnv now snr with
    listPods := .ok [{ Name := "workload", NodeName := "node-1", DeletionTimestamp := some 900 }] }

/-- A request in phase Fencing-Completed that is being deleted. -/
def exCompletedDeleting : SelfNodeRemediation :=
  { exRebooted with
    DeletionTimestamp := some 5000
    Status := { exRebooted.Status with Phase := some fencingCompletedPhase } }

/-- The node `exNode` once the unschedulable taint has gone. -/
def exNodeSchedulable : Node :=
  { exNode with Unschedulable := false, Taints := [NodeNoExecuteTaint] }

/-- The conditions grid: the first Processing and the first Succeeded condition
are present with statuses (True, Unknown), (False, True) or (False, False). -/
def ConditionsGrid (conditions : List Condition) : Prop :=
  (IsStatusConditionPresentAndEqual conditions ProcessingConditionType .ConditionTrue = true ∧
    IsStatusConditionPresentAndEqual conditions SucceededConditionType .ConditionUnknown = true) ∨
  (IsStatusConditionPresentAndEqual conditions ProcessingConditionType .ConditionFalse = true ∧
    IsStatusConditionPresentAndEqual conditions SucceededConditionType .ConditionTrue = true) ∨
  (IsStatusConditionPresentAndEqual conditions ProcessingConditionType .ConditionFalse = true ∧
    IsStatusConditionPresentAndEqual conditions SucceededConditionType .ConditionFalse = true)

/-- What an invocation may do to the conditions `a`: leave them, or leave
conditions of the grid. -/
def ConditionsStep (a b : List Condition) : Prop :=
  b = a ∨ ConditionsGrid b

/-- The requests that a sequence of `Reconcile` invocations can find in the
store when it starts from the request `start`, with any reconciler and any
environment at each invocation. Status and finalizers are written by the
reconciler alone. -/
inductive ReachableFrom (start : SelfNodeRemediation) : SelfNodeRemediation → Prop where
  | start : ReachableFrom start start
  | reconcile (snr next : SelfNodeRemediation) (r : Reconciler) (req : Request) (env : Env) :
      ReachableFrom start snr → env.getSnr = .ok snr →
      next.Status = storedStatus env snr (Reconcile r req env) →
      next.Finalizers = storedFinalizers env snr (Reconcile r req env) →
      ReachableFrom start next

/-- A request with an unsupported strategy and a recorded last error. -/
def exUnsupported : SelfNodeRemediation :=
  { exFresh with
    Spec := { RemediationStrategy := "Unsupported" }
    Status := { LastError := "failed to get node" } }

/-- A fresh request without finalizer. -/
def exFreshNoFinalizer : SelfNodeRemediation :=
  { Name := "node-1"
    Spec := { RemediationStrategy := ResourceDeletionRemediationStrategy } }

/-- The environment `exEnv` with `exIncapableNode` as the node of every
request. -/
def exEnvIncapable (now : Time) (snr : SelfNodeRemediation) : Env :=
  { exEnv now snr with getNode := fun _ _ => .ok exIncapableNode }

/-- The request `exFreshNoFinalizer` as stored after an invocation at clock value
1000 that found the node unable to reboot. -/
def exAfterGate : SelfNodeRemediation :=
  { exFreshNoFinalizer with
    Status := storedStatus (exEnvIncapable 1000 exFreshNoFinalizer) exFreshNoFinalizer
      (Reconcile exManager exRequest (exEnvIncapable 1000 exFreshNoFinalizer))
    Finalizers := storedFinalizers (exEnvIncapable 1000 exFreshNoFinalizer) exFreshNoFinalizer
      (Reconcile exManager exRequest (exEnvIncapable 1000 exFreshNoFinalizer)) }

/-- The pods and volume attachments of the cluster. -/
structure Cluster where
  pods : List Pod
  volumeAttachments : List VolumeAttachment
  deriving DecidableEq, Repr

/-- Modelled from the spec: `resources.DeletePods` of the library
`github.com/medik8s/common`, which `deleteResourcesWrapper` calls with the name
of the node and whose source is not among the sources. The spec says of the
strategy ResourceDeletion: delete all pods scheduled on the node plus all
volume attachments referencing it. -/
def DeletePods (cluster : Cluster) (nodeName : String) : Cluster :=
  { pods := cluster.pods.filter (fun pod => pod.NodeName != nodeName)
    volumeAttachments := cluster.volumeAttachments.filter (fun va => va.NodeName != nodeName) }

/-- The pods and volume attachments of the cluster after the calls `acts` of an
invocation in the environment `env`: a `resources.DeletePods` call that
succeeds takes effect; the other calls write nodes and requests only, and of
a failed deletion nothing is said, so they leave the cluster as it is. -/
def clusterAfter (env : Env) (cluster : Cluster) (acts : List Action) : Cluster :=
  acts.foldl (fun c a =>
    match a, env.deletePodsErr with
    | .deletePods nodeName, none => DeletePods c nodeName
    | _, _ => c) cluster

/-- A cluster with a pod and a volume attachment on `node-1` and on `node-2`. -/
def exCluster : Cluster :=
  { pods := [{ Name := "a", NodeName := "node-1" }, { Name := "b", NodeName := "node-2" }]
    volumeAttachments := [{ Name := "va-a", NodeName := "node-1" },
      { Name := "va-b", NodeName := "node-2" }] }

/-- What one invocation that fetched `snr`, left `s` in memory and issued the
calls `acts` does about the finalizer: `r.Client.Update(ctx, snr)` is called
only while no phase is recorded or in phase Fencing-Completed, and then the
phase stays as it was; and a first phase is recorded only for a request that
carries the finalizer. -/
def FinalizerStep (snr s : SelfNodeRemediation) (acts : List Action) : Prop :=
  (issuedUpdateSnr acts = true →
    s.Status.Phase = snr.Status.Phase ∧
    (snr.Status.Phase = none ∨ snr.Status.Phase = some fencingCompletedPhase)) ∧
  (snr.Status.Phase = none → s.Status.Phase ≠ none →
    ContainsFinalizer snr SNRFinalizer = true)

/-- The runs of the reconciler from a fresh request in which every invocation
reads a clock later than `epoch` and a safe time to assume the reboot that is
not negative. Each invocation may be made by any reconciler in any such
environment that hands it the stored request. -/
inductive ReachableAfter (epoch : Time) : SelfNodeRemediation → Prop where
  | fresh (snr : SelfNodeRemediation) :
      snr.Status.Phase = none → snr.Status.TimeAssumedRebooted = none →
      ReachableAfter epoch snr
  | reconcile (snr next : SelfNodeRemediation) (r : Reconciler) (req : Request) (env : Env) :
      ReachableAfter epoch snr → epoch < env.now →
      (∀ d, env.timeToAssumeNodeRebooted = .ok d → 0 ≤ d) →
      env.getSnr = .ok snr →
      next.Status = storedStatus env snr (Reconcile r req env) →
      next.Finalizers = storedFinalizers env snr (Reconcile r req env) →
      ReachableAfter epoch next

/-- The environment `exEnv` in which no node is found. -/
def exEnvNodeMissing (now : Time) (snr : SelfNodeRemediation) : Env :=
  { exEnv now snr with getNode := fun _ _ => .error (.notFound "nodes \"node-1\" not found") }

/-- The environment `exEnv` in which the status update meets a conflict. -/
def exEnvConflict (now : Time) (snr : SelfNodeRemediation) : Env :=
  { exEnv now snr with updateSnrStatusErr := some (.conflict "the object has been modified") }

/-- An environment for the request `exPreReboot`, whose `timeAssumedRebooted`
is `1000 + 180s`: the clock shows one nanosecond less at the first reading and
100 nanoseconds more at the second reading of `wasNodeRebooted`. -/
def exEnvClockMoves : Env :=
  { exEnv (1000 + 180 * Second - 1) exPreReboot with nowAgain := 1000 + 180 * Second + 100 }

/-- The environment `exEnvClockMoves` in which the status update meets a
conflict. -/
def exEnvClockMovesConflict : Env :=
  { exEnvClockMoves with
    updateSnrStatusErr := some (.conflict "the object has been modified") }

/-! ## The peer health server (`pkg/peerhealth/server.go`) -/

/-- Modelled from the spec: the type `selfNodeRemediationApis.HealthCheckResponseCode`
and its constants, declared in a package that is not among the sources. The
spec gives the status of a response as one of `Healthy`, `Unhealthy`,
`ApiError`; the code only compares the constants with each other and converts
them to the `int32` of the response. -/
inductive HealthCheckResponseCode where
  | Healthy
  | Unhealthy
  | ApiError
  deriving DecidableEq, Repr

/-- The message `HealthRequest` with the two fields that `IsHealthy` reads. The
handler receives the message decoded by the RPC runtime, a non-nil pointer. -/
structure HealthRequest where
  NodeName : String := ""
  MachineName : String := ""
  deriving DecidableEq, Repr

/-- The message `HealthResponse`; `Status` holds the response code that the
code converts to `int32`. -/
structure HealthResponse where
  Status : HealthCheckResponseCode
  deriving DecidableEq, Repr

/-- What the API server answers to the calls of one `IsHealthy` invocation. -/
structure ServerEnv where
  /-- The answer to `s.snr.List(ctx, snrs)`: the items of the list. -/
  listSnrs : Except GoError (List SelfNodeRemediation)
  /-- The error of `s.client.Resource(snrRes).Namespace(ns).Get(apiCtx, name, ...)`
  for a name and a namespace, the expiry of the context included; `none` when a
  request of that name is found. -/
  getSnrErr : String → String → Option GoError

def isHealthyBySnr (env : ServerEnv) (snrName : String) (snrNamespace : String) :
    HealthCheckResponseCode :=
  match env.getSnrErr snrName snrNamespace with
  | some err => if IsNotFound err then .Healthy else .ApiError
  | none => .Unhealthy

def toResponse (status : HealthCheckResponseCode) : Except GoError HealthResponse :=
  .ok { Status := status }

/-- The `for` loop of `IsHealthy` over `snrs.Items` with the return statement
that follows it. -/
def isHealthyOverSnrs (env : ServerEnv) (request : HealthRequest) :
    List SelfNodeRemediation → Except GoError HealthResponse
  | [] => toResponse .Healthy
  | snr :: rest =>
    if IsOwnedByNHC snr then
      let healthCode := isHealthyBySnr env request.NodeName snr.Namespace
      if healthCode ≠ .Healthy then toResponse healthCode
      else isHealthyOverSnrs env request rest
    else
      let healthCode := isHealthyBySnr env request.MachineName snr.Namespace
      if healthCode ≠ .Healthy then toResponse healthCode
      else isHealthyOverSnrs env request rest

/-- The method `IsHealthy`; `.error` is the return of a nil response with an error. -/
def IsHealthy (env : ServerEnv) (request : HealthRequest) : Except GoError HealthResponse :=
  let nodeName := request.NodeName
  if nodeName = "" then .error (.plain "empty node name in HealthRequest")
  else
    match env.listSnrs with
    | .error err => .error err
    | .ok snrs => isHealthyOverSnrs env request snrs

/-- The name that the loop of `IsHealthy` passes to `isHealthyBySnr` for the
listed request `snr`. -/
def serverLookupName (request : HealthRequest) (snr : SelfNodeRemediation) : String :=
  if IsOwnedByNHC snr then request.NodeName else request.MachineName

/-- The agreement of reconciler and server as the claim words it: the request
is owned by a NodeHealthCheck or has no owner reference of kind Machine, which
is when `getNodeFromSnr` takes the node from the name of the request. -/
def resolvesByOwnName (snr : SelfNodeRemediation) : Bool :=
  IsOwnedByNHC snr || !snr.OwnerReferences.any (fun ownerRef => ownerRef.Kind == "Machine")

/-- A health request for `node-1`, the node of the machine `machine-1`. -/
def exHealthRequest : HealthRequest :=
  { NodeName := "node-1", MachineName := "machine-1" }

/-- A health request for `node-2`, the node of the machine `machine-2`. -/
def exOtherHealthRequest : HealthRequest :=
  { NodeName := "node-2", MachineName := "machine-2" }

/-- A request for `node-1` in the namespace `ns`, owned by a NodeHealthCheck. -/
def exOwnedByNHC : SelfNodeRemediation :=
  { exFresh with
    Namespace := "ns"
    OwnerReferences := [{ Kind := "NodeHealthCheck", Name := "nhc" }] }

/-- A request for `node-1` in the namespace `ns` without owner references. -/
def exNoOwner : SelfNodeRemediation :=
  { exFresh with Namespace := "ns" }

/-- An API server whose store holds exactly the requests `store`: the list
returns them and a lookup finds a request by name and namespace. -/
def exServerEnv (store : List SelfNodeRemediation) : ServerEnv :=
  { listSnrs := .ok store
    getSnrErr := fun name ns =>
      if store.any (fun snr => snr.Name == name && snr.Namespace == ns) then none
      else some (.notFound ("selfnoderemediations \"" ++ name ++ "\" not found")) }

/-- An API server that lists `store` and fails every lookup with a timeout. -/
def exServerEnvLookupFails (store : List SelfNodeRemediation) : ServerEnv :=
  { listSnrs := .ok store
    getSnrErr := fun _ _ => some (.plain "context deadline exceeded") }

/-- An API server whose list call fails. -/
def exServerEnvListFails : ServerEnv :=
  { listSnrs := .error (.plain "context deadline exceeded")
    getSnrErr := fun _ _ => some (.plain "context deadline exceeded") }

/-! ## The control-plane manager (`pkg/controlplane/manager.go`) -/

/-- Modelled from the spec: the reasons of a `peers.Response`, declared in the
package `peers`, which is not among the sources. The six constants are those
that `IsControlPlaneHealthy` names, pairwise different as the cases of one
switch are; `other` stands for every further value of the type. -/
inductive Reason where
  | UnHealthyBecausePeersResponse
  | UnHealthyBecauseNodeIsIsolated
  | HealthyBecauseErrorsThresholdNotReached
  | HealthyBecauseCRNotFound
  | HealthyBecauseMostPeersCantAccessAPIServer
  | HealthyBecauseNoPeersWereFound
  | other (reason : String)
  deriving DecidableEq, Repr

/-- The type `peers.Response`. -/
structure Response where
  IsHealthy : Bool
  Reason : Reason
  deriving DecidableEq, Repr

/-- The fields of `Manager` that the health decision reads. -/
structure Manager where
  nodeName : String
  endpointHealthCheckUrl : String
  wasEndpointAccessibleAtStart : Bool
  deriving DecidableEq, Repr

def kubeletPort : String := "10250"

/-- The state of the node and its network that the diagnostics of the manager
look at. -/
structure ManagerEnv where
  /-- Whether `ping.NewPinger(url)` returns no error. -/
  newPingerOk : String → Bool
  /-- Whether `pinger.Run()` returns no error, for the URL of the pinger. -/
  pingerRunOk : String → Bool
  /-- Whether the command `curl -k -X GET url` runs without error. -/
  curlOk : String → Bool
  /-- Whether etcd is running on the node. -/
  etcdRunning : Bool

def isEndpointAccessible (env : ManagerEnv) (manager : Manager) : Bool :=
  if manager.endpointHealthCheckUrl.length = 0 then true
  else if !env.newPingerOk manager.endpointHealthCheckUrl then false
  else if !env.pingerRunOk manager.endpointHealthCheckUrl then false
  else true

def isEndpointAccessLost (env : ManagerEnv) (manager : Manager) : Bool :=
  if !manager.wasEndpointAccessibleAtStart then false
  else !isEndpointAccessible env manager

def isKubeletServiceRunning (env : ManagerEnv) (manager : Manager) : Bool :=
  let url := "https://" ++ manager.nodeName ++ ":" ++ kubeletPort ++ "/pods"
  if !env.curlOk url then false else true

/-- The function `isEtcdRunning`: its body is `return true` under a comment
that leaves the implementation to be done; it reads nothing. -/
def isEtcdRunning (_env : ManagerEnv) (_manager : Manager) : Bool :=
  true

def isDiagnosticsPassed (env : ManagerEnv) (manager : Manager) : Bool :=
  if isEndpointAccessLost env manager then false
  else if !isKubeletServiceRunning env manager then false
  else if !isEtcdRunning env manager then false
  else true

def IsControlPlaneHealthy (env : ManagerEnv) (manager : Manager)
    (workerPeerResponse : Response) (canOtherMastersBeReached : Bool) : Bool :=
  match workerPeerResponse.Reason with
  | .UnHealthyBecausePeersResponse => false
  | .UnHealthyBecauseNodeIsIsolated => canOtherMastersBeReached
  | .HealthyBecauseErrorsThresholdNotReached => true
  | .HealthyBecauseCRNotFound => true
  | .HealthyBecauseMostPeersCantAccessAPIServer => isDiagnosticsPassed env manager
  | .HealthyBecauseNoPeersWereFound =>
    isDiagnosticsPassed env manager && canOtherMastersBeReached
  | .other _ => false

/-- A control-plane manager without health endpoint. -/
def exControlPlane : Manager :=
  { nodeName := "master-0", endpointHealthCheckUrl := "", wasEndpointAccessibleAtStart := true }

/-- A node on which endpoint and kubelet answer and etcd is not running. -/
def exEnvEtcdDown : ManagerEnv :=
  { newPingerOk := fun _ => true, pingerRunOk := fun _ => true, curlOk := fun _ => true
    etcdRunning := false }

/-- A node on which the kubelet does not answer. -/
def exEnvKubeletDown : ManagerEnv :=
  { newPingerOk := fun _ => true, pingerRunOk := fun _ => true, curlOk := fun _ => false
    etcdRunning := true }

/-! ## The default configuration (`api/v1alpha2/selfnoderemediationconfig_types.go`) -/

def ConfigCRName : String := "self-node-remediation-config"

def defaultWatchdogPath : String := "/dev/watchdog"

def defaultSafetToAssumeNodeRebootTimeout : Int := 180

def defaultIsSoftwareRebootEnabled : Bool := true

/-- The type `SelfNodeRemediationConfigSpec`; the defaults of the fields are the
zero values of Go. -/
structure SelfNodeRemediationConfigSpec where
  WatchdogFilePath : String := ""
  SafeTimeToAssumeNodeRebootedSeconds : Int := 0
  PeerApiServerTimeout : Option Duration := none
  ApiCheckInterval : Option Duration := none
  PeerUpdateInterval : Option Duration := none
  ApiServerTimeout : Option Duration := none
  PeerDialTimeout : Option Duration := none
  PeerRequestTimeout : Option Duration := none
  MaxApiErrorThreshold : Int := 0
  IsSoftwareRebootEnabled : Bool := false
  deriving DecidableEq, Repr

/-- The type `SelfNodeRemediationConfig` with the name of its object metadata. -/
structure SelfNodeRemediationConfig where
  Name : String := ""
  Spec : SelfNodeRemediationConfigSpec := {}
  deriving DecidableEq, Repr

def NewDefaultSelfNodeRemediationConfig : SelfNodeRemediationConfig :=
  { Name := ConfigCRName
    Spec :=
      { WatchdogFilePath := defaultWatchdogPath
        SafeTimeToAssumeNodeRebootedSeconds := defaultSafetToAssumeNodeRebootTimeout
        IsSoftwareRebootEnabled := defaultIsSoftwareRebootEnabled } }

/-! ## Lemmas: what one invocation does to phase and `timeAssumedRebooted` -/

theorem updateConditions_frame (now : Time) (reason : processingChangeReason)
    (snr : SelfNodeRemediation) :
    ∃ cs, (updateConditions now reason snr).2 =
      { snr with Status := { snr.Status with Conditions := cs } } := by
  unfold updateConditions
  simp only []
  split
  · exact ⟨snr.Status.Conditions, rfl⟩
  · split
    · exact ⟨snr.Status.Conditions, rfl⟩
    · exact ⟨_, rfl⟩

theorem updateSnrStatusLastError_frame (env : Env) (snr : SelfNodeRemediation)
    (err : Option GoError) :
    ∃ v, (updateSnrStatusLastError env snr err).2.1 =
      { snr with Status := { snr.Status with LastError := v } } := by
  unfold updateSnrStatusLastError
  simp only []
  split
  · split
    · exact ⟨_, rfl⟩
    · exact ⟨_, rfl⟩
  · exact ⟨snr.Status.LastError, rfl⟩

theorem addFinalizer_status (env : Env) (node : Node) (snr : SelfNodeRemediation) :
    (addFinalizer env node snr).snr.Status = snr.Status := by
  unfold addFinalizer AddFinalizer
  repeat' split
  all_goals rfl

theorem markNodeAsUnschedulable_snr (env : Env) (node : Node) (snr : SelfNodeRemediation) :
    (markNodeAsUnschedulable env node snr).snr = snr := by
  unfold markNodeAsUnschedulable
  repeat' split
  all_goals rfl

theorem prepareReboot_step (env : Env) (node : Node) (snr : SelfNodeRemediation)
    (hphase : snr.Status.Phase = none) :
    StatusStep env snr.Status (prepareReboot env node snr).snr.Status := by
  unfold prepareReboot
  split
  · exact Or.inl ⟨rfl, rfl⟩
  · split
    · rw [addFinalizer_status]; exact Or.inl ⟨rfl, rfl⟩
    · simp only []
      split
      · exact Or.inl ⟨rfl, rfl⟩
      · split
        · simp only [markNodeAsUnschedulable_snr]; exact Or.inl ⟨rfl, rfl⟩
        · by_cases hz : IsZero snr.Status.TimeAssumedRebooted = true
          · simp only [hz, if_true]
            unfold updateTimeAssumedRebooted
            cases hd : env.timeToAssumeNodeRebooted with
            | error e => exact Or.inl ⟨rfl, rfl⟩
            | ok d =>
              refine Or.inr (Or.inl ⟨hphase, rfl, Or.inr ⟨hz, d, hd, rfl⟩⟩)
          · simp only [hz]
            refine Or.inr (Or.inl ⟨hphase, rfl, Or.inl ⟨by simpa using hz, rfl⟩⟩)

theorem statusStep_congr {env : Env} {a b a' b' : SelfNodeRemediationStatus}
    (h : StatusStep env a b) (hap : a'.Phase = a.Phase)
    (hat : a'.TimeAssumedRebooted = a.TimeAssumedRebooted) (hbp : b'.Phase = b.Phase)
    (hbt : b'.TimeAssumedRebooted = b.TimeAssumedRebooted) : StatusStep env a' b' := by
  unfold StatusStep at *
  rw [hap, hat, hbp, hbt]
  exact h

theorem getPhase_fencingStarted (snr : SelfNodeRemediation) :
    getPhase snr = fencingStartedPhase ↔ snr.Status.Phase = none := by
  unfold getPhase
  cases h : snr.Status.Phase with
  | none => simp
  | some p =>
    simp only [reduceCtorEq, iff_false]
    split
    · rename_i hp
      rcases hp with hp | hp | hp <;> rw [hp] <;> decide
    · decide

theorem getPhase_preRebootCompleted (snr : SelfNodeRemediation) :
    getPhase snr = preRebootCompletedPhase ↔
      snr.Status.Phase = some preRebootCompletedPhase := by
  unfold getPhase
  cases h : snr.Status.Phase with
  | none => simp; decide
  | some p =>
    simp only [Option.some.injEq]
    split
    · rfl
    · rename_i hp
      constructor
      · intro h'; exact absurd h' (by decide)
      · intro h'; exact absurd (Or.inl h') hp

theorem getPhase_rebootCompleted (snr : SelfNodeRemediation) :
    getPhase snr = rebootCompletedPhase ↔ snr.Status.Phase = some rebootCompletedPhase := by
  unfold getPhase
  cases h : snr.Status.Phase with
  | none => simp; decide
  | some p =>
    simp only [Option.some.injEq]
    split
    · rfl
    · rename_i hp
      constructor
      · intro h'; exact absurd h' (by decide)
      · intro h'; exact absurd (Or.inr (Or.inl h')) hp

theorem getPhase_fencingCompleted (snr : SelfNodeRemediation) :
    getPhase snr = fencingCompletedPhase ↔
      snr.Status.Phase = some fencingCompletedPhase := by
  unfold getPhase
  cases h : snr.Status.Phase with
  | none => simp; decide
  | some p =>
    simp only [Option.some.injEq]
    split
    · rfl
    · rename_i hp
      constructor
      · intro h'; exact absurd h' (by decide)
      · intro h'; exact absurd (Or.inr (Or.inr h')) hp

theorem rebootIfNeeded_snr (r : Reconciler) (env : Env) (snr : SelfNodeRemediation)
    (node : Node) : (rebootIfNeeded r env snr node).snr = snr := by
  unfold rebootIfNeeded
  repeat' split
  all_goals rfl

theorem rebootNode_step (r : Reconciler) (env : Env) (node : Node)
    (snr : SelfNodeRemediation) (hphase : snr.Status.Phase = some preRebootCompletedPhase) :
    StatusStep env snr.Status (rebootNode r env node snr).snr.Status := by
  unfold rebootNode
  split
  · rw [rebootIfNeeded_snr]; exact Or.inl ⟨rfl, rfl⟩
  · unfold wasNodeRebooted
    cases ht : snr.Status.TimeAssumedRebooted with
    | none => exact Or.inl ⟨rfl, rfl⟩
    | some t =>
      by_cases hlt : t > env.now
      · simp only [hlt, if_true]
        exact Or.inl ⟨rfl, rfl⟩
      · simp only [hlt, if_false]
        exact Or.inr (Or.inr (Or.inl ⟨hphase, rfl, rfl, t, ht, not_lt.mp hlt⟩))

theorem handleRebootCompletedPhase_step (env : Env) (node : Node)
    (snr : SelfNodeRemediation) (rm : removeNodeResources)
    (hphase : snr.Status.Phase = some rebootCompletedPhase) :
    StatusStep env snr.Status (handleRebootCompletedPhase env node snr rm).snr.Status := by
  unfold handleRebootCompletedPhase
  simp only []
  split
  · exact Or.inl ⟨rfl, rfl⟩
  · split
    · exact Or.inl ⟨rfl, rfl⟩
    · split
      · exact Or.inl ⟨rfl, rfl⟩
      · obtain ⟨cs, hcs⟩ := updateConditions_frame env.now remediationFinishedSuccessfully
          { snr with Status := { snr.Status with Phase := some fencingCompletedPhase } }
        simp only [hcs]
        exact Or.inr (Or.inr (Or.inr ⟨hphase, rfl, rfl⟩))

theorem removeFinalizer_status (env : Env) (snr : SelfNodeRemediation) :
    (removeFinalizer env snr).2.1.Status = snr.Status := rfl

theorem recoverNodeTaints_status (env : Env) (node : Node) (snr : SelfNodeRemediation)
    (acts : List Action) : (recoverNodeTaints env node snr acts).snr.Status = snr.Status := by
  unfold recoverNodeTaints
  split
  · rfl
  · simp only []
    split
    · rfl
    · split
      · split
        · rename_i h; rw [← removeFinalizer_status env snr, h]
        · rename_i h; rw [← removeFinalizer_status env snr, h]
      · rfl

theorem recoverNode_status (env : Env) (node : Node) (snr : SelfNodeRemediation) :
    (recoverNode env node snr).snr.Status = snr.Status := by
  unfold recoverNode
  split
  · simp only []
    split
    · split <;> rfl
    · exact recoverNodeTaints_status _ _ _ _
  · exact recoverNodeTaints_status _ _ _ _

theorem handleFencingCompletedPhase_status (env : Env) (node : Node)
    (snr : SelfNodeRemediation) :
    (handleFencingCompletedPhase env node snr).snr.Status = snr.Status := by
  unfold handleFencingCompletedPhase
  split
  · exact recoverNode_status _ _ _
  · rfl

theorem remediateWithResourceRemoval_step (r : Reconciler) (env : Env)
    (snr : SelfNodeRemediation) (node : Node) (rm : removeNodeResources) :
    StatusStep env snr.Status (remediateWithResourceRemoval r env snr node rm).snr.Status := by
  unfold remediateWithResourceRemoval
  simp only []
  split
  · rename_i h
    exact prepareReboot_step env node snr ((getPhase_fencingStarted snr).mp h)
  · split
    · rename_i h
      exact rebootNode_step r env node snr ((getPhase_preRebootCompleted snr).mp h)
    · split
      · rename_i h
        exact handleRebootCompletedPhase_step env node snr rm
          ((getPhase_rebootCompleted snr).mp h)
      · split
        · rw [handleFencingCompletedPhase_status]; exact Or.inl ⟨rfl, rfl⟩
        · exact Or.inl ⟨rfl, rfl⟩

theorem updateConditions_phase (now : Time) (reason : processingChangeReason)
    (snr : SelfNodeRemediation) :
    (updateConditions now reason snr).2.Status.Phase = snr.Status.Phase := by
  obtain ⟨cs, h⟩ := updateConditions_frame now reason snr
  rw [h]

theorem updateConditions_timeAssumedRebooted (now : Time) (reason : processingChangeReason)
    (snr : SelfNodeRemediation) :
    (updateConditions now reason snr).2.Status.TimeAssumedRebooted =
      snr.Status.TimeAssumedRebooted := by
  obtain ⟨cs, h⟩ := updateConditions_frame now reason snr
  rw [h]

theorem updateSnrStatusLastError_phase (env : Env) (snr : SelfNodeRemediation)
    (err : Option GoError) :
    (updateSnrStatusLastError env snr err).2.1.Status.Phase = snr.Status.Phase := by
  obtain ⟨v, h⟩ := updateSnrStatusLastError_frame env snr err
  rw [h]

theorem updateSnrStatusLastError_timeAssumedRebooted (env : Env) (snr : SelfNodeRemediation)
    (err : Option GoError) :
    (updateSnrStatusLastError env snr err).2.1.Status.TimeAssumedRebooted =
      snr.Status.TimeAssumedRebooted := by
  obtain ⟨v, h⟩ := updateSnrStatusLastError_frame env snr err
  rw [h]

theorem remediateWithStrategy_step (r : Reconciler) (env : Env)
    (snr : SelfNodeRemediation) (node : Node) :
    StatusStep env snr.Status (remediateWithStrategy r env snr node).snr.Status := by
  unfold remediateWithStrategy
  simp only []
  split
  · exact remediateWithResourceRemoval_step _ _ _ _ _
  · split
    · exact remediateWithResourceRemoval_step _ _ _ _ _
    · exact Or.inl ⟨rfl, rfl⟩

theorem reconcileRemediation_step (r : Reconciler) (env : Env) (snr s : SelfNodeRemediation)
    (node : Node) (hs : (reconcileRemediation r env snr node).snr = some s) :
    StatusStep env snr.Status s.Status := by
  unfold reconcileRemediation at hs
  simp only [] at hs
  split at hs
  · simp only [Option.some.injEq] at hs
    subst hs
    exact remediateWithStrategy_step _ _ _ _
  · simp only [Option.some.injEq] at hs
    subst hs
    exact statusStep_congr (remediateWithStrategy_step r env snr node) rfl rfl
      (updateSnrStatusLastError_phase _ _ _)
      (updateSnrStatusLastError_timeAssumedRebooted _ _ _)

theorem reconcileNode_step (r : Reconciler) (env : Env) (snr s : SelfNodeRemediation)
    (hs : (reconcileNode r env snr).snr = some s) : StatusStep env snr.Status s.Status := by
  unfold reconcileNode at hs
  split at hs
  · split at hs
    · split at hs
      · rename_i updateErr snr₁ heq
        simp only [Option.some.injEq] at hs
        subst hs
        have h1 := updateConditions_phase env.now remediationSkippedNodeNotFound snr
        have h2 := updateConditions_timeAssumedRebooted env.now
          remediationSkippedNodeNotFound snr
        rw [heq] at h1 h2
        exact Or.inl ⟨h1, h2⟩
      · rename_i snr₁ heq
        split at hs
        rename_i lastErr snr₂ lastActs heq₂
        simp only [Option.some.injEq] at hs
        subst hs
        have h1 := updateConditions_phase env.now remediationSkippedNodeNotFound snr
        have h2 := updateConditions_timeAssumedRebooted env.now
          remediationSkippedNodeNotFound snr
        rw [heq] at h1 h2
        have h3 := updateSnrStatusLastError_phase env snr₁ (some ‹GoError›)
        have h4 := updateSnrStatusLastError_timeAssumedRebooted env snr₁ (some ‹GoError›)
        rw [heq₂] at h3 h4
        exact Or.inl ⟨h3.trans h1, h4.trans h2⟩
    · split at hs
      rename_i lastErr snr₁ lastActs heq
      simp only [Option.some.injEq] at hs
      subst hs
      have h3 := updateSnrStatusLastError_phase env snr (some ‹GoError›)
      have h4 := updateSnrStatusLastError_timeAssumedRebooted env snr (some ‹GoError›)
      rw [heq] at h3 h4
      exact Or.inl ⟨h3, h4⟩
  · split at hs
    · simp only [Option.some.injEq] at hs
      subst hs
      exact Or.inl ⟨rfl, rfl⟩
    · exact reconcileRemediation_step r env snr s _ hs

theorem reconcileBody_step (r : Reconciler) (env : Env) (snr s : SelfNodeRemediation)
    (hs : (reconcileBody r env snr).snr = some s) : StatusStep env snr.Status s.Status := by
  unfold reconcileBody reconcileStarted at hs
  split at hs
  · split at hs
    rename_i condErr snr₁ heq
    simp only [Option.some.injEq] at hs
    subst hs
    have h1 := updateConditions_phase env.now remediationTimeoutByNHC snr
    have h2 := updateConditions_timeAssumedRebooted env.now remediationTimeoutByNHC snr
    rw [heq] at h1 h2
    exact Or.inl ⟨h1, h2⟩
  · have h1 := updateConditions_phase env.now remediationStarted snr
    have h2 := updateConditions_timeAssumedRebooted env.now remediationStarted snr
    split at hs
    · split at hs
      · rename_i err snr₁ heq
        simp only [Option.some.injEq] at hs
        subst hs
        rw [heq] at h1 h2
        exact Or.inl ⟨h1, h2⟩
      · rename_i snr₁ heq
        rw [heq] at h1 h2
        exact statusStep_congr (reconcileNode_step r env snr₁ s hs) h1.symm h2.symm rfl rfl
    · exact reconcileNode_step r env snr s hs

theorem deferredStatusUpdate_snr (env : Env) (snr : SelfNodeRemediation)
    (body : ReconcileOut) : (deferredStatusUpdate env snr body).snr = body.snr := by
  unfold deferredStatusUpdate
  repeat' split
  all_goals rfl

theorem Reconcile_step (r : Reconciler) (req : Request) (env : Env)
    (snr s : SelfNodeRemediation) (hget : env.getSnr = .ok snr)
    (hs : (Reconcile r req env).snr = some s) : StatusStep env snr.Status s.Status := by
  unfold Reconcile at hs
  split at hs
  · exact absurd hs (by simp)
  · rw [hget] at hs
    simp only [deferredStatusUpdate_snr] at hs
    exact reconcileBody_step r env snr s hs

/-! ### Where resources are removed -/

theorem noExecute_ne_outOfService : (NodeNoExecuteTaint == OutOfServiceTaint) = false := by
  decide

theorem addFinalizer_noRemoval (env : Env) (node : Node) (snr : SelfNodeRemediation) :
    ∀ a ∈ (addFinalizer env node snr).acts, isResourceRemoval a = false := by
  unfold addFinalizer
  repeat' split
  all_goals simp [isResourceRemoval]

theorem addNoExecuteTaint_noRemoval (env : Env) (node : Node) :
    ∀ a ∈ (addNoExecuteTaint env node).acts, isResourceRemoval a = false := by
  unfold addNoExecuteTaint
  repeat' split
  all_goals simp [isResourceRemoval, noExecute_ne_outOfService]

theorem removeNoExecuteTaint_noRemoval (env : Env) (node : Node) :
    ∀ a ∈ (removeNoExecuteTaint env node).acts, isResourceRemoval a = false := by
  unfold removeNoExecuteTaint
  repeat' split
  all_goals simp [isResourceRemoval, noExecute_ne_outOfService]

theorem markNodeAsUnschedulable_noRemoval (env : Env) (node : Node)
    (snr : SelfNodeRemediation) :
    ∀ a ∈ (markNodeAsUnschedulable env node snr).acts, isResourceRemoval a = false := by
  unfold markNodeAsUnschedulable
  repeat' split
  all_goals simp [isResourceRemoval]

theorem updateTimeAssumedRebooted_noRemoval (env : Env) (snr : SelfNodeRemediation) :
    ∀ a ∈ (updateTimeAssumedRebooted env snr).2.2, isResourceRemoval a = false := by
  unfold updateTimeAssumedRebooted
  repeat' split
  all_goals simp [isResourceRemoval]

theorem prepareReboot_noRemoval (env : Env) (node : Node) (snr : SelfNodeRemediation) :
    ∀ a ∈ (prepareReboot env node snr).acts, isResourceRemoval a = false := by
  have h1 := addFinalizer_noRemoval env node snr
  have h2 := addNoExecuteTaint_noRemoval env node
  have h3 := markNodeAsUnschedulable_noRemoval env (addNoExecuteTaint env node).node snr
  have h4 := updateTimeAssumedRebooted_noRemoval env snr
  unfold prepareReboot
  split
  · simp
  · split
    · exact h1
    · simp only []
      split
      · exact h2
      · split
        · intro a ha
          simp only [List.mem_append] at ha
          rcases ha with ha | ha
          · exact h2 a ha
          · exact h3 a ha
        · by_cases hz : IsZero snr.Status.TimeAssumedRebooted = true
          · simp only [hz, if_true]
            intro a ha
            have hmem : a ∈ (addNoExecuteTaint env node).acts ++
                (updateTimeAssumedRebooted env snr).2.2 := by
              revert ha
              split <;> exact id
            simp only [List.mem_append] at hmem
            rcases hmem with ha | ha
            · exact h2 a ha
            · exact h4 a ha
          · simp only [hz]
            intro a ha
            simp only [Bool.false_eq_true, if_false, List.append_nil] at ha
            exact h2 a ha

theorem rebootNode_noRemoval (r : Reconciler) (env : Env) (node : Node)
    (snr : SelfNodeRemediation) :
    ∀ a ∈ (rebootNode r env node snr).acts, isResourceRemoval a = false := by
  unfold rebootNode rebootIfNeeded
  repeat' split
  all_goals simp [isResourceRemoval]

theorem recoverNodeTaints_noRemoval (env : Env) (node : Node) (snr : SelfNodeRemediation)
    (acts : List Action) (hacts : ∀ a ∈ acts, isResourceRemoval a = false) :
    ∀ a ∈ (recoverNodeTaints env node snr acts).acts, isResourceRemoval a = false := by
  have h2 := removeNoExecuteTaint_noRemoval env node
  unfold recoverNodeTaints
  split
  · exact hacts
  · simp only []
    split
    · intro a ha
      simp only [List.mem_append] at ha
      rcases ha with ha | ha
      · exact hacts a ha
      · exact h2 a ha
    · split
      · unfold removeFinalizer
        simp only []
        split
        · rename_i heq
          simp only [Prod.mk.injEq] at heq
          obtain ⟨_, _, hf⟩ := heq
          subst hf
          intro a ha
          simp only [List.mem_append, List.mem_singleton] at ha
          rcases ha with (ha | ha) | ha
          · exact hacts a ha
          · exact h2 a ha
          · subst ha; rfl
        · rename_i heq
          simp only [Prod.mk.injEq] at heq
          obtain ⟨_, _, hf⟩ := heq
          subst hf
          intro a ha
          simp only [List.mem_append, List.mem_singleton, List.mem_cons, List.not_mem_nil,
            or_false] at ha
          rcases ha with ((ha | ha) | ha) | ha | ha
          · exact hacts a ha
          · exact h2 a ha
          · subst ha; rfl
          · subst ha; rfl
          · subst ha; rfl
      · intro a ha
        simp only [List.mem_append] at ha
        rcases ha with ha | ha
        · exact hacts a ha
        · exact h2 a ha

theorem recoverNode_noRemoval (env : Env) (node : Node) (snr : SelfNodeRemediation) :
    ∀ a ∈ (recoverNode env node snr).acts, isResourceRemoval a = false := by
  unfold recoverNode
  split
  · simp only []
    split
    · split <;> simp [isResourceRemoval]
    · apply recoverNodeTaints_noRemoval
      simp [isResourceRemoval]
  · apply recoverNodeTaints_noRemoval
    simp

theorem handleFencingCompletedPhase_noRemoval (env : Env) (node : Node)
    (snr : SelfNodeRemediation) :
    ∀ a ∈ (handleFencingCompletedPhase env node snr).acts, isResourceRemoval a = false := by
  unfold handleFencingCompletedPhase
  split
  · exact recoverNode_noRemoval _ _ _
  · simp

theorem remediateWithResourceRemoval_removal (r : Reconciler) (env : Env)
    (snr : SelfNodeRemediation) (node : Node) (rm : removeNodeResources) (a : Action)
    (ha : a ∈ (remediateWithResourceRemoval r env snr node rm).acts)
    (hrem : isResourceRemoval a = true) :
    snr.Status.Phase = some rebootCompletedPhase := by
  unfold remediateWithResourceRemoval at ha
  simp only [] at ha
  split at ha
  · have := prepareReboot_noRemoval env node snr a ha
    rw [this] at hrem; exact absurd hrem (by simp)
  · split at ha
    · have := rebootNode_noRemoval r env node snr a ha
      rw [this] at hrem; exact absurd hrem (by simp)
    · split at ha
      · rename_i h
        exact (getPhase_rebootCompleted snr).mp h
      · split at ha
        · have := handleFencingCompletedPhase_noRemoval env node snr a ha
          rw [this] at hrem; exact absurd hrem (by simp)
        · simp at ha

theorem remediateWithStrategy_removal (r : Reconciler) (env : Env)
    (snr : SelfNodeRemediation) (node : Node) (a : Action)
    (ha : a ∈ (remediateWithStrategy r env snr node).acts)
    (hrem : isResourceRemoval a = true) :
    snr.Status.Phase = some rebootCompletedPhase := by
  unfold remediateWithStrategy at ha
  simp only [] at ha
  split at ha
  · exact remediateWithResourceRemoval_removal _ _ _ _ _ a ha hrem
  · split at ha
    · exact remediateWithResourceRemoval_removal _ _ _ _ _ a ha hrem
    · simp at ha

theorem updateSnrStatusLastError_noRemoval (env : Env) (snr : SelfNodeRemediation)
    (err : Option GoError) :
    ∀ a ∈ (updateSnrStatusLastError env snr err).2.2, isResourceRemoval a = false := by
  unfold updateSnrStatusLastError
  simp only []
  repeat' split
  all_goals simp [isResourceRemoval]

theorem reconcileRemediation_removal (r : Reconciler) (env : Env)
    (snr : SelfNodeRemediation) (node : Node) (a : Action)
    (ha : a ∈ (reconcileRemediation r env snr node).acts)
    (hrem : isResourceRemoval a = true) :
    snr.Status.Phase = some rebootCompletedPhase := by
  have hlast := updateSnrStatusLastError_noRemoval env
    (remediateWithStrategy r env snr node).snr (remediateWithStrategy r env snr node).err a
  have hstarted : a ∈ (if (!ContainsFinalizer snr SNRFinalizer) = true then
      [Action.event "RemediationStarted"] else []) → isResourceRemoval a = false := by
    split
    · intro h; simp only [List.mem_singleton] at h; subst h; rfl
    · intro h; simp at h
  unfold reconcileRemediation at ha
  simp only [] at ha
  split at ha
  · simp only [List.mem_append] at ha
    rcases ha with ha | ha
    · rw [hstarted ha] at hrem; exact absurd hrem (by simp)
    · exact remediateWithStrategy_removal r env snr node a ha hrem
  · simp only [List.mem_append] at ha
    rcases ha with (ha | ha) | ha
    · rw [hstarted ha] at hrem; exact absurd hrem (by simp)
    · exact remediateWithStrategy_removal r env snr node a ha hrem
    · rw [hlast ha] at hrem; exact absurd hrem (by simp)

theorem reconcileNode_removal (r : Reconciler) (env : Env)
    (snr : SelfNodeRemediation) (a : Action)
    (ha : a ∈ (reconcileNode r env snr).acts)
    (hrem : isResourceRemoval a = true) :
    snr.Status.Phase = some rebootCompletedPhase := by
  unfold reconcileNode at ha
  split at ha
  · rename_i err _
    split at ha
    · split at ha
      · simp at ha
      · rename_i snr₁ _
        have hlast := updateSnrStatusLastError_noRemoval env snr₁ (some err) a
        split at ha
        rename_i heq
        rw [heq] at hlast
        simp only [List.mem_cons] at ha
        rcases ha with ha | ha
        · subst ha; exact absurd hrem (by simp [isResourceRemoval])
        · rw [hlast ha] at hrem; exact absurd hrem (by simp)
    · have hlast := updateSnrStatusLastError_noRemoval env snr (some err) a
      split at ha
      rename_i heq
      rw [heq] at hlast
      rw [hlast ha] at hrem; exact absurd hrem (by simp)
  · split at ha
    · simp only [List.mem_singleton] at ha
      subst ha; exact absurd hrem (by simp [isResourceRemoval])
    · exact reconcileRemediation_removal r env snr _ a ha hrem

theorem reconcileBody_removal (r : Reconciler) (env : Env)
    (snr : SelfNodeRemediation) (a : Action)
    (ha : a ∈ (reconcileBody r env snr).acts)
    (hrem : isResourceRemoval a = true) :
    snr.Status.Phase = some rebootCompletedPhase := by
  unfold reconcileBody reconcileStarted at ha
  split at ha
  · split at ha
    simp only [List.mem_singleton] at ha
    subst ha; exact absurd hrem (by simp [isResourceRemoval])
  · split at ha
    · have h1 := updateConditions_phase env.now remediationStarted snr
      split at ha
      · simp at ha
      · rename_i snr₁ heq
        rw [heq] at h1
        rw [← h1]
        exact reconcileNode_removal r env snr₁ a ha hrem
    · exact reconcileNode_removal r env snr a ha hrem

theorem deferredStatusUpdate_acts (env : Env) (snr : SelfNodeRemediation)
    (body : ReconcileOut) :
    (deferredStatusUpdate env snr body).acts = body.acts ++ [.updateSnrStatus snr.Status] := by
  unfold deferredStatusUpdate
  repeat' split
  all_goals rfl

theorem Reconcile_removal (r : Reconciler) (req : Request) (env : Env)
    (snr : SelfNodeRemediation) (hget : env.getSnr = .ok snr) (a : Action)
    (ha : a ∈ (Reconcile r req env).acts) (hrem : isResourceRemoval a = true) :
    snr.Status.Phase = some rebootCompletedPhase := by
  unfold Reconcile at ha
  split at ha
  · simp at ha
  · rw [hget] at ha
    simp only [deferredStatusUpdate_acts, List.mem_append, List.mem_singleton] at ha
    rcases ha with ha | ha
    · exact reconcileBody_removal r env snr a ha hrem
    · subst ha; exact absurd hrem (by simp [isResourceRemoval])

/-! ### Claims -/

theorem safeTime_mono {snr : SelfNodeRemediation} {c c' : Time} (h : SafeTime snr c)
    (hc : c ≤ c') : SafeTime snr c' := by
  rcases h with h | ⟨t, ht, h | ⟨h, hle⟩⟩
  · exact Or.inl h
  · exact Or.inr ⟨t, ht, Or.inl h⟩
  · exact Or.inr ⟨t, ht, Or.inr ⟨h, le_trans hle hc⟩⟩

theorem safeTime_congr {a b : SelfNodeRemediation} {c : Time} (h : SafeTime a c)
    (hp : b.Status.Phase = a.Status.Phase)
    (ht : b.Status.TimeAssumedRebooted = a.Status.TimeAssumedRebooted) : SafeTime b c := by
  unfold SafeTime at *
  rw [hp, ht]; exact h

theorem safeTime_step {env : Env} {a b : SelfNodeRemediation} (h : SafeTime a env.now)
    (hstep : StatusStep env a.Status b.Status) : SafeTime b env.now := by
  rcases hstep with ⟨hp, ht⟩ | ⟨hp, hq, hz⟩ | ⟨hp, hq, ht, t, hta, hle⟩ | ⟨hp, hq, ht⟩
  · exact safeTime_congr h hp ht
  · rcases hz with ⟨hz, ht⟩ | ⟨_, d, _, ht⟩
    · cases hta : a.Status.TimeAssumedRebooted with
      | none => rw [hta] at hz; simp [IsZero] at hz
      | some t => exact Or.inr ⟨t, by rw [ht, hta], Or.inl hq⟩
    · exact Or.inr ⟨_, ht, Or.inl hq⟩
  · exact Or.inr ⟨t, by rw [ht, hta], Or.inr ⟨Or.inl hq, hle⟩⟩
  · rcases h with h | ⟨t, hta, h | ⟨_, hle⟩⟩
    · rw [hp] at h; exact absurd h (by simp)
    · rw [hp] at h
      exact absurd (Option.some.inj h) (by decide)
    · exact Or.inr ⟨t, by rw [ht, hta], Or.inr ⟨Or.inr hq, hle⟩⟩

theorem storedStatus_step (r : Reconciler) (req : Request) (env : Env)
    (snr : SelfNodeRemediation) (hget : env.getSnr = .ok snr) :
    StatusStep env snr.Status (storedStatus env snr (Reconcile r req env)) := by
  unfold storedStatus
  split
  · exact Or.inl ⟨rfl, rfl⟩
  · rename_i s hs
    split
    · exact Reconcile_step r req env snr s hget hs
    · split <;> exact Or.inl ⟨rfl, rfl⟩

theorem reachable_safeTime {snr : SelfNodeRemediation} {clock : Time}
    (h : Reachable snr clock) : SafeTime snr clock := by
  induction h with
  | fresh snr clock hp _ => exact Or.inl hp
  | reconcile snr next clock r req env _ hclock hget hstatus _ ih =>
    have hstep := storedStatus_step r req env snr hget
    rw [← hstatus] at hstep
    exact safeTime_step (safeTime_mono ih hclock) hstep

/-- C1. Safe-time monotonicity: in every sequence of `Reconcile` invocations that
starts from a fresh request and runs under a non-decreasing clock, an
invocation issues a resource-removal call (the deletion of the pods, or a patch
adding or removing the out-of-service taint) only when `timeAssumedRebooted` is
recorded and not later than the clock value of that invocation. -/
theorem safe_time_monotonicity (snr : SelfNodeRemediation) (clock : Time)
    (hreach : Reachable snr clock) (r : Reconciler) (req : Request) (env : Env)
    (hclock : clock ≤ env.now) (hget : env.getSnr = .ok snr) (a : Action)
    (ha : a ∈ (Reconcile r req env).acts) (hrem : isResourceRemoval a = true) :
    ∃ t, snr.Status.TimeAssumedRebooted = some t ∧ t ≤ env.now := by
  have hphase := Reconcile_removal r req env snr hget a ha hrem
  rcases safeTime_mono (reachable_safeTime hreach) hclock with h | ⟨t, ht, h | ⟨_, hle⟩⟩
  · rw [hphase] at h; exact absurd h (by simp)
  · rw [hphase] at h
    exact absurd (Option.some.inj h) (by decide)
  · exact ⟨t, ht, hle⟩

theorem exPreReboot_status : exPreReboot.Status.Phase = some preRebootCompletedPhase ∧
    exPreReboot.Status.TimeAssumedRebooted = some (1000 + 180 * Second) := by
  constructor <;> rfl

theorem exRebooted_status : exRebooted.Status.Phase = some rebootCompletedPhase ∧
    exRebooted.Status.TimeAssumedRebooted = some (1000 + 180 * Second) := by
  constructor <;> rfl

theorem exRebooted_reachable : Reachable exRebooted (1000 + 180 * Second) :=
  Reachable.reconcile exPreReboot exRebooted 1000 exManager exRequest
    (exEnv (1000 + 180 * Second) exPreReboot)
    (Reachable.reconcile exFresh exPreReboot 0 exManager exRequest (exEnv 1000 exFresh)
      (Reachable.fresh exFresh 0 rfl rfl) (by decide) rfl rfl rfl)
    (by decide) rfl rfl rfl

theorem safe_time_monotonicity_witness :
    Action.deletePods "node-1" ∈
        (Reconcile exManager exRequest (exEnv (2000 + 180 * Second) exRebooted)).acts ∧
      ∃ t, exRebooted.Status.TimeAssumedRebooted = some t ∧
        t ≤ (exEnv (2000 + 180 * Second) exRebooted).now :=
  ⟨by decide,
   safe_time_monotonicity exRebooted (1000 + 180 * Second) exRebooted_reachable exManager
    exRequest (exEnv (2000 + 180 * Second) exRebooted) (by decide) rfl
    (Action.deletePods "node-1") (by decide) rfl⟩

theorem getPhase_congr {a b : SelfNodeRemediation} (h : b.Status.Phase = a.Status.Phase) :
    getPhase b = getPhase a := by
  unfold getPhase; rw [h]

theorem phaseOrder_of_step (env : Env) {a b : SelfNodeRemediation}
    (hstep : StatusStep env a.Status b.Status) : PhaseOrder (getPhase a) (getPhase b) := by
  rcases hstep with ⟨hp, _⟩ | ⟨hp, hq, _⟩ | ⟨hp, hq, _⟩ | ⟨hp, hq, _⟩
  · exact Or.inl (getPhase_congr hp)
  · exact Or.inr (Or.inl ⟨(getPhase_fencingStarted a).mpr hp,
      (getPhase_preRebootCompleted b).mpr hq⟩)
  · exact Or.inr (Or.inr (Or.inl ⟨(getPhase_preRebootCompleted a).mpr hp,
      (getPhase_rebootCompleted b).mpr hq⟩))
  · exact Or.inr (Or.inr (Or.inr ⟨(getPhase_rebootCompleted a).mpr hp,
      (getPhase_fencingCompleted b).mpr hq⟩))

/-- C2. Phase monotonicity (I1): for every request and every single `Reconcile`
invocation that fetches it, the phase after the invocation, both of the
request as the invocation leaves it in memory and of the request as then
stored, is the phase before or its immediate successor in the order
Fencing-Started, Pre-Reboot-Completed, Reboot-Completed, Fencing-Completed. -/
theorem phase_monotonicity (r : Reconciler) (req : Request) (env : Env)
    (snr : SelfNodeRemediation) (hget : env.getSnr = .ok snr) :
    PhaseOrder (getPhase snr)
        (getPhase { snr with Status := storedStatus env snr (Reconcile r req env) }) ∧
      ∀ s, (Reconcile r req env).snr = some s → PhaseOrder (getPhase snr) (getPhase s) :=
  ⟨phaseOrder_of_step env (storedStatus_step r req env snr hget),
   fun s hs => phaseOrder_of_step env (Reconcile_step r req env snr s hget hs)⟩

theorem phase_monotonicity_witness :
    PhaseOrder (getPhase exFresh)
        (getPhase { exFresh with
          Status := storedStatus (exEnv 1000 exFresh) exFresh
            (Reconcile exManager exRequest (exEnv 1000 exFresh)) }) ∧
      ∀ s, (Reconcile exManager exRequest (exEnv 1000 exFresh)).snr = some s →
        PhaseOrder (getPhase exFresh) (getPhase s) :=
  phase_monotonicity exManager exRequest (exEnv 1000 exFresh) exFresh rfl

/-- C3. The field `timeAssumedRebooted` is written exactly once (I2): an
invocation leaves a `timeAssumedRebooted` that is set (non-nil, non-zero) as it
is, in every phase; and when it changes the field, the field was unset, the
request had no phase and gets phase Pre-Reboot-Completed, and the value written
is the clock value plus the safe time answered by the calculator. -/
theorem timeAssumedRebooted_written_once (r : Reconciler) (req : Request) (env : Env)
    (snr s : SelfNodeRemediation) (hget : env.getSnr = .ok snr)
    (hs : (Reconcile r req env).snr = some s) :
    (IsZero snr.Status.TimeAssumedRebooted = false →
        s.Status.TimeAssumedRebooted = snr.Status.TimeAssumedRebooted) ∧
      (s.Status.TimeAssumedRebooted ≠ snr.Status.TimeAssumedRebooted →
        IsZero snr.Status.TimeAssumedRebooted = true ∧ snr.Status.Phase = none ∧
        s.Status.Phase = some preRebootCompletedPhase ∧
        ∃ d, env.timeToAssumeNodeRebooted = .ok d ∧
          s.Status.TimeAssumedRebooted = some (env.now + d)) := by
  rcases Reconcile_step r req env snr s hget hs with
    ⟨_, ht⟩ | ⟨hp, hq, hz⟩ | ⟨_, _, ht, _⟩ | ⟨_, _, ht⟩
  · exact ⟨fun _ => ht, fun h => absurd ht h⟩
  · rcases hz with ⟨_, ht⟩ | ⟨hz, d, hd, ht⟩
    · exact ⟨fun _ => ht, fun h => absurd ht h⟩
    · exact ⟨fun h => by rw [hz] at h; exact absurd h (by simp),
        fun _ => ⟨hz, hp, hq, d, hd, ht⟩⟩
  · exact ⟨fun _ => ht, fun h => absurd ht h⟩
  · exact ⟨fun _ => ht, fun h => absurd ht h⟩

theorem timeAssumedRebooted_written_once_witness :
    (IsZero exFresh.Status.TimeAssumedRebooted = false →
        exPreReboot.Status.TimeAssumedRebooted = exFresh.Status.TimeAssumedRebooted) ∧
      (exPreReboot.Status.TimeAssumedRebooted ≠ exFresh.Status.TimeAssumedRebooted →
        IsZero exFresh.Status.TimeAssumedRebooted = true ∧ exFresh.Status.Phase = none ∧
        exPreReboot.Status.Phase = some preRebootCompletedPhase ∧
        ∃ d, (exEnv 1000 exFresh).timeToAssumeNodeRebooted = .ok d ∧
          exPreReboot.Status.TimeAssumedRebooted = some ((exEnv 1000 exFresh).now + d)) :=
  timeAssumedRebooted_written_once exManager exRequest (exEnv 1000 exFresh) exFresh
    exPreReboot rfl rfl

theorem sub_exact (t u : Time) (hmin : minDuration ≤ t - u) (hmax : t - u ≤ maxDuration) :
    Sub t u = t - u := by
  unfold Sub
  rw [if_neg (not_lt.mpr hmax), if_neg (not_lt.mpr hmin)]

theorem int64_exact (x : Int) (hmin : -9223372036854775808 ≤ x)
    (hmax : x ≤ 9223372036854775807) :
    (x - -9223372036854775808) % 18446744073709551616 + -9223372036854775808 = x := by
  omega

theorem addDuration_exact (a b : Duration) (hmin : minDuration ≤ a + b)
    (hmax : a + b ≤ maxDuration) : addDuration a b = a + b :=
  int64_exact (a + b) hmin hmax

theorem timeLeft_exact (t u : Time) (hmin : minDuration ≤ t - u)
    (hmax : t - u ≤ maxDuration - Second) :
    addDuration (Sub t u) Second = t - u + Second := by
  have hs : (0 : Int) ≤ Second := by decide
  rw [sub_exact t u hmin (by linarith)]
  exact addDuration_exact _ _ (by linarith) (by linarith)

theorem rebootNode_other (r : Reconciler) (env : Env) (node : Node)
    (snr : SelfNodeRemediation) (t : Time) (hother : r.MyNodeName ≠ node.Name)
    (htime : snr.Status.TimeAssumedRebooted = some t) :
    rebootNode r env node snr =
      if t > env.now then
        { result := { RequeueAfter := addDuration (Sub t env.nowAgain) Second }
          node := node, snr := snr }
      else
        { node := node
          snr := { snr with Status := { snr.Status with Phase := some rebootCompletedPhase } } } := by
  unfold rebootNode wasNodeRebooted
  simp only [hother, if_false, htime]
  by_cases hlt : t > env.now
  · rw [if_pos hlt, if_pos hlt]
    rfl
  · rw [if_neg hlt, if_neg hlt]
    rfl

/-- C4 (amended). Pre-Reboot-Completed exit: for a reconciler whose `MyNodeName`
differs from the remediated node and a request in phase Pre-Reboot-Completed
with `timeAssumedRebooted = t`, the phase becomes Reboot-Completed if and only
if `now ≥ t`, for the clock reading `now` of the comparison; otherwise the
request is unchanged, no error is returned and the requeue delay is
`t - now2 + 1s` as Go computes it (`Time.Sub` saturating, the sum in `int64`),
where `now2` is the second clock reading of `wasNodeRebooted`. When the
difference is in the range of a duration less one second, the delay is
`t - now2 + 1s` exactly: more than one second when `now2` is before `t`, at
most one second when `t` has passed by the second reading. -/
theorem preRebootCompleted_exit (r : Reconciler) (env : Env) (snr : SelfNodeRemediation)
    (node : Node) (rm : removeNodeResources) (t : Time)
    (hphase : getPhase snr = preRebootCompletedPhase) (hother : r.MyNodeName ≠ node.Name)
    (htime : snr.Status.TimeAssumedRebooted = some t) :
    (remediateWithResourceRemoval r env snr node rm).panicked = false ∧
      ((remediateWithResourceRemoval r env snr node rm).snr.Status.Phase =
          some rebootCompletedPhase ↔ t ≤ env.now) ∧
      (env.now < t →
        (remediateWithResourceRemoval r env snr node rm).snr = snr ∧
        (remediateWithResourceRemoval r env snr node rm).err = none ∧
        (remediateWithResourceRemoval r env snr node rm).result =
          { RequeueAfter := addDuration (Sub t env.nowAgain) Second } ∧
        (minDuration ≤ t - env.nowAgain → t - env.nowAgain ≤ maxDuration - Second →
          (remediateWithResourceRemoval r env snr node rm).result.RequeueAfter =
            t - env.nowAgain + Second) ∧
        (env.nowAgain < t → t - env.nowAgain ≤ maxDuration - Second →
          Second < (remediateWithResourceRemoval r env snr node rm).result.RequeueAfter) ∧
        (t ≤ env.nowAgain → minDuration ≤ t - env.nowAgain →
          (remediateWithResourceRemoval r env snr node rm).result.RequeueAfter ≤ Second) ∧
        (env.nowAgain = env.now → t - env.now ≤ maxDuration - Second →
          (remediateWithResourceRemoval r env snr node rm).result.RequeueAfter =
            t - env.now + Second)) := by
  have hp := (getPhase_preRebootCompleted snr).mp hphase
  have hne : preRebootCompletedPhase ≠ fencingStartedPhase := by decide
  have hmin : minDuration ≤ 0 := by decide
  have hmax : (0 : Int) ≤ maxDuration - Second := by decide
  have hret : remediateWithResourceRemoval r env snr node rm = rebootNode r env node snr := by
    unfold remediateWithResourceRemoval handlePreRebootCompletedPhase
    simp only [hphase, hne, if_false, if_true]
  rw [hret, rebootNode_other r env node snr t hother htime]
  by_cases hlt : t > env.now
  · rw [if_pos hlt]
    refine ⟨rfl, ?_, fun _ => ⟨rfl, rfl, rfl, ?_, ?_, ?_, ?_⟩⟩
    · show snr.Status.Phase = some rebootCompletedPhase ↔ t ≤ env.now
      rw [hp]
      constructor
      · intro h; exact absurd (Option.some.inj h) (by decide)
      · intro h; exact absurd hlt (not_lt.mpr h)
    · intro h1 h2
      exact timeLeft_exact t env.nowAgain h1 h2
    · intro h1 h2
      show Second < addDuration (Sub t env.nowAgain) Second
      rw [timeLeft_exact t env.nowAgain (by linarith) h2]
      linarith
    · intro h1 h2
      show addDuration (Sub t env.nowAgain) Second ≤ Second
      rw [timeLeft_exact t env.nowAgain h2 (by linarith)]
      linarith
    · intro h1 h2
      show addDuration (Sub t env.nowAgain) Second = t - env.now + Second
      rw [h1]
      exact timeLeft_exact t env.now (by linarith) h2
  · rw [if_neg hlt]
    exact ⟨rfl, ⟨fun _ => not_lt.mp hlt, fun _ => rfl⟩, fun h => absurd h hlt⟩

theorem preRebootCompleted_exit_witness :
    (remediateWithResourceRemoval exManager (exEnv 2000 exPreReboot) exPreReboot exNode
        (deleteResourcesWrapper (exEnv 2000 exPreReboot))).snr = exPreReboot ∧
      (remediateWithResourceRemoval exManager (exEnv 2000 exPreReboot) exPreReboot exNode
        (deleteResourcesWrapper (exEnv 2000 exPreReboot))).result.RequeueAfter =
        1000 + 180 * Second - 2000 + Second :=
  ⟨((preRebootCompleted_exit exManager (exEnv 2000 exPreReboot) exPreReboot exNode
      (deleteResourcesWrapper (exEnv 2000 exPreReboot)) (1000 + 180 * Second)
      (by decide) (by decide) rfl).2.2 (by decide)).1,
   ((preRebootCompleted_exit exManager (exEnv 2000 exPreReboot) exPreReboot exNode
      (deleteResourcesWrapper (exEnv 2000 exPreReboot)) (1000 + 180 * Second)
      (by decide) (by decide) rfl).2.2 (by decide)).2.2.2.2.2.2 rfl (by decide)⟩

/-- C4, counterexample. The request `exPreReboot` has
`timeAssumedRebooted = 1000 + 180s`. The clock shows one nanosecond less when
`wasNodeRebooted` compares and 100 nanoseconds more when it subtracts: the phase
is unchanged and the requeue delay is 999999900 nanoseconds, which is neither
`timeAssumedRebooted - now + 1s` for the `now` of the comparison nor more than
one second. -/
theorem requeue_under_one_second_between_readings :
    getPhase exPreReboot = preRebootCompletedPhase ∧
      exManager.MyNodeName ≠ exNode.Name ∧
      exPreReboot.Status.TimeAssumedRebooted = some (1000 + 180 * Second) ∧
      exEnvClockMoves.now < 1000 + 180 * Second ∧
      (remediateWithResourceRemoval exManager exEnvClockMoves exPreReboot exNode
        (deleteResourcesWrapper exEnvClockMoves)).snr = exPreReboot ∧
      (remediateWithResourceRemoval exManager exEnvClockMoves exPreReboot exNode
        (deleteResourcesWrapper exEnvClockMoves)).result.RequeueAfter = 999999900 ∧
      (remediateWithResourceRemoval exManager exEnvClockMoves exPreReboot exNode
        (deleteResourcesWrapper exEnvClockMoves)).result.RequeueAfter ≠
        1000 + 180 * Second - exEnvClockMoves.now + Second ∧
      ¬(Second < (remediateWithResourceRemoval exManager exEnvClockMoves exPreReboot exNode
        (deleteResourcesWrapper exEnvClockMoves)).result.RequeueAfter) :=
  ⟨by decide, by decide, rfl, by decide, rfl, by decide, by decide, by decide⟩

/-! ### Conditions -/

theorem find_SetStatusCondition_same (now : Time) (cs : List Condition) (c : Condition) :
    ∃ c', FindStatusCondition (SetStatusCondition now cs c) c.type = some c' ∧
      c'.Status = c.Status ∧ c'.Reason = c.Reason := by
  induction cs with
  | nil => simp [SetStatusCondition, FindStatusCondition, List.find?]
  | cons d ds ih =>
    unfold SetStatusCondition
    by_cases h : (d.type == c.type) = true
    · simp only [h, if_true]
      simp [FindStatusCondition, List.find?, h]
    · simp only [h]
      simp only [FindStatusCondition, List.find?, h] at ih ⊢
      exact ih

theorem find_SetStatusCondition_other (now : Time) (cs : List Condition) (c : Condition)
    (ty : String) (hty : ty ≠ c.type) :
    FindStatusCondition (SetStatusCondition now cs c) ty = FindStatusCondition cs ty := by
  induction cs with
  | nil =>
    have : (c.type == ty) = false := by simpa using fun h => hty h.symm
    simp [SetStatusCondition, FindStatusCondition, List.find?, this]
  | cons d ds ih =>
    unfold SetStatusCondition
    by_cases h : (d.type == c.type) = true
    · have hd : (d.type == ty) = false := by
        have : d.type = c.type := by simpa using h
        simpa [this] using fun h' => hty h'.symm
      simp only [h, if_true]
      simp [FindStatusCondition, List.find?, hd]
    · simp only [h]
      simp only [FindStatusCondition, List.find?] at ih ⊢
      rw [ih]

theorem processing_ne_succeeded : ProcessingConditionType ≠ SucceededConditionType := by
  decide

theorem updateConditions_recognised (now : Time) (reason : processingChangeReason)
    (snr : SelfNodeRemediation) (p s : ConditionStatus) (hr : RecognisedReason reason p s) :
    updateConditions now reason snr =
      if IsStatusConditionPresentAndEqual snr.Status.Conditions ProcessingConditionType p &&
          IsStatusConditionPresentAndEqual snr.Status.Conditions SucceededConditionType s then
        (none, snr)
      else
        (none, { snr with Status := { snr.Status with Conditions :=
          (SetStatusCondition now
            (SetStatusCondition now snr.Status.Conditions
              { type := ProcessingConditionType, Status := p, Reason := reason })
            { type := SucceededConditionType, Status := s, Reason := reason }) } }) := by
  have h1 : remediationFinishedSuccessfully ≠ remediationStarted := by decide
  have h2 : remediationTimeoutByNHC ≠ remediationStarted := by decide
  have h3 : remediationTimeoutByNHC ≠ remediationFinishedSuccessfully := by decide
  have h4 : remediationSkippedNodeNotFound ≠ remediationStarted := by decide
  have h5 : remediationSkippedNodeNotFound ≠ remediationFinishedSuccessfully := by decide
  have h6 : remediationSkippedNodeNotFound ≠ remediationTimeoutByNHC := by decide
  unfold updateConditions
  rcases hr with ⟨hr, hp, hs⟩ | ⟨hr, hp, hs⟩ | ⟨hr, hp, hs⟩ | ⟨hr, hp, hs⟩ <;>
    subst hr hp hs <;> simp [h1, h2, h3, h4, h5, h6]

theorem updateConditions_err (now : Time) (reason : processingChangeReason)
    (snr : SelfNodeRemediation) (p s : ConditionStatus) (hr : RecognisedReason reason p s) :
    (updateConditions now reason snr).1 = none := by
  rw [updateConditions_recognised now reason snr p s hr]
  split <;> rfl

theorem updateConditions_statuses (now : Time) (reason : processingChangeReason)
    (snr : SelfNodeRemediation) (p s : ConditionStatus) (hr : RecognisedReason reason p s) :
    IsStatusConditionPresentAndEqual (updateConditions now reason snr).2.Status.Conditions
        ProcessingConditionType p = true ∧
      IsStatusConditionPresentAndEqual (updateConditions now reason snr).2.Status.Conditions
        SucceededConditionType s = true := by
  rw [updateConditions_recognised now reason snr p s hr]
  split
  · rename_i h
    simpa using h
  · simp only []
    constructor
    · unfold IsStatusConditionPresentAndEqual
      rw [find_SetStatusCondition_other now _ { type := SucceededConditionType, Status := s, Reason := reason } ProcessingConditionType processing_ne_succeeded]
      obtain ⟨c', hc', hst, _⟩ := find_SetStatusCondition_same now snr.Status.Conditions
        { type := ProcessingConditionType, Status := p, Reason := reason }
      rw [hc']
      simpa using hst
    · unfold IsStatusConditionPresentAndEqual
      obtain ⟨c', hc', hst, _⟩ := find_SetStatusCondition_same now
        (SetStatusCondition now snr.Status.Conditions
          { type := ProcessingConditionType, Status := p, Reason := reason })
        { type := SucceededConditionType, Status := s, Reason := reason }
      rw [hc']
      simpa using hst

theorem updateConditions_reasons (now : Time) (reason : processingChangeReason)
    (snr : SelfNodeRemediation) (p s : ConditionStatus) (hr : RecognisedReason reason p s)
    (hguard : (IsStatusConditionPresentAndEqual snr.Status.Conditions
        ProcessingConditionType p &&
      IsStatusConditionPresentAndEqual snr.Status.Conditions SucceededConditionType s) =
        false) :
    conditionReason (updateConditions now reason snr).2.Status.Conditions
        ProcessingConditionType = some reason ∧
      conditionReason (updateConditions now reason snr).2.Status.Conditions
        SucceededConditionType = some reason := by
  rw [updateConditions_recognised now reason snr p s hr, hguard]
  simp only [Bool.false_eq_true, if_false]
  constructor
  · unfold conditionReason
    rw [find_SetStatusCondition_other now _ { type := SucceededConditionType, Status := s, Reason := reason } ProcessingConditionType processing_ne_succeeded]
    obtain ⟨c', hc', _, hre⟩ := find_SetStatusCondition_same now snr.Status.Conditions
      { type := ProcessingConditionType, Status := p, Reason := reason }
    rw [hc']
    simpa using hre
  · unfold conditionReason
    obtain ⟨c', hc', _, hre⟩ := find_SetStatusCondition_same now
      (SetStatusCondition now snr.Status.Conditions
        { type := ProcessingConditionType, Status := p, Reason := reason })
      { type := SucceededConditionType, Status := s, Reason := reason }
    rw [hc']
    simpa using hre

/-- C5. Reboot-capability gate: when the node has no agent pod, or has no
annotations, or its annotation `is-reboot-capable` is not exactly `true` (a
missing key reads as the empty string), `prepareReboot` returns an error and
changes nothing: the request (finalizers, phase, `timeAssumedRebooted`) and the
node (taints, schedulability) come back as they were and no call is issued. -/
theorem reboot_capability_gate (env : Env) (node : Node) (snr : SelfNodeRemediation)
    (hgate : env.agentPodErr node.Name ≠ none ∨ node.Annotations = none ∨
      ∃ m, node.Annotations = some m ∧ mapGet m IsRebootCapableAnnotation ≠ "true") :
    (prepareReboot env node snr).err = some (.plain "Node is not capable to reboot itself") ∧
      (prepareReboot env node snr).snr = snr ∧
      (prepareReboot env node snr).node = node ∧
      (prepareReboot env node snr).acts = [] ∧
      (prepareReboot env node snr).result = {} ∧
      (prepareReboot env node snr).panicked = false := by
  have hcap : isNodeRebootCapable env node = false := by
    unfold isNodeRebootCapable
    rcases hgate with h | h | ⟨m, hm, h⟩
    · cases hp : env.agentPodErr node.Name with
      | none => exact absurd hp h
      | some e => rfl
    · cases env.agentPodErr node.Name <;> simp [h]
    · cases env.agentPodErr node.Name <;> simp [hm, h]
  unfold prepareReboot
  simp [hcap]

theorem reboot_capability_gate_witness :
    (prepareReboot (exEnv 1000 exFresh) exIncapableNode exFresh).err =
        some (.plain "Node is not capable to reboot itself") ∧
      (prepareReboot (exEnv 1000 exFresh) exIncapableNode exFresh).snr = exFresh ∧
      (prepareReboot (exEnv 1000 exFresh) exIncapableNode exFresh).node = exIncapableNode ∧
      (prepareReboot (exEnv 1000 exFresh) exIncapableNode exFresh).acts = [] ∧
      (prepareReboot (exEnv 1000 exFresh) exIncapableNode exFresh).result = {} ∧
      (prepareReboot (exEnv 1000 exFresh) exIncapableNode exFresh).panicked = false :=
  reboot_capability_gate (exEnv 1000 exFresh) exIncapableNode exFresh
    (Or.inr (Or.inr ⟨[("other", "true")], rfl, by decide⟩))

/-- C6, as amended. At-most-one reboot per request: when the boot time of the
node (`now - uptime`) is strictly later than the creation timestamp of the
request, `rebootIfNeeded` does not call `Rebooter.Reboot` (it issues no call at
all) and returns an empty result with no error. -/
theorem rebootIfNeeded_skips_after_reboot (r : Reconciler) (env : Env)
    (snr : SelfNodeRemediation) (node : Node) (uptime : Duration)
    (huptime : env.uptime = .ok uptime)
    (hboot : snr.CreationTimestamp < env.now - uptime) :
    (rebootIfNeeded r env snr node).acts = [] ∧
      (rebootIfNeeded r env snr node).result = {} ∧
      (rebootIfNeeded r env snr node).err = none ∧
      (rebootIfNeeded r env snr node).snr = snr ∧
      (rebootIfNeeded r env snr node).node = node := by
  have hlt : uptime < env.now - snr.CreationTimestamp := by linarith
  unfold rebootIfNeeded didIRebootMyself
  simp [huptime, hlt]

theorem rebootIfNeeded_skips_after_reboot_witness :
    (rebootIfNeeded exAgent (exEnv (3600 * Second + 200) exCreatedAt100) exCreatedAt100
        exNode).acts = [] ∧
      (rebootIfNeeded exAgent (exEnv (3600 * Second + 200) exCreatedAt100) exCreatedAt100
        exNode).result = {} ∧
      (rebootIfNeeded exAgent (exEnv (3600 * Second + 200) exCreatedAt100) exCreatedAt100
        exNode).err = none ∧
      (rebootIfNeeded exAgent (exEnv (3600 * Second + 200) exCreatedAt100) exCreatedAt100
        exNode).snr = exCreatedAt100 ∧
      (rebootIfNeeded exAgent (exEnv (3600 * Second + 200) exCreatedAt100) exCreatedAt100
        exNode).node = exNode :=
  rebootIfNeeded_skips_after_reboot exAgent (exEnv (3600 * Second + 200) exCreatedAt100)
    exCreatedAt100 exNode (3600 * Second) rfl (by decide)

/-- C6, counterexample. The claim with `boot time ≥ t0` fails at equality: for
a request created at instant 100 and a node that booted at instant 100 (clock
110, uptime 10), `rebootIfNeeded` calls `Rebooter.Reboot`. -/
theorem rebootIfNeeded_reboots_at_equal_boot_time :
    exCreatedAt100.CreationTimestamp ≤ exEnvBootedAt100.now - 10 ∧
      exEnvBootedAt100.uptime = .ok 10 ∧
      Action.reboot ∈ (rebootIfNeeded exAgent exEnvBootedAt100 exCreatedAt100 exNode).acts :=
  ⟨by decide, rfl, by decide⟩

/-! ### The early returns of `Reconcile` -/

theorem Reconcile_fetched (r : Reconciler) (req : Request) (env : Env)
    (snr : SelfNodeRemediation) (hget : env.getSnr = .ok snr)
    (hagent : r.IsAgent = true → req.Name = r.MyNodeName) :
    Reconcile r req env =
      deferredStatusUpdate env ((reconcileBody r env snr).snr.getD snr)
        (reconcileBody r env snr) := by
  unfold Reconcile
  have : ¬(r.IsAgent = true ∧ req.Name ≠ r.MyNodeName) := fun h => h.2 (hagent h.1)
  rw [if_neg this, hget]

theorem deferredStatusUpdate_node (env : Env) (snr : SelfNodeRemediation)
    (body : ReconcileOut) : (deferredStatusUpdate env snr body).node = body.node := by
  unfold deferredStatusUpdate
  repeat' split
  all_goals rfl

theorem deferredStatusUpdate_panicked (env : Env) (snr : SelfNodeRemediation)
    (body : ReconcileOut) : (deferredStatusUpdate env snr body).panicked = body.panicked := by
  unfold deferredStatusUpdate
  repeat' split
  all_goals rfl

theorem deferredStatusUpdate_ok (env : Env) (snr : SelfNodeRemediation)
    (body : ReconcileOut) (hok : env.updateSnrStatusErr = none) :
    (deferredStatusUpdate env snr body).result = body.result ∧
      (deferredStatusUpdate env snr body).err = body.err := by
  unfold deferredStatusUpdate
  simp [hok]

theorem isStoppedByNHC_iff (snr : SelfNodeRemediation) :
    isStoppedByNHC snr = true ↔
      snr.DeletionTimestamp = none ∧
        ∃ m, snr.Annotations = some m ∧ mapHas m nhcTimeOutAnnotation = true := by
  unfold isStoppedByNHC
  cases snr.Annotations <;> cases snr.DeletionTimestamp <;> simp

theorem timeoutByNHC_recognised :
    RecognisedReason remediationTimeoutByNHC .ConditionFalse .ConditionFalse :=
  Or.inr (Or.inr (Or.inl ⟨rfl, rfl, rfl⟩))

theorem started_recognised :
    RecognisedReason remediationStarted .ConditionTrue .ConditionUnknown :=
  Or.inl ⟨rfl, rfl, rfl⟩

theorem reconcileBody_stopped (r : Reconciler) (env : Env) (snr : SelfNodeRemediation)
    (hstop : isStoppedByNHC snr = true) :
    reconcileBody r env snr =
      { err := none, snr := some (updateConditions env.now remediationTimeoutByNHC snr).2
        acts := [.remediationStoppedByNHC] } := by
  have herr := updateConditions_err env.now remediationTimeoutByNHC snr _ _
    timeoutByNHC_recognised
  unfold reconcileBody
  rw [if_pos hstop]
  simp only [herr]

/-- C7. Skip by detector: a `Reconcile` invocation that fetches a request
carrying the `nhc-timed-out` annotation (whatever its value) and no deletion
timestamp, in whatever phase, leaves the conditions at Processing=False and
Succeeded=False and stops: phase, `timeAssumedRebooted` and finalizers are
unchanged, the node is not even fetched, the only calls issued are the
stopped-by-detector event and the deferred status update (so no write to the
node, no reboot, no resource removal), and the return statement gives an empty
result and no error, which is what `Reconcile` returns when the deferred status
update succeeds. With a deletion timestamp the request is not stopped:
`Reconcile` goes on with the part after the check. -/
theorem skip_by_detector (r : Reconciler) (req : Request) (env : Env)
    (snr : SelfNodeRemediation) (m : List (String × String))
    (hget : env.getSnr = .ok snr) (hagent : r.IsAgent = true → req.Name = r.MyNodeName)
    (hann : snr.Annotations = some m) (hkey : mapHas m nhcTimeOutAnnotation = true) :
    (snr.DeletionTimestamp = none →
      ∃ s, (Reconcile r req env).snr = some s ∧
        IsStatusConditionPresentAndEqual s.Status.Conditions ProcessingConditionType
          .ConditionFalse = true ∧
        IsStatusConditionPresentAndEqual s.Status.Conditions SucceededConditionType
          .ConditionFalse = true ∧
        s.Status.Phase = snr.Status.Phase ∧
        s.Status.TimeAssumedRebooted = snr.Status.TimeAssumedRebooted ∧
        s.Finalizers = snr.Finalizers ∧
        (Reconcile r req env).node = none ∧
        (Reconcile r req env).acts = [.remediationStoppedByNHC, .updateSnrStatus s.Status] ∧
        (Reconcile r req env).panicked = false ∧
        (reconcileBody r env snr).result = {} ∧
        (reconcileBody r env snr).err = none ∧
        (env.updateSnrStatusErr = none →
          (Reconcile r req env).result = {} ∧ (Reconcile r req env).err = none)) ∧
      (snr.DeletionTimestamp ≠ none →
        isStoppedByNHC snr = false ∧
        reconcileBody r env snr = reconcileStarted r env snr) := by
  constructor
  · intro hdel
    have hstop : isStoppedByNHC snr = true := (isStoppedByNHC_iff snr).mpr ⟨hdel, m, hann, hkey⟩
    have hbody := reconcileBody_stopped r env snr hstop
    have hrec := Reconcile_fetched r req env snr hget hagent
    obtain ⟨cs, hcs⟩ := updateConditions_frame env.now remediationTimeoutByNHC snr
    obtain ⟨hp, hs⟩ := updateConditions_statuses env.now remediationTimeoutByNHC snr _ _
      timeoutByNHC_recognised
    refine ⟨(updateConditions env.now remediationTimeoutByNHC snr).2, ?_, hp, hs, ?_, ?_, ?_,
      ?_, ?_, ?_, ?_, ?_, ?_⟩
    · rw [hrec, deferredStatusUpdate_snr, hbody]
    · rw [hcs]
    · rw [hcs]
    · rw [hcs]
    · rw [hrec, deferredStatusUpdate_node, hbody]
    · rw [hrec, deferredStatusUpdate_acts, hbody]; rfl
    · rw [hrec, deferredStatusUpdate_panicked, hbody]
    · rw [hbody]
    · rw [hbody]
    · intro hok
      obtain ⟨h1, h2⟩ := deferredStatusUpdate_ok env
        ((reconcileBody r env snr).snr.getD snr) (reconcileBody r env snr) hok
      rw [hrec, h1, h2, hbody]
      exact ⟨rfl, rfl⟩
  · intro hdel
    have hstop : isStoppedByNHC snr = false := by
      cases h : isStoppedByNHC snr with
      | false => rfl
      | true => exact absurd ((isStoppedByNHC_iff snr).mp h).1 hdel
    refine ⟨hstop, ?_⟩
    unfold reconcileBody
    simp [hstop]

theorem skip_by_detector_witness :
    (exTimedOut.DeletionTimestamp = none →
      ∃ s, (Reconcile exManager exRequest (exEnv 2000 exTimedOut)).snr = some s ∧
        IsStatusConditionPresentAndEqual s.Status.Conditions ProcessingConditionType
          .ConditionFalse = true ∧
        IsStatusConditionPresentAndEqual s.Status.Conditions SucceededConditionType
          .ConditionFalse = true ∧
        s.Status.Phase = exTimedOut.Status.Phase ∧
        s.Status.TimeAssumedRebooted = exTimedOut.Status.TimeAssumedRebooted ∧
        s.Finalizers = exTimedOut.Finalizers ∧
        (Reconcile exManager exRequest (exEnv 2000 exTimedOut)).node = none ∧
        (Reconcile exManager exRequest (exEnv 2000 exTimedOut)).acts =
          [.remediationStoppedByNHC, .updateSnrStatus s.Status] ∧
        (Reconcile exManager exRequest (exEnv 2000 exTimedOut)).panicked = false ∧
        (reconcileBody exManager (exEnv 2000 exTimedOut) exTimedOut).result = {} ∧
        (reconcileBody exManager (exEnv 2000 exTimedOut) exTimedOut).err = none ∧
        ((exEnv 2000 exTimedOut).updateSnrStatusErr = none →
          (Reconcile exManager exRequest (exEnv 2000 exTimedOut)).result = {} ∧
          (Reconcile exManager exRequest (exEnv 2000 exTimedOut)).err = none)) ∧
      (exTimedOut.DeletionTimestamp ≠ none →
        isStoppedByNHC exTimedOut = false ∧
        reconcileBody exManager (exEnv 2000 exTimedOut) exTimedOut =
          reconcileStarted exManager (exEnv 2000 exTimedOut) exTimedOut) :=
  skip_by_detector exManager exRequest (exEnv 2000 exTimedOut) exTimedOut
    [( nhcTimeOutAnnotation, "")] rfl (by decide) rfl (by decide)

/-- C8, as amended. Detector timeout keeps the finalizers: the invocation that
halts the remediation of a request carrying the `nhc-timed-out` annotation
leaves the finalizers as they were, in memory and in the store, and issues no
update of the request; a finalizer that was present is still present. -/
theorem detector_timeout_keeps_finalizers (r : Reconciler) (req : Request) (env : Env)
    (snr : SelfNodeRemediation) (m : List (String × String))
    (hget : env.getSnr = .ok snr) (hagent : r.IsAgent = true → req.Name = r.MyNodeName)
    (hann : snr.Annotations = some m) (hkey : mapHas m nhcTimeOutAnnotation = true)
    (hdel : snr.DeletionTimestamp = none) :
    ∃ s, (Reconcile r req env).snr = some s ∧
      s.Finalizers = snr.Finalizers ∧
      ContainsFinalizer s SNRFinalizer = ContainsFinalizer snr SNRFinalizer ∧
      issuedUpdateSnr (Reconcile r req env).acts = false ∧
      storedFinalizers env snr (Reconcile r req env) = snr.Finalizers := by
  have hstop : isStoppedByNHC snr = true := (isStoppedByNHC_iff snr).mpr ⟨hdel, m, hann, hkey⟩
  have hbody := reconcileBody_stopped r env snr hstop
  have hrec := Reconcile_fetched r req env snr hget hagent
  obtain ⟨cs, hcs⟩ := updateConditions_frame env.now remediationTimeoutByNHC snr
  have hsnr : (Reconcile r req env).snr =
      some (updateConditions env.now remediationTimeoutByNHC snr).2 := by
    rw [hrec, deferredStatusUpdate_snr, hbody]
  have hacts : issuedUpdateSnr (Reconcile r req env).acts = false := by
    rw [hrec, deferredStatusUpdate_acts, hbody]; rfl
  refine ⟨_, hsnr, ?_, ?_, hacts, ?_⟩
  · rw [hcs]
  · unfold ContainsFinalizer; rw [hcs]
  · unfold storedFinalizers
    rw [hsnr, hacts]
    simp

theorem detector_timeout_keeps_finalizers_witness :
    ∃ s, (Reconcile exManager exRequest (exEnv 2000 exTimedOut)).snr = some s ∧
      s.Finalizers = exTimedOut.Finalizers ∧
      ContainsFinalizer s SNRFinalizer = ContainsFinalizer exTimedOut SNRFinalizer ∧
      issuedUpdateSnr (Reconcile exManager exRequest (exEnv 2000 exTimedOut)).acts = false ∧
      storedFinalizers (exEnv 2000 exTimedOut) exTimedOut
        (Reconcile exManager exRequest (exEnv 2000 exTimedOut)) = exTimedOut.Finalizers :=
  detector_timeout_keeps_finalizers exManager exRequest (exEnv 2000 exTimedOut) exTimedOut
    [( nhcTimeOutAnnotation, "")] rfl (by decide) rfl (by decide) rfl

/-- C8, counterexample. A request that carries the `nhc-timed-out` annotation
and the finalizer, and is stopped by the detector, still has the finalizer after
the invocation that halts it. -/
theorem detector_timeout_finalizer_still_present :
    isStoppedByNHC exTimedOut = true ∧ ContainsFinalizer exTimedOut SNRFinalizer = true ∧
      ∃ s, (Reconcile exManager exRequest (exEnv 2000 exTimedOut)).snr = some s ∧
        ContainsFinalizer s SNRFinalizer = true :=
  ⟨by decide, by decide, _, rfl, by decide⟩

theorem getNodeFromSnr_status (env : Env) (snr : SelfNodeRemediation)
    (status : SelfNodeRemediationStatus) :
    getNodeFromSnr env { snr with Status := status } = getNodeFromSnr env snr := rfl

theorem isStoppedByNHC_status (snr : SelfNodeRemediation)
    (status : SelfNodeRemediationStatus) :
    isStoppedByNHC { snr with Status := status } = isStoppedByNHC snr := rfl

theorem reconcileNode_excluded (r : Reconciler) (env : Env) (snr : SelfNodeRemediation)
    (node : Node) (hnode : getNodeFromSnr env snr = .ok node)
    (hlabel : mapGet node.Labels excludeRemediationLabel = "true") :
    reconcileNode r env snr =
      { snr := some snr, node := some node, acts := [.event eventReasonRemediationSkipped] } := by
  unfold reconcileNode
  rw [hnode]
  simp only [hlabel, if_true]

/-- The request that an invocation on an excluded node leaves in memory. -/
theorem reconcileBody_excluded (r : Reconciler) (env : Env) (snr : SelfNodeRemediation)
    (node : Node) (hnode : getNodeFromSnr env snr = .ok node)
    (hlabel : mapGet node.Labels excludeRemediationLabel = "true") :
    ∃ s cs, reconcileBody r env snr =
        { snr := some s, node := if isStoppedByNHC snr then none else some node
          acts := if isStoppedByNHC snr then [.remediationStoppedByNHC]
            else [.event eventReasonRemediationSkipped] } ∧
      s = { snr with Status := { snr.Status with Conditions := cs } } ∧
      cs = (if isStoppedByNHC snr then (updateConditions env.now remediationTimeoutByNHC snr).2
            else if getPhase snr != fencingCompletedPhase then
              (updateConditions env.now remediationStarted snr).2
            else snr).Status.Conditions := by
  by_cases hstop : isStoppedByNHC snr = true
  · obtain ⟨cs, hcs⟩ := updateConditions_frame env.now remediationTimeoutByNHC snr
    refine ⟨_, cs, ?_, hcs, ?_⟩
    · rw [reconcileBody_stopped r env snr hstop]
      simp [hstop]
    · simp only [hstop, if_true]
      rw [hcs]
  · have hstop' : isStoppedByNHC snr = false := by simpa using hstop
    unfold reconcileBody reconcileStarted
    simp only [hstop', Bool.false_eq_true, if_false]
    by_cases hphase : (getPhase snr != fencingCompletedPhase) = true
    · obtain ⟨cs, hcs⟩ := updateConditions_frame env.now remediationStarted snr
      have herr := updateConditions_err env.now remediationStarted snr _ _ started_recognised
      have hnode' : getNodeFromSnr env (updateConditions env.now remediationStarted snr).2 =
          .ok node := by rw [hcs]; exact hnode
      refine ⟨_, cs, ?_, hcs, ?_⟩
      · simp only [hphase, if_true]
        split
        · rename_i err snr₁ heq
          rw [heq] at herr
          exact absurd herr (by simp)
        · rename_i snr₁ heq
          rw [heq] at hnode'
          rw [reconcileNode_excluded r env snr₁ node hnode' hlabel, heq]
      · simp only [hphase, if_true]
        rw [hcs]
    · refine ⟨snr, snr.Status.Conditions, ?_, rfl, ?_⟩
      · simp only [hphase]
        exact reconcileNode_excluded r env snr node hnode hlabel
      · simp only [hphase]
        rfl

/-- C9, as amended. Excluded node: a `Reconcile` invocation on a request whose
node carries the label `exclude-from-remediation=true` changes nothing but the
conditions of the request. Phase, `timeAssumedRebooted`, last error, finalizers
and every other field of the request are as before, the node is as fetched
(taints and schedulability untouched), and the only calls issued are events and
the deferred status update: no reboot, no resource removal, no write to the
node. The conditions are those of `updateConditions(remediationStarted)`, that
is Processing=True and Succeeded=Unknown, unless the phase is Fencing-Completed
(then they are unchanged too) or the request is stopped by the detector (then
they are those of `updateConditions(remediationTimeoutByNHC)`). -/
theorem excluded_node_changes_conditions_only (r : Reconciler) (req : Request) (env : Env)
    (snr : SelfNodeRemediation) (node : Node)
    (hget : env.getSnr = .ok snr) (hagent : r.IsAgent = true → req.Name = r.MyNodeName)
    (hnode : getNodeFromSnr env snr = .ok node)
    (hlabel : mapGet node.Labels excludeRemediationLabel = "true") :
    ∃ s, (Reconcile r req env).snr = some s ∧
      s = { snr with Status := { snr.Status with Conditions := s.Status.Conditions } } ∧
      s.Status.Conditions =
        (if isStoppedByNHC snr then (updateConditions env.now remediationTimeoutByNHC snr).2
         else if getPhase snr != fencingCompletedPhase then
           (updateConditions env.now remediationStarted snr).2
         else snr).Status.Conditions ∧
      (isStoppedByNHC snr = false → getPhase snr ≠ fencingCompletedPhase →
        IsStatusConditionPresentAndEqual s.Status.Conditions ProcessingConditionType
          .ConditionTrue = true ∧
        IsStatusConditionPresentAndEqual s.Status.Conditions SucceededConditionType
          .ConditionUnknown = true) ∧
      (∀ n, (Reconcile r req env).node = some n → n = node) ∧
      (∀ a ∈ (Reconcile r req env).acts,
        a = .event eventReasonRemediationSkipped ∨ a = .remediationStoppedByNHC ∨
        a = .updateSnrStatus s.Status) ∧
      (Reconcile r req env).panicked = false := by
  obtain ⟨s, cs, hbody, hs, hcs⟩ := reconcileBody_excluded r env snr node hnode hlabel
  have hrec := Reconcile_fetched r req env snr hget hagent
  have hconds : s.Status.Conditions = cs := by rw [hs]
  refine ⟨s, ?_, ?_, ?_, ?_, ?_, ?_, ?_⟩
  · rw [hrec, deferredStatusUpdate_snr, hbody]
  · rw [hconds]; exact hs
  · rw [hconds]; exact hcs
  · intro hstop hphase
    have hne : (getPhase snr != fencingCompletedPhase) = true := by simpa using hphase
    rw [hconds, hcs]
    simp only [hstop, Bool.false_eq_true, if_false, hne, if_true]
    exact updateConditions_statuses env.now remediationStarted snr _ _ started_recognised
  · intro n hn
    rw [hrec, deferredStatusUpdate_node, hbody] at hn
    simp only [] at hn
    split at hn
    · exact absurd hn (by simp)
    · exact (Option.some.inj hn).symm
  · intro a ha
    rw [hrec, deferredStatusUpdate_acts, hbody] at ha
    simp only [Option.getD_some, List.mem_append, List.mem_singleton] at ha
    rcases ha with ha | ha
    · split at ha
      · simp only [List.mem_singleton] at ha
        exact Or.inr (Or.inl ha)
      · simp only [List.mem_singleton] at ha
        exact Or.inl ha
    · exact Or.inr (Or.inr ha)
  · rw [hrec, deferredStatusUpdate_panicked, hbody]

theorem excluded_node_changes_conditions_only_witness :
    ∃ s, (Reconcile exManager exRequest (exEnvExcluded 1000 exFresh)).snr = some s ∧
      s = { exFresh with
        Status := { exFresh.Status with Conditions := s.Status.Conditions } } ∧
      s.Status.Conditions =
        (if isStoppedByNHC exFresh then
           (updateConditions (exEnvExcluded 1000 exFresh).now remediationTimeoutByNHC
             exFresh).2
         else if getPhase exFresh != fencingCompletedPhase then
           (updateConditions (exEnvExcluded 1000 exFresh).now remediationStarted exFresh).2
         else exFresh).Status.Conditions ∧
      (isStoppedByNHC exFresh = false → getPhase exFresh ≠ fencingCompletedPhase →
        IsStatusConditionPresentAndEqual s.Status.Conditions ProcessingConditionType
          .ConditionTrue = true ∧
        IsStatusConditionPresentAndEqual s.Status.Conditions SucceededConditionType
          .ConditionUnknown = true) ∧
      (∀ n, (Reconcile exManager exRequest (exEnvExcluded 1000 exFresh)).node = some n →
        n = exExcludedNode) ∧
      (∀ a ∈ (Reconcile exManager exRequest (exEnvExcluded 1000 exFresh)).acts,
        a = .event eventReasonRemediationSkipped ∨ a = .remediationStoppedByNHC ∨
        a = .updateSnrStatus s.Status) ∧
      (Reconcile exManager exRequest (exEnvExcluded 1000 exFresh)).panicked = false :=
  excluded_node_changes_conditions_only exManager exRequest (exEnvExcluded 1000 exFresh)
    exFresh exExcludedNode rfl (by decide) rfl (by decide)

/-- C9, counterexample. For a fresh request whose node carries the label
`exclude-from-remediation=true`, the conditions after a `Reconcile` invocation
differ from those before it: the request had none and now has Processing=True. -/
theorem excluded_node_conditions_change :
    mapGet exExcludedNode.Labels excludeRemediationLabel = "true" ∧
      getNodeFromSnr (exEnvExcluded 1000 exFresh) exFresh = .ok exExcludedNode ∧
      exFresh.Status.Conditions = [] ∧
      ∃ s, (Reconcile exManager exRequest (exEnvExcluded 1000 exFresh)).snr = some s ∧
        s.Status.Conditions ≠ exFresh.Status.Conditions ∧
        IsStatusConditionPresentAndEqual s.Status.Conditions ProcessingConditionType
          .ConditionTrue = true :=
  ⟨by decide, rfl, rfl, _, rfl, by decide, by decide⟩

/-- C10, as amended. Condition reasons follow the update unless the statuses are
already there: for every recognised reason and every prior list of conditions,
`updateConditions` returns no error and leaves both conditions with the
statuses of the reason; when the Processing and Succeeded conditions were both
present with those statuses beforehand the request is returned unchanged,
reasons included, and otherwise both conditions carry the new reason. -/
theorem updateConditions_reasons_unless_statuses_present (now : Time)
    (reason : processingChangeReason) (snr : SelfNodeRemediation) (p s : ConditionStatus)
    (hr : RecognisedReason reason p s) :
    (updateConditions now reason snr).1 = none ∧
      IsStatusConditionPresentAndEqual (updateConditions now reason snr).2.Status.Conditions
        ProcessingConditionType p = true ∧
      IsStatusConditionPresentAndEqual (updateConditions now reason snr).2.Status.Conditions
        SucceededConditionType s = true ∧
      ((IsStatusConditionPresentAndEqual snr.Status.Conditions ProcessingConditionType p &&
          IsStatusConditionPresentAndEqual snr.Status.Conditions SucceededConditionType s) =
            true →
        (updateConditions now reason snr).2 = snr) ∧
      ((IsStatusConditionPresentAndEqual snr.Status.Conditions ProcessingConditionType p &&
          IsStatusConditionPresentAndEqual snr.Status.Conditions SucceededConditionType s) =
            false →
        conditionReason (updateConditions now reason snr).2.Status.Conditions
          ProcessingConditionType = some reason ∧
        conditionReason (updateConditions now reason snr).2.Status.Conditions
          SucceededConditionType = some reason) := by
  obtain ⟨h1, h2⟩ := updateConditions_statuses now reason snr p s hr
  refine ⟨updateConditions_err now reason snr p s hr, h1, h2, ?_,
    updateConditions_reasons now reason snr p s hr⟩
  intro hguard
  rw [updateConditions_recognised now reason snr p s hr, hguard]
  rfl

theorem updateConditions_reasons_unless_statuses_present_witness :
    (updateConditions 1000 remediationTimeoutByNHC exFresh).1 = none ∧
      IsStatusConditionPresentAndEqual
        (updateConditions 1000 remediationTimeoutByNHC exFresh).2.Status.Conditions
        ProcessingConditionType .ConditionFalse = true ∧
      IsStatusConditionPresentAndEqual
        (updateConditions 1000 remediationTimeoutByNHC exFresh).2.Status.Conditions
        SucceededConditionType .ConditionFalse = true ∧
      ((IsStatusConditionPresentAndEqual exFresh.Status.Conditions ProcessingConditionType
            .ConditionFalse &&
          IsStatusConditionPresentAndEqual exFresh.Status.Conditions SucceededConditionType
            .ConditionFalse) = true →
        (updateConditions 1000 remediationTimeoutByNHC exFresh).2 = exFresh) ∧
      ((IsStatusConditionPresentAndEqual exFresh.Status.Conditions ProcessingConditionType
            .ConditionFalse &&
          IsStatusConditionPresentAndEqual exFresh.Status.Conditions SucceededConditionType
            .ConditionFalse) = false →
        conditionReason (updateConditions 1000 remediationTimeoutByNHC exFresh).2.Status.Conditions
          ProcessingConditionType = some remediationTimeoutByNHC ∧
        conditionReason (updateConditions 1000 remediationTimeoutByNHC exFresh).2.Status.Conditions
          SucceededConditionType = some remediationTimeoutByNHC) :=
  updateConditions_reasons_unless_statuses_present 1000 remediationTimeoutByNHC exFresh
    .ConditionFalse .ConditionFalse (Or.inr (Or.inr (Or.inl ⟨rfl, rfl, rfl⟩)))

/-- C10, counterexample. For a request whose conditions are both false with
reason `RemediationSkippedNodeNotFound`, `updateConditions` with the recognised
reason `RemediationTimeoutByNHC` returns no error and leaves the old reason on
both conditions; so does the `Reconcile` invocation that stops the request on
the detector timeout. -/
theorem timeout_after_node_not_found_keeps_reason :
    (updateConditions 1000 remediationTimeoutByNHC exSkippedThenTimedOut).1 = none ∧
      conditionReason
        (updateConditions 1000 remediationTimeoutByNHC exSkippedThenTimedOut).2.Status.Conditions
        ProcessingConditionType = some remediationSkippedNodeNotFound ∧
      conditionReason
        (updateConditions 1000 remediationTimeoutByNHC exSkippedThenTimedOut).2.Status.Conditions
        SucceededConditionType = some remediationSkippedNodeNotFound ∧
      remediationSkippedNodeNotFound ≠ remediationTimeoutByNHC ∧
      isStoppedByNHC exSkippedThenTimedOut = true ∧
      ∃ s, (Reconcile exManager exRequest (exEnv 1000 exSkippedThenTimedOut)).snr = some s ∧
        conditionReason s.Status.Conditions ProcessingConditionType =
          some remediationSkippedNodeNotFound ∧
        conditionReason s.Status.Conditions SucceededConditionType =
          some remediationSkippedNodeNotFound :=
  ⟨by decide, by decide, by decide, by decide, by decide, _, rfl, by decide, by decide⟩


theorem handleRebootCompletedPhase_err (env : Env) (node : Node) (snr : SelfNodeRemediation)
    (rm : removeNodeResources) (e : GoError) (hret : (rm node snr).panicked = false)
    (herr : (rm node snr).err = some e) :
    handleRebootCompletedPhase env node snr rm =
      { err := some e, node := (rm node snr).node, snr := snr, acts := (rm node snr).acts } := by
  unfold handleRebootCompletedPhase
  simp [hret, herr]

theorem handleRebootCompletedPhase_wait (env : Env) (node : Node) (snr : SelfNodeRemediation)
    (rm : removeNodeResources) (hret : (rm node snr).panicked = false)
    (herr : (rm node snr).err = none) (hwait : (rm node snr).waitTime ≠ 0) :
    handleRebootCompletedPhase env node snr rm =
      { result := { RequeueAfter := (rm node snr).waitTime }, node := (rm node snr).node
        snr := snr, acts := (rm node snr).acts } := by
  unfold handleRebootCompletedPhase
  simp [hret, herr, hwait]

theorem handleRebootCompletedPhase_done (env : Env) (node : Node) (snr : SelfNodeRemediation)
    (rm : removeNodeResources) (hret : (rm node snr).panicked = false)
    (herr : (rm node snr).err = none) (hwait : (rm node snr).waitTime = 0) :
    handleRebootCompletedPhase env node snr rm =
      { err := (updateConditions env.now remediationFinishedSuccessfully
          { snr with Status := { snr.Status with Phase := some fencingCompletedPhase } }).1
        node := (rm node snr).node
        snr := (updateConditions env.now remediationFinishedSuccessfully
          { snr with Status := { snr.Status with Phase := some fencingCompletedPhase } }).2
        acts := (rm node snr).acts ++ [.event eventReasonDeleteResources] } := by
  unfold handleRebootCompletedPhase
  simp [hret, herr, hwait]

theorem finishedSuccessfully_recognised :
    RecognisedReason remediationFinishedSuccessfully .ConditionFalse .ConditionTrue :=
  Or.inr (Or.inl ⟨rfl, rfl, rfl⟩)

theorem rebootCompleted_exit_aux (env : Env) (node : Node) (snr : SelfNodeRemediation)
    (rm : removeNodeResources) (hphase : getPhase snr = rebootCompletedPhase)
    (hret : (rm node snr).panicked = false)
    (hdone : (handleRebootCompletedPhase env node snr rm).snr.Status.Phase =
      some fencingCompletedPhase) :
    (rm node snr).err = none ∧ (rm node snr).waitTime = 0 := by
  have hp := (getPhase_rebootCompleted snr).mp hphase
  have hne : some rebootCompletedPhase ≠ some fencingCompletedPhase := by decide
  cases herr : (rm node snr).err with
  | some e =>
    rw [handleRebootCompletedPhase_err env node snr rm e hret herr] at hdone
    exact absurd (hp.symm.trans hdone) hne
  | none =>
    by_cases hw : (rm node snr).waitTime = 0
    · exact ⟨rfl, hw⟩
    · rw [handleRebootCompletedPhase_wait env node snr rm hret herr hw] at hdone
      exact absurd (hp.symm.trans hdone) hne

/-- C13. Reboot-Completed exit: for a request in phase Reboot-Completed and a
resource-removal function that returns (does not panic),
`handleRebootCompletedPhase` sets the phase to Fencing-Completed and the
conditions to Processing=False, Succeeded=True exactly when the function
returned no error and a zero wait time, and then returns an empty result and no
error; when the function returned an error, that error is returned and the
request (phase and conditions included) is unchanged; when it returned no error
and a non-zero wait time, the result requeues after exactly that wait time, with
no error and the request unchanged. -/
theorem rebootCompleted_exit (env : Env) (node : Node) (snr : SelfNodeRemediation)
    (rm : removeNodeResources) (hphase : getPhase snr = rebootCompletedPhase)
    (hret : (rm node snr).panicked = false) :
    (((handleRebootCompletedPhase env node snr rm).snr.Status.Phase =
          some fencingCompletedPhase ∧
        IsStatusConditionPresentAndEqual
          (handleRebootCompletedPhase env node snr rm).snr.Status.Conditions
          ProcessingConditionType .ConditionFalse = true ∧
        IsStatusConditionPresentAndEqual
          (handleRebootCompletedPhase env node snr rm).snr.Status.Conditions
          SucceededConditionType .ConditionTrue = true) ↔
        ((rm node snr).err = none ∧ (rm node snr).waitTime = 0)) ∧
      ((rm node snr).err = none → (rm node snr).waitTime = 0 →
        (handleRebootCompletedPhase env node snr rm).err = none ∧
        (handleRebootCompletedPhase env node snr rm).result = {}) ∧
      (∀ e, (rm node snr).err = some e →
        (handleRebootCompletedPhase env node snr rm).err = some e ∧
        (handleRebootCompletedPhase env node snr rm).result = {} ∧
        (handleRebootCompletedPhase env node snr rm).snr = snr) ∧
      ((rm node snr).err = none → (rm node snr).waitTime ≠ 0 →
        (handleRebootCompletedPhase env node snr rm).result =
          { RequeueAfter := (rm node snr).waitTime } ∧
        (handleRebootCompletedPhase env node snr rm).err = none ∧
        (handleRebootCompletedPhase env node snr rm).snr = snr) ∧
      (handleRebootCompletedPhase env node snr rm).panicked = false := by
  have hp := (getPhase_rebootCompleted snr).mp hphase
  have hne : some rebootCompletedPhase ≠ some fencingCompletedPhase := by decide
  cases herr : (rm node snr).err with
  | some e =>
    rw [handleRebootCompletedPhase_err env node snr rm e hret herr]
    refine ⟨⟨fun h => absurd (hp.symm.trans h.1) hne, fun h => absurd h.1 (by simp)⟩,
      fun h => absurd h (by simp), ?_, fun h => absurd h (by simp), rfl⟩
    intro e' he'
    cases he'
    exact ⟨rfl, rfl, rfl⟩
  | none =>
    by_cases hw : (rm node snr).waitTime = 0
    · rw [handleRebootCompletedPhase_done env node snr rm hret herr hw]
      obtain ⟨cs, hcs⟩ := updateConditions_frame env.now remediationFinishedSuccessfully
        { snr with Status := { snr.Status with Phase := some fencingCompletedPhase } }
      obtain ⟨h1, h2⟩ := updateConditions_statuses env.now remediationFinishedSuccessfully
        { snr with Status := { snr.Status with Phase := some fencingCompletedPhase } } _ _
        finishedSuccessfully_recognised
      have h3 := updateConditions_err env.now remediationFinishedSuccessfully
        { snr with Status := { snr.Status with Phase := some fencingCompletedPhase } } _ _
        finishedSuccessfully_recognised
      refine ⟨⟨fun _ => ⟨rfl, hw⟩, fun _ => ⟨?_, h1, h2⟩⟩, fun _ _ => ⟨h3, rfl⟩,
        fun e he => absurd he (by simp), fun _ h => absurd hw h, rfl⟩
      show (updateConditions env.now remediationFinishedSuccessfully
        { snr with Status := { snr.Status with Phase := some fencingCompletedPhase } }).2.Status.Phase
          = some fencingCompletedPhase
      rw [hcs]
    · rw [handleRebootCompletedPhase_wait env node snr rm hret herr hw]
      exact ⟨⟨fun h => absurd (hp.symm.trans h.1) hne, fun h => absurd h.2 hw⟩,
        fun _ h => absurd h hw, fun e he => absurd he (by simp), fun _ _ => ⟨rfl, rfl, rfl⟩, rfl⟩

theorem rebootCompleted_exit_witness :
    (handleRebootCompletedPhase (exEnv (2000 + 180 * Second) exRebooted) exNode exRebooted
        (deleteResourcesWrapper (exEnv (2000 + 180 * Second) exRebooted))).snr.Status.Phase =
      some fencingCompletedPhase :=
  ((rebootCompleted_exit (exEnv (2000 + 180 * Second) exRebooted) exNode exRebooted
      (deleteResourcesWrapper (exEnv (2000 + 180 * Second) exRebooted)) (by decide) rfl).1.mpr
    ⟨rfl, rfl⟩).1

/-- C18. Strategy resolution: `getRuntimeStrategy` returns the strategy of the
request unchanged when it is not Automatic; when it is Automatic it returns
OutOfServiceTaint if `IsOutOfServiceTaintGA` holds and ResourceDeletion
otherwise; the result is never Automatic. -/
theorem getRuntimeStrategy_resolution (r : Reconciler) (snr : SelfNodeRemediation) :
    (snr.Spec.RemediationStrategy ≠ AutomaticRemediationStrategy →
        getRuntimeStrategy r snr = snr.Spec.RemediationStrategy) ∧
      (snr.Spec.RemediationStrategy = AutomaticRemediationStrategy →
        r.IsOutOfServiceTaintGA = true →
        getRuntimeStrategy r snr = OutOfServiceTaintRemediationStrategy) ∧
      (snr.Spec.RemediationStrategy = AutomaticRemediationStrategy →
        r.IsOutOfServiceTaintGA = false →
        getRuntimeStrategy r snr = ResourceDeletionRemediationStrategy) ∧
      getRuntimeStrategy r snr ≠ AutomaticRemediationStrategy := by
  have h1 : OutOfServiceTaintRemediationStrategy ≠ AutomaticRemediationStrategy := by decide
  have h2 : ResourceDeletionRemediationStrategy ≠ AutomaticRemediationStrategy := by decide
  unfold getRuntimeStrategy
  by_cases hs : snr.Spec.RemediationStrategy = AutomaticRemediationStrategy
  · cases hga : r.IsOutOfServiceTaintGA <;> simp [hs, h1, h2]
  · simp [hs]

/-- C20. Unreconcilable errors: for every error `e` (nil included),
`updateSnrStatusLastError` leaves `status.lastError` at the message of `e` (the
empty string for nil) and changes nothing else in the request; it issues the
status patch exactly when the last error was different; when the patch is not
issued or succeeds it returns nil if `e` is nil or an `UnreconcilableError` and
`e` itself otherwise, and when the patch fails it returns the error of the
patch. -/
theorem updateSnrStatusLastError_contract (env : Env) (snr : SelfNodeRemediation)
    (e : Option GoError) :
    (updateSnrStatusLastError env snr e).2.1 =
        { snr with Status := { snr.Status with
            LastError := (e.map GoError.Error).getD "" } } ∧
      (snr.Status.LastError = (e.map GoError.Error).getD "" →
        (updateSnrStatusLastError env snr e).2.2 = [] ∧
        (updateSnrStatusLastError env snr e).1 =
          if e = none ∨ isUnreconcilableError e = true then none else e) ∧
      (snr.Status.LastError ≠ (e.map GoError.Error).getD "" →
        (updateSnrStatusLastError env snr e).2.2 =
          [.patchSnrStatus ((e.map GoError.Error).getD "")] ∧
        (env.patchSnrStatusErr = none →
          (updateSnrStatusLastError env snr e).1 =
            if e = none ∨ isUnreconcilableError e = true then none else e) ∧
        (∀ updateErr, env.patchSnrStatusErr = some updateErr →
          (updateSnrStatusLastError env snr e).1 = some updateErr)) := by
  have hmsg : (match e with
      | some e => e.Error
      | none => "") = (e.map GoError.Error).getD "" := by
    cases e <;> rfl
  have hret : (if isUnreconcilableError e = true then none else e) =
      if e = none ∨ isUnreconcilableError e = true then none else e := by
    cases e with
    | none => simp
    | some v => by_cases hu : isUnreconcilableError (some v) = true <;> simp [hu]
  by_cases hsame : snr.Status.LastError = (e.map GoError.Error).getD ""
  · have hb : (snr.Status.LastError != (e.map GoError.Error).getD "") = false := by
      simp [hsame]
    have heq : updateSnrStatusLastError env snr e =
        (if e = none ∨ isUnreconcilableError e = true then none else e, snr, []) := by
      unfold updateSnrStatusLastError
      simp only [hmsg, hret, hb, Bool.false_eq_true, if_false]
    rw [heq]
    refine ⟨?_, fun _ => ⟨rfl, rfl⟩, fun h => absurd hsame h⟩
    show snr = _
    rw [← hsame]
  · have hb : (snr.Status.LastError != (e.map GoError.Error).getD "") = true := by
      simp [hsame]
    cases hpatch : env.patchSnrStatusErr with
    | none =>
      have heq : updateSnrStatusLastError env snr e =
          (if e = none ∨ isUnreconcilableError e = true then none else e,
           { snr with Status := { snr.Status with
              LastError := (e.map GoError.Error).getD "" } },
           [.patchSnrStatus ((e.map GoError.Error).getD "")]) := by
        unfold updateSnrStatusLastError
        simp only [hmsg, hret, hb, if_true, hpatch]
      rw [heq]
      exact ⟨rfl, fun h => absurd h hsame, fun _ => ⟨rfl, fun _ => rfl,
        fun u hu => absurd hu (by simp)⟩⟩
    | some u =>
      have heq : updateSnrStatusLastError env snr e =
          (some u,
           { snr with Status := { snr.Status with
              LastError := (e.map GoError.Error).getD "" } },
           [.patchSnrStatus ((e.map GoError.Error).getD "")]) := by
        unfold updateSnrStatusLastError
        simp only [hmsg, hb, if_true, hpatch]
      rw [heq]
      exact ⟨rfl, fun h => absurd h hsame, fun _ => ⟨rfl, fun h => absurd h (by simp),
        fun u' hu' => by cases hu'; rfl⟩⟩

/-! ### Node resources and node restoration -/

theorem isResourceDeletionCompleted_iff (env : Env) (node : Node) :
    isResourceDeletionCompleted env node = true ↔
      ∃ pods vas, env.listPods = .ok pods ∧ env.listVolumeAttachments = .ok vas ∧
        (∀ pod ∈ pods, pod.NodeName = node.Name → pod.DeletionTimestamp = none) ∧
        (∀ va ∈ vas, va.NodeName ≠ node.Name) := by
  unfold isResourceDeletionCompleted isPodTerminating
  cases hp : env.listPods with
  | error e => simp
  | ok pods =>
    cases hv : env.listVolumeAttachments with
    | error e => simp
    | ok vas =>
      simp only [Except.ok.injEq, exists_and_left, exists_eq_left']
      by_cases h1 : (pods.any fun pod => pod.NodeName == node.Name &&
          pod.DeletionTimestamp.isSome) = true
      · simp only [h1, if_true, Bool.false_eq_true, false_iff, not_and]
        intro hall
        simp only [List.any_eq_true, Bool.and_eq_true, beq_iff_eq] at h1
        obtain ⟨pod, hmem, hname, hdel⟩ := h1
        rw [hall pod hmem hname] at hdel
        simp at hdel
      · simp only [h1, Bool.false_eq_true, if_false]
        have hpods : ∀ pod ∈ pods, pod.NodeName = node.Name → pod.DeletionTimestamp = none := by
          intro pod hmem hname
          cases hd : pod.DeletionTimestamp with
          | none => rfl
          | some t =>
            exfalso
            apply h1
            simp only [List.any_eq_true, Bool.and_eq_true, beq_iff_eq]
            exact ⟨pod, hmem, hname, by simp [hd]⟩
        by_cases h2 : (vas.any fun va => va.NodeName == node.Name) = true
        · simp only [h2, if_true, Bool.false_eq_true, false_iff, not_and]
          intro _ hall
          simp only [List.any_eq_true, beq_iff_eq] at h2
          obtain ⟨va, hmem, hname⟩ := h2
          exact hall va hmem hname
        · simp only [h2, Bool.false_eq_true, if_false, true_iff]
          refine ⟨hpods, ?_⟩
          intro va hmem hname
          apply h2
          simp only [List.any_eq_true, beq_iff_eq]
          exact ⟨va, hmem, hname⟩

theorem addOutOfServiceTaint_name (env : Env) (node : Node) :
    (addOutOfServiceTaint env node).node.Name = node.Name := by
  unfold addOutOfServiceTaint
  repeat' split
  all_goals rfl

theorem isResourceDeletionCompleted_name (env : Env) (a b : Node) (h : a.Name = b.Name) :
    isResourceDeletionCompleted env a = isResourceDeletionCompleted env b := by
  unfold isResourceDeletionCompleted
  rw [h]

theorem addOutOfServiceTaint_acts (env : Env) (node : Node) :
    ∀ a ∈ (addOutOfServiceTaint env node).acts,
      a = .patchNode OutOfServiceTaint true (addOutOfServiceTaint env node).node ∨
      a = .event eventReasonAddOutOfService := by
  unfold addOutOfServiceTaint
  repeat' split
  all_goals simp

theorem taintExists_append (taints : List Taint) (t u : Taint)
    (h : (t.Key == u.Key && t.Effect == u.Effect) = true) :
    TaintExists (taints ++ [t]) u = true := by
  unfold TaintExists
  simp only [List.any_append, List.any_cons, List.any_nil, Bool.or_false, h, Bool.or_true]

theorem addOutOfServiceTaint_exists (env : Env) (node : Node) :
    TaintExists (addOutOfServiceTaint env node).node.Taints OutOfServiceTaint = true := by
  unfold addOutOfServiceTaint
  split
  · assumption
  · simp only []
    split <;> exact taintExists_append _ _ _ (by simp)

theorem useOutOfServiceTaint_completed (env : Env) (node : Node)
    (snr : SelfNodeRemediation) (hadd : (addOutOfServiceTaint env node).err = none)
    (hdone : isResourceDeletionCompleted env node = true) :
    useOutOfServiceTaint env node snr =
      { waitTime := 0
        err := (removeOutOfServiceTaint env (addOutOfServiceTaint env node).node).err
        node := (removeOutOfServiceTaint env (addOutOfServiceTaint env node).node).node
        acts := (addOutOfServiceTaint env node).acts ++
          (removeOutOfServiceTaint env (addOutOfServiceTaint env node).node).acts } := by
  have h := isResourceDeletionCompleted_name env _ _ (addOutOfServiceTaint_name env node)
  unfold useOutOfServiceTaint
  simp [hadd, h, hdone]

theorem useOutOfServiceTaint_waiting (env : Env) (node : Node)
    (snr : SelfNodeRemediation) (t : Time) (hadd : (addOutOfServiceTaint env node).err = none)
    (hdone : isResourceDeletionCompleted env node = false)
    (htime : snr.Status.TimeAssumedRebooted = some t) :
    useOutOfServiceTaint env node snr =
      if t + 300 * Second > env.now then
        { waitTime := 5 * Second, node := (addOutOfServiceTaint env node).node
          acts := (addOutOfServiceTaint env node).acts }
      else
        { waitTime := 0, err := some (.plain "Not ready to delete out-of-service taint")
          node := (addOutOfServiceTaint env node).node
          acts := (addOutOfServiceTaint env node).acts } := by
  have h := isResourceDeletionCompleted_name env _ _ (addOutOfServiceTaint_name env node)
  unfold useOutOfServiceTaint isResourceDeletionExpired
  simp only [hadd, h, hdone, htime]
  by_cases hlt : t + 300 * Second > env.now
  · simp [hlt]
  · simp [hlt]

theorem useOutOfServiceTaint_not_completed (env : Env) (node : Node)
    (snr : SelfNodeRemediation) (hdone : isResourceDeletionCompleted env node = false) :
    ((useOutOfServiceTaint env node snr).panicked = false →
      (useOutOfServiceTaint env node snr).err = none →
      (useOutOfServiceTaint env node snr).waitTime ≠ 0) ∧
    ∀ n, Action.patchNode OutOfServiceTaint false n ∉ (useOutOfServiceTaint env node snr).acts := by
  have h := isResourceDeletionCompleted_name env _ _ (addOutOfServiceTaint_name env node)
  have hacts := addOutOfServiceTaint_acts env node
  have hno : ∀ n, Action.patchNode OutOfServiceTaint false n ∉
      (addOutOfServiceTaint env node).acts := by
    intro n hn
    rcases hacts _ hn with h' | h'
    · simp at h'
    · simp at h'
  cases hadd : (addOutOfServiceTaint env node).err with
  | some e =>
    have heq : useOutOfServiceTaint env node snr =
        { waitTime := 0, err := some e, node := (addOutOfServiceTaint env node).node
          acts := (addOutOfServiceTaint env node).acts } := by
      unfold useOutOfServiceTaint
      simp [hadd]
    rw [heq]
    exact ⟨fun _ he => absurd he (by simp), hno⟩
  | none =>
    cases htime : snr.Status.TimeAssumedRebooted with
    | none =>
      have heq : useOutOfServiceTaint env node snr =
          { node := (addOutOfServiceTaint env node).node
            acts := (addOutOfServiceTaint env node).acts, panicked := true } := by
        unfold useOutOfServiceTaint isResourceDeletionExpired
        simp [hadd, h, hdone, htime]
      rw [heq]
      exact ⟨fun hp => absurd hp (by simp), hno⟩
    | some t =>
      rw [useOutOfServiceTaint_waiting env node snr t hadd hdone htime]
      split
      · refine ⟨fun _ _ => ?_, hno⟩
        show (5 * Second : Int) ≠ 0
        decide
      · exact ⟨fun _ he => absurd he (by simp), hno⟩

/-- C15, as amended. Out-of-service taint removal: `useOutOfServiceTaint` reports
completion (returns a zero wait time and no error) or issues the patch that
removes the out-of-service taint only when both lists succeed, no pod
scheduled on the node has a deletion timestamp (is terminating) and no volume
attachment references the node. -/
theorem outOfService_removed_only_without_terminating_pods (env : Env) (node : Node)
    (snr : SelfNodeRemediation)
    (hdone : ((useOutOfServiceTaint env node snr).panicked = false ∧
        (useOutOfServiceTaint env node snr).err = none ∧
        (useOutOfServiceTaint env node snr).waitTime = 0) ∨
      ∃ n, Action.patchNode OutOfServiceTaint false n ∈
        (useOutOfServiceTaint env node snr).acts) :
    ∃ pods vas, env.listPods = .ok pods ∧ env.listVolumeAttachments = .ok vas ∧
      (∀ pod ∈ pods, pod.NodeName = node.Name → pod.DeletionTimestamp = none) ∧
      (∀ va ∈ vas, va.NodeName ≠ node.Name) := by
  rw [← isResourceDeletionCompleted_iff]
  cases hc : isResourceDeletionCompleted env node with
  | true => rfl
  | false =>
    obtain ⟨h1, h2⟩ := useOutOfServiceTaint_not_completed env node snr hc
    rcases hdone with ⟨hp, he, hw⟩ | ⟨n, hn⟩
    · exact absurd hw (h1 hp he)
    · exact absurd hn (h2 n)

theorem outOfService_removed_only_without_terminating_pods_witness :
    ∃ pods vas, (exEnv 5000 exRebootedOutOfService).listPods = .ok pods ∧
      (exEnv 5000 exRebootedOutOfService).listVolumeAttachments = .ok vas ∧
      (∀ pod ∈ pods, pod.NodeName = exNode.Name → pod.DeletionTimestamp = none) ∧
      (∀ va ∈ vas, va.NodeName ≠ exNode.Name) :=
  outOfService_removed_only_without_terminating_pods (exEnv 5000 exRebootedOutOfService)
    exNode exRebootedOutOfService (Or.inl ⟨rfl, rfl, rfl⟩)

/-- C15, counterexample. With a pod still scheduled on the node, not
terminating, `useOutOfServiceTaint` issues the patch that removes the
out-of-service taint and reports completion. -/
theorem outOfService_removed_with_running_pod :
    (exEnvRunningPod 5000 exRebootedOutOfService).listPods =
        .ok [{ Name := "workload", NodeName := exNode.Name }] ∧
      (useOutOfServiceTaint (exEnvRunningPod 5000 exRebootedOutOfService) exNode
        exRebootedOutOfService).waitTime = 0 ∧
      (useOutOfServiceTaint (exEnvRunningPod 5000 exRebootedOutOfService) exNode
        exRebootedOutOfService).err = none ∧
      (useOutOfServiceTaint (exEnvRunningPod 5000 exRebootedOutOfService) exNode
        exRebootedOutOfService).panicked = false ∧
      Action.patchNode OutOfServiceTaint false exNode ∈
        (useOutOfServiceTaint (exEnvRunningPod 5000 exRebootedOutOfService) exNode
          exRebootedOutOfService).acts :=
  ⟨rfl, rfl, rfl, rfl, by decide⟩

/-- C16. Out-of-service grace period: once the out-of-service taint is on the
node (adding it did not fail) and while resource deletion is not completed,
`useOutOfServiceTaint` returns a wait time of 5 seconds and no error if
`now < timeAssumedRebooted + 300s`, and returns an error if
`now ≥ timeAssumedRebooted + 300s`; in both cases the out-of-service taint is
on the node, no patch removing it is issued, and `handleRebootCompletedPhase`
leaves the request as it is, so the phase does not advance. -/
theorem outOfService_grace_period (env : Env) (node : Node) (snr : SelfNodeRemediation)
    (t : Time) (htime : snr.Status.TimeAssumedRebooted = some t)
    (hadd : (addOutOfServiceTaint env node).err = none)
    (hnot : isResourceDeletionCompleted env node = false) :
    (useOutOfServiceTaint env node snr).panicked = false ∧
      TaintExists (useOutOfServiceTaint env node snr).node.Taints OutOfServiceTaint = true ∧
      (∀ n, Action.patchNode OutOfServiceTaint false n ∉
        (useOutOfServiceTaint env node snr).acts) ∧
      (env.now < t + 300 * Second →
        (useOutOfServiceTaint env node snr).waitTime = 5 * Second ∧
        0 < (useOutOfServiceTaint env node snr).waitTime ∧
        (useOutOfServiceTaint env node snr).err = none) ∧
      (t + 300 * Second ≤ env.now →
        (useOutOfServiceTaint env node snr).err =
          some (.plain "Not ready to delete out-of-service taint")) ∧
      (handleRebootCompletedPhase env node snr (useOutOfServiceTaint env)).snr = snr ∧
      (handleRebootCompletedPhase env node snr (useOutOfServiceTaint env)).panicked = false := by
  have hno := (useOutOfServiceTaint_not_completed env node snr hnot).2
  have hex := addOutOfServiceTaint_exists env node
  have heq := useOutOfServiceTaint_waiting env node snr t hadd hnot htime
  by_cases hlt : t + 300 * Second > env.now
  · rw [if_pos hlt] at heq
    have hp : (useOutOfServiceTaint env node snr).panicked = false := by rw [heq]
    have he : (useOutOfServiceTaint env node snr).err = none := by rw [heq]
    have hw : (useOutOfServiceTaint env node snr).waitTime = 5 * Second := by rw [heq]
    have hw0 : (useOutOfServiceTaint env node snr).waitTime ≠ 0 := by rw [hw]; decide
    refine ⟨hp, ?_, hno, fun _ => ⟨hw, ?_, he⟩, fun h => absurd hlt (not_lt.mpr h), ?_, ?_⟩
    · rw [heq]; exact hex
    · rw [hw]; decide
    · rw [handleRebootCompletedPhase_wait env node snr (useOutOfServiceTaint env) hp he hw0]
    · rw [handleRebootCompletedPhase_wait env node snr (useOutOfServiceTaint env) hp he hw0]
  · rw [if_neg hlt] at heq
    have hp : (useOutOfServiceTaint env node snr).panicked = false := by rw [heq]
    have he : (useOutOfServiceTaint env node snr).err =
        some (.plain "Not ready to delete out-of-service taint") := by rw [heq]
    refine ⟨hp, ?_, hno, fun h => absurd h hlt, fun _ => he, ?_, ?_⟩
    · rw [heq]; exact hex
    · rw [handleRebootCompletedPhase_err env node snr (useOutOfServiceTaint env) _ hp he]
    · rw [handleRebootCompletedPhase_err env node snr (useOutOfServiceTaint env) _ hp he]

theorem outOfService_grace_period_witness :
    (useOutOfServiceTaint (exEnvTerminatingPod (2000 + 180 * Second) exRebootedOutOfService)
        exNode exRebootedOutOfService).waitTime = 5 * Second :=
  ((outOfService_grace_period (exEnvTerminatingPod (2000 + 180 * Second)
      exRebootedOutOfService) exNode exRebootedOutOfService (1000 + 180 * Second) rfl rfl
      (by decide)).2.2.2.1 (by decide)).1

theorem taintExists_deleteTaint (taints : List Taint) (t : Taint) :
    TaintExists (DeleteTaint taints t).1 t = false := by
  unfold TaintExists DeleteTaint
  simp only [List.any_filter]
  rw [Bool.eq_false_iff]
  intro h
  simp only [List.any_eq_true] at h
  obtain ⟨x, _, hx⟩ := h
  simp only [Bool.and_eq_true, Bool.not_eq_true', Bool.and_eq_false_imp, beq_iff_eq,
    beq_eq_false_iff_ne, ne_eq] at hx
  exact hx.1 hx.2.1 hx.2.2

theorem taintExists_deleteTaint_other (taints : List Taint) (t u : Taint)
    (h : TaintExists taints u = false) : TaintExists (DeleteTaint taints t).1 u = false := by
  unfold TaintExists DeleteTaint at *
  simp only [List.any_filter]
  rw [Bool.eq_false_iff] at h ⊢
  intro h'
  apply h
  simp only [List.any_eq_true] at h' ⊢
  obtain ⟨x, hx, hx'⟩ := h'
  refine ⟨x, hx, ?_⟩
  simp only [Bool.and_eq_true] at hx'
  simpa using hx'.2

theorem removeNoExecuteTaint_node (env : Env) (node : Node) :
    (removeNoExecuteTaint env node).node.Unschedulable = node.Unschedulable ∧
      (removeNoExecuteTaint env node).node.Name = node.Name ∧
      TaintExists (removeNoExecuteTaint env node).node.Taints NodeNoExecuteTaint = false ∧
      (TaintExists node.Taints NodeUnschedulableTaint = false →
        TaintExists (removeNoExecuteTaint env node).node.Taints NodeUnschedulableTaint =
          false) ∧
      ((removeNoExecuteTaint env node).err = none →
        TaintExists node.Taints NodeNoExecuteTaint = true →
        env.patchNodeErr NodeNoExecuteTaint false = none) ∧
      issuedUpdateSnr (removeNoExecuteTaint env node).acts = false := by
  have hdel := taintExists_deleteTaint node.Taints NodeNoExecuteTaint
  have hoth := taintExists_deleteTaint_other node.Taints NodeNoExecuteTaint
    NodeUnschedulableTaint
  have hd2 : (DeleteTaint node.Taints NodeNoExecuteTaint).2 =
      TaintExists node.Taints NodeNoExecuteTaint := rfl
  by_cases hex : TaintExists node.Taints NodeNoExecuteTaint = true
  · cases hpatch : env.patchNodeErr NodeNoExecuteTaint false with
    | none =>
      have heq : removeNoExecuteTaint env node =
          { node := { node with Taints := (DeleteTaint node.Taints NodeNoExecuteTaint).1 }
            acts := [.patchNode NodeNoExecuteTaint false
                { node with Taints := (DeleteTaint node.Taints NodeNoExecuteTaint).1 },
              .event eventReasonRemoveNoExecute] } := by
        unfold removeNoExecuteTaint
        simp [hex, hd2, hpatch]
      rw [heq]
      exact ⟨rfl, rfl, hdel, hoth, fun _ _ => rfl, rfl⟩
    | some e =>
      have heq : removeNoExecuteTaint env node =
          { err := some e
            node := { node with Taints := (DeleteTaint node.Taints NodeNoExecuteTaint).1 }
            acts := [.patchNode NodeNoExecuteTaint false
                { node with Taints := (DeleteTaint node.Taints NodeNoExecuteTaint).1 }] } := by
        unfold removeNoExecuteTaint
        simp [hex, hd2, hpatch]
      rw [heq]
      exact ⟨rfl, rfl, hdel, hoth, fun h => absurd h (by simp), rfl⟩
  · have hex' : TaintExists node.Taints NodeNoExecuteTaint = false := by simpa using hex
    have heq : removeNoExecuteTaint env node = { node := node } := by
      unfold removeNoExecuteTaint
      simp [hex']
    rw [heq]
    exact ⟨rfl, rfl, hex', fun h => h, fun _ h => absurd h (by simp [hex']), rfl⟩

theorem recoverNodeTaints_waiting (env : Env) (node : Node) (snr : SelfNodeRemediation)
    (acts : List Action) (h : TaintExists node.Taints NodeUnschedulableTaint = true) :
    recoverNodeTaints env node snr acts =
      { result := { RequeueAfter := Second }, node := node, snr := snr, acts := acts } := by
  unfold recoverNodeTaints
  rw [if_pos h]

theorem issuedUpdateSnr_append (a b : List Action) :
    issuedUpdateSnr (a ++ b) = (issuedUpdateSnr a || issuedUpdateSnr b) := by
  unfold issuedUpdateSnr
  rw [List.any_append]

theorem recoverNodeTaints_finalizer (env : Env) (node : Node) (snr : SelfNodeRemediation)
    (acts : List Action) (hacts : issuedUpdateSnr acts = false)
    (hfin : issuedUpdateSnr (recoverNodeTaints env node snr acts).acts = true ∨
      (recoverNodeTaints env node snr acts).snr.Finalizers ≠ snr.Finalizers) :
    TaintExists node.Taints NodeUnschedulableTaint = false ∧
      (removeNoExecuteTaint env node).err = none ∧
      (recoverNodeTaints env node snr acts).node = (removeNoExecuteTaint env node).node := by
  have hrm := (removeNoExecuteTaint_node env node).2.2.2.2.2
  by_cases hu : TaintExists node.Taints NodeUnschedulableTaint = true
  · rw [recoverNodeTaints_waiting env node snr acts hu] at hfin
    rcases hfin with h | h
    · rw [hacts] at h; exact absurd h (by simp)
    · exact absurd rfl h
  · have hu' : TaintExists node.Taints NodeUnschedulableTaint = false := by simpa using hu
    refine ⟨hu', ?_⟩
    cases herr : (removeNoExecuteTaint env node).err with
    | some e =>
      have heq : recoverNodeTaints env node snr acts =
          { err := some e, node := (removeNoExecuteTaint env node).node, snr := snr
            acts := acts ++ (removeNoExecuteTaint env node).acts } := by
        unfold recoverNodeTaints
        simp [hu', herr]
      rw [heq] at hfin
      rcases hfin with h | h
      · simp only [issuedUpdateSnr_append, hacts, hrm, Bool.or_self] at h
        exact absurd h (by simp)
      · exact absurd rfl h
    | none =>
      refine ⟨rfl, ?_⟩
      unfold recoverNodeTaints
      simp only [hu', Bool.false_eq_true, if_false, herr]
      unfold removeFinalizer
      split
      · split <;> rfl
      · rfl

theorem recoverNode_finalizer (env : Env) (node : Node) (snr : SelfNodeRemediation)
    (hfin : issuedUpdateSnr (recoverNode env node snr).acts = true ∨
      (recoverNode env node snr).snr.Finalizers ≠ snr.Finalizers) :
    (recoverNode env node snr).node.Unschedulable = false ∧
      TaintExists (recoverNode env node snr).node.Taints NodeUnschedulableTaint = false ∧
      TaintExists (recoverNode env node snr).node.Taints NodeNoExecuteTaint = false ∧
      (node.Unschedulable = true → env.updateNodeErr = none) ∧
      TaintExists node.Taints NodeUnschedulableTaint = false ∧
      (TaintExists node.Taints NodeNoExecuteTaint = true →
        env.patchNodeErr NodeNoExecuteTaint false = none) := by
  by_cases hun : node.Unschedulable = true
  · cases hupd : env.updateNodeErr with
    | some e =>
      exfalso
      have heq : (recoverNode env node snr).snr = snr ∧
          issuedUpdateSnr (recoverNode env node snr).acts = false := by
        unfold recoverNode
        simp only [hun, if_true, hupd]
        split <;> exact ⟨rfl, rfl⟩
      rcases hfin with h | h
      · rw [heq.2] at h; exact absurd h (by simp)
      · rw [heq.1] at h; exact absurd rfl h
    | none =>
      have heq : recoverNode env node snr =
          recoverNodeTaints env { node with Unschedulable := false } snr
            [.updateNode { node with Unschedulable := false },
             .event eventReasonMarkSchedulable] := by
        unfold recoverNode
        simp [hun, hupd]
      rw [heq] at hfin ⊢
      obtain ⟨h1, h2, h3⟩ := recoverNodeTaints_finalizer env
        { node with Unschedulable := false } snr
        [.updateNode { node with Unschedulable := false },
         .event eventReasonMarkSchedulable] rfl hfin
      obtain ⟨g1, _, g3, g4, g5, _⟩ := removeNoExecuteTaint_node env
        { node with Unschedulable := false }
      rw [h3]
      exact ⟨g1, g4 h1, g3, fun _ => rfl, h1, g5 h2⟩
  · have hun' : node.Unschedulable = false := by simpa using hun
    have heq : recoverNode env node snr = recoverNodeTaints env node snr [] := by
      unfold recoverNode
      simp [hun']
    rw [heq] at hfin ⊢
    obtain ⟨h1, h2, h3⟩ := recoverNodeTaints_finalizer env node snr [] rfl hfin
    obtain ⟨g1, _, g3, g4, g5, _⟩ := removeNoExecuteTaint_node env node
    rw [h3]
    exact ⟨g1.trans hun', g4 h1, g3, fun h => absurd h hun, h1, g5 h2⟩

theorem recoverNode_waiting (env : Env) (node : Node) (snr : SelfNodeRemediation)
    (htaint : TaintExists node.Taints NodeUnschedulableTaint = true) :
    (recoverNode env node snr).snr = snr ∧
      (recoverNode env node snr).node.Taints = node.Taints ∧
      (∀ a ∈ (recoverNode env node snr).acts,
        a = .updateNode (recoverNode env node snr).node ∨
        a = .event eventReasonMarkSchedulable) ∧
      ((recoverNode env node snr).err = none →
        (recoverNode env node snr).result = { RequeueAfter := Second }) ∧
      (∀ e, (recoverNode env node snr).err = some e →
        node.Unschedulable = true ∧ env.updateNodeErr = some e ∧ IsConflict e = false) := by
  by_cases hun : node.Unschedulable = true
  · cases hupd : env.updateNodeErr with
    | some e =>
      by_cases hc : IsConflict e = true
      · have heq : recoverNode env node snr =
            { result := { RequeueAfter := Second }, node := { node with Unschedulable := false }
              snr := snr, acts := [.updateNode { node with Unschedulable := false }] } := by
          unfold recoverNode
          simp [hun, hupd, hc]
        rw [heq]
        refine ⟨rfl, rfl, ?_, fun _ => rfl, fun e' he' => absurd he' (by simp)⟩
        intro a ha
        simp only [List.mem_singleton] at ha
        exact Or.inl ha
      · have heq : recoverNode env node snr =
            { err := some e, node := { node with Unschedulable := false }
              snr := snr, acts := [.updateNode { node with Unschedulable := false }] } := by
          unfold recoverNode
          simp [hun, hupd, hc]
        rw [heq]
        refine ⟨rfl, rfl, ?_, fun h => absurd h (by simp), ?_⟩
        · intro a ha
          simp only [List.mem_singleton] at ha
          exact Or.inl ha
        · intro e' he'
          cases he'
          exact ⟨hun, rfl, by simpa using hc⟩
    | none =>
      have heq : recoverNode env node snr =
          { result := { RequeueAfter := Second }, node := { node with Unschedulable := false }
            snr := snr
            acts := [.updateNode { node with Unschedulable := false },
              .event eventReasonMarkSchedulable] } := by
        unfold recoverNode
        simp only [hun, if_true, hupd]
        exact recoverNodeTaints_waiting env _ snr _ htaint
      rw [heq]
      refine ⟨rfl, rfl, ?_, fun _ => rfl, fun e' he' => absurd he' (by simp)⟩
      intro a ha
      simp only [List.mem_cons, List.mem_singleton, List.not_mem_nil, or_false] at ha
      exact ha
  · have hun' : node.Unschedulable = false := by simpa using hun
    have heq : recoverNode env node snr =
        { result := { RequeueAfter := Second }, node := node, snr := snr, acts := [] } := by
      unfold recoverNode
      simp only [hun', Bool.false_eq_true, if_false]
      exact recoverNodeTaints_waiting env _ snr _ htaint
    rw [heq]
    exact ⟨rfl, rfl, fun a ha => absurd ha (by simp), fun _ => rfl,
      fun e' he' => absurd he' (by simp)⟩

theorem remediateWithResourceRemoval_fencingCompleted (r : Reconciler) (env : Env)
    (snr : SelfNodeRemediation) (node : Node) (rm : removeNodeResources)
    (hphase : getPhase snr = fencingCompletedPhase) :
    remediateWithResourceRemoval r env snr node rm =
      handleFencingCompletedPhase env node snr := by
  have h1 : fencingCompletedPhase ≠ fencingStartedPhase := by decide
  have h2 : fencingCompletedPhase ≠ preRebootCompletedPhase := by decide
  have h3 : fencingCompletedPhase ≠ rebootCompletedPhase := by decide
  unfold remediateWithResourceRemoval
  simp only [hphase, h1, h2, h3, if_false, if_true]

/-- C14. Node restoration order: for a request in phase Fencing-Completed,
nothing is done unless the request has a deletion timestamp. When the handler
removes the finalizer (issues the update of the request, or changes its
finalizers in memory), the request has a deletion timestamp, the node is
schedulable (an update making it so succeeded), the unschedulable taint is
absent, and the NoExecute taint is gone (a patch removing it succeeded). While
the unschedulable taint is present the request and the taints of the node are
left as they are, the only calls are the update making the node schedulable and
its event, and the handler requeues after 1 second unless that update failed
with an error other than a conflict, which it then returns. -/
theorem node_restoration_order (r : Reconciler) (env : Env) (snr : SelfNodeRemediation)
    (node : Node) (rm : removeNodeResources) (ret : Ret)
    (hphase : getPhase snr = fencingCompletedPhase)
    (hret : remediateWithResourceRemoval r env snr node rm = ret) :
    (snr.DeletionTimestamp = none →
        ret.acts = [] ∧ ret.snr = snr ∧ ret.node = node ∧ ret.err = none ∧ ret.result = {}) ∧
      (issuedUpdateSnr ret.acts = true ∨ ret.snr.Finalizers ≠ snr.Finalizers →
        snr.DeletionTimestamp ≠ none ∧
        ret.node.Unschedulable = false ∧
        TaintExists ret.node.Taints NodeUnschedulableTaint = false ∧
        TaintExists ret.node.Taints NodeNoExecuteTaint = false ∧
        (node.Unschedulable = true → env.updateNodeErr = none) ∧
        TaintExists node.Taints NodeUnschedulableTaint = false ∧
        (TaintExists node.Taints NodeNoExecuteTaint = true →
          env.patchNodeErr NodeNoExecuteTaint false = none)) ∧
      (snr.DeletionTimestamp ≠ none →
        TaintExists node.Taints NodeUnschedulableTaint = true →
        ret.snr = snr ∧ ret.node.Taints = node.Taints ∧
        (∀ a ∈ ret.acts, a = .updateNode ret.node ∨ a = .event eventReasonMarkSchedulable) ∧
        (ret.err = none → ret.result = { RequeueAfter := Second }) ∧
        (∀ e, ret.err = some e →
          node.Unschedulable = true ∧ env.updateNodeErr = some e ∧ IsConflict e = false)) := by
  subst hret
  rw [remediateWithResourceRemoval_fencingCompleted r env snr node rm hphase]
  cases hdel : snr.DeletionTimestamp with
  | none =>
    have heq : handleFencingCompletedPhase env node snr = { node := node, snr := snr } := by
      unfold handleFencingCompletedPhase
      simp [hdel]
    rw [heq]
    refine ⟨fun _ => ⟨rfl, rfl, rfl, rfl, rfl⟩, fun h => ?_, fun h => absurd rfl h⟩
    rcases h with h | h
    · exact absurd h (by simp [issuedUpdateSnr])
    · exact absurd rfl h
  | some ts =>
    have heq : handleFencingCompletedPhase env node snr = recoverNode env node snr := by
      unfold handleFencingCompletedPhase
      simp [hdel]
    rw [heq]
    refine ⟨fun h => absurd h (by simp), fun h => ?_, fun _ htaint => ?_⟩
    · obtain ⟨h1, h2, h3, h4, h5, h6⟩ := recoverNode_finalizer env node snr h
      exact ⟨by simp, h1, h2, h3, h4, h5, h6⟩
    · exact recoverNode_waiting env node snr htaint

theorem node_restoration_order_witness :
    issuedUpdateSnr (remediateWithResourceRemoval exManager (exEnv 6000 exCompletedDeleting)
        exCompletedDeleting exNodeSchedulable
        (deleteResourcesWrapper (exEnv 6000 exCompletedDeleting))).acts = true ∧
      TaintExists (remediateWithResourceRemoval exManager (exEnv 6000 exCompletedDeleting)
        exCompletedDeleting exNodeSchedulable
        (deleteResourcesWrapper (exEnv 6000 exCompletedDeleting))).node.Taints
        NodeNoExecuteTaint = false :=
  ⟨by decide,
   ((node_restoration_order exManager (exEnv 6000 exCompletedDeleting) exCompletedDeleting
      exNodeSchedulable (deleteResourcesWrapper (exEnv 6000 exCompletedDeleting)) _
      (by decide) rfl).2.1 (Or.inl (by decide))).2.2.2.1⟩

/-! ### Strategies -/

theorem remediateWithStrategy_unsupported (r : Reconciler) (env : Env)
    (snr : SelfNodeRemediation) (node : Node)
    (h1 : getRuntimeStrategy r snr ≠ ResourceDeletionRemediationStrategy)
    (h2 : getRuntimeStrategy r snr ≠ OutOfServiceTaintRemediationStrategy) :
    remediateWithStrategy r env snr node = { node := node, snr := snr } := by
  unfold remediateWithStrategy
  simp [h1, h2]

/-- C19, the code at a failing input. A request with the strategy `Unsupported`,
which resolves to neither ResourceDeletion nor OutOfServiceTaint, and a last
error recorded earlier: `Reconcile` executes no fencing step (its only call is
the status patch that clears the last error, besides the deferred status
update) and returns no error, but the last error it leaves is the empty
string, not the unsupported-strategy message. -/
theorem unsupported_strategy_clears_lastError :
    getRuntimeStrategy exManager exUnsupported ≠ ResourceDeletionRemediationStrategy ∧
      getRuntimeStrategy exManager exUnsupported ≠ OutOfServiceTaintRemediationStrategy ∧
      exUnsupported.Status.LastError = "failed to get node" ∧
      (Reconcile exManager exRequest (exEnv 1000 exUnsupported)).err = none ∧
      (Reconcile exManager exRequest (exEnv 1000 exUnsupported)).result = {} ∧
      (∃ s, (Reconcile exManager exRequest (exEnv 1000 exUnsupported)).snr = some s ∧
        s.Status.LastError = "" ∧
        (Reconcile exManager exRequest (exEnv 1000 exUnsupported)).acts =
          [.patchSnrStatus "", .updateSnrStatus s.Status]) :=
  ⟨by decide, by decide, rfl, rfl, rfl, _, rfl, rfl, rfl⟩

theorem deletePods_spec (cluster : Cluster) (nodeName : String) :
    (∀ pod ∈ (DeletePods cluster nodeName).pods, pod.NodeName ≠ nodeName) ∧
      (∀ va ∈ (DeletePods cluster nodeName).volumeAttachments, va.NodeName ≠ nodeName) ∧
      (∀ pod, pod.NodeName ≠ nodeName →
        (pod ∈ (DeletePods cluster nodeName).pods ↔ pod ∈ cluster.pods)) ∧
      (∀ va, va.NodeName ≠ nodeName →
        (va ∈ (DeletePods cluster nodeName).volumeAttachments ↔
          va ∈ cluster.volumeAttachments)) := by
  unfold DeletePods
  refine ⟨?_, ?_, ?_, ?_⟩
  · intro pod h
    simp only [List.mem_filter, bne_iff_ne, ne_eq] at h
    exact h.2
  · intro va h
    simp only [List.mem_filter, bne_iff_ne, ne_eq] at h
    exact h.2
  · intro pod h
    simp only [List.mem_filter, bne_iff_ne, ne_eq, h, not_false_eq_true, and_true]
  · intro va h
    simp only [List.mem_filter, bne_iff_ne, ne_eq, h, not_false_eq_true, and_true]

/-- C17. Resource deletion: under the strategy ResourceDeletion, when the step
of a request in phase Reboot-Completed makes the phase Fencing-Completed, the
step returns no error, has issued the pod deletion for the node, and that call
succeeded; in the cluster after it no pod is scheduled on the
node and no volume attachment references it, and the pods and volume
attachments of other nodes are exactly those of before. -/
theorem resourceDeletion_removes_node_resources (r : Reconciler) (env : Env)
    (snr : SelfNodeRemediation) (node : Node) (cluster : Cluster)
    (hstrategy : getRuntimeStrategy r snr = ResourceDeletionRemediationStrategy)
    (hphase : getPhase snr = rebootCompletedPhase)
    (hdone : (remediateWithStrategy r env snr node).snr.Status.Phase =
      some fencingCompletedPhase) :
    (remediateWithStrategy r env snr node).err = none ∧
      Action.deletePods node.Name ∈ (remediateWithStrategy r env snr node).acts ∧
      env.deletePodsErr = none ∧
      (∀ pod ∈ (clusterAfter env cluster (remediateWithStrategy r env snr node).acts).pods,
        pod.NodeName ≠ node.Name) ∧
      (∀ va ∈ (clusterAfter env cluster
          (remediateWithStrategy r env snr node).acts).volumeAttachments,
        va.NodeName ≠ node.Name) ∧
      (∀ pod, pod.NodeName ≠ node.Name →
        (pod ∈ (clusterAfter env cluster (remediateWithStrategy r env snr node).acts).pods ↔
          pod ∈ cluster.pods)) ∧
      (∀ va, va.NodeName ≠ node.Name →
        (va ∈ (clusterAfter env cluster
            (remediateWithStrategy r env snr node).acts).volumeAttachments ↔
          va ∈ cluster.volumeAttachments)) := by
  have hne1 : rebootCompletedPhase ≠ fencingStartedPhase := by decide
  have hne2 : rebootCompletedPhase ≠ preRebootCompletedPhase := by decide
  have hret : remediateWithStrategy r env snr node =
      handleRebootCompletedPhase env node snr (deleteResourcesWrapper env) := by
    unfold remediateWithStrategy remediateWithResourceDeletion remediateWithResourceRemoval
    simp only [hstrategy, if_true, hphase, hne1, hne2, if_false]
  have hpanic : (deleteResourcesWrapper env node snr).panicked = false := rfl
  have hexit := (rebootCompleted_exit_aux env node snr (deleteResourcesWrapper env)
    hphase hpanic)
  rw [hret] at hdone ⊢
  have hok : (deleteResourcesWrapper env node snr).err = none ∧
      (deleteResourcesWrapper env node snr).waitTime = 0 := hexit hdone
  have hdel : env.deletePodsErr = none := hok.1
  rw [handleRebootCompletedPhase_done env node snr (deleteResourcesWrapper env) hpanic
    hok.1 hok.2]
  have hafter : clusterAfter env cluster
      ((deleteResourcesWrapper env node snr).acts ++ [.event eventReasonDeleteResources]) =
      DeletePods cluster node.Name := by
    unfold clusterAfter deleteResourcesWrapper
    simp [hdel]
  have hspec := deletePods_spec cluster node.Name
  refine ⟨?_, ?_, hdel, ?_⟩
  · exact updateConditions_err env.now remediationFinishedSuccessfully _ _ _
      finishedSuccessfully_recognised
  · show Action.deletePods node.Name ∈
      (deleteResourcesWrapper env node snr).acts ++ [.event eventReasonDeleteResources]
    unfold deleteResourcesWrapper
    simp
  · show (∀ pod ∈ (clusterAfter env cluster ((deleteResourcesWrapper env node snr).acts ++
        [.event eventReasonDeleteResources])).pods, pod.NodeName ≠ node.Name) ∧ _
    rw [hafter]
    exact hspec

theorem resourceDeletion_removes_node_resources_witness :
    (clusterAfter (exEnv (2000 + 180 * Second) exRebooted) exCluster
        (remediateWithStrategy exManager (exEnv (2000 + 180 * Second) exRebooted) exRebooted
          exNode).acts) =
      { pods := [{ Name := "b", NodeName := "node-2" }]
        volumeAttachments := [{ Name := "va-b", NodeName := "node-2" }] } ∧
    ∀ pod ∈ (clusterAfter (exEnv (2000 + 180 * Second) exRebooted) exCluster
        (remediateWithStrategy exManager (exEnv (2000 + 180 * Second) exRebooted) exRebooted
          exNode).acts).pods, pod.NodeName ≠ exNode.Name :=
  ⟨by decide,
   (resourceDeletion_removes_node_resources exManager (exEnv (2000 + 180 * Second) exRebooted)
    exRebooted exNode exCluster (by decide) (by decide) rfl).2.2.2.1⟩

/-! ### The conditions grid -/

theorem updateConditions_unrecognised (now : Time) (reason : processingChangeReason)
    (snr : SelfNodeRemediation) (h1 : reason ≠ remediationStarted)
    (h2 : reason ≠ remediationFinishedSuccessfully) (h3 : reason ≠ remediationTimeoutByNHC)
    (h4 : reason ≠ remediationSkippedNodeNotFound) :
    updateConditions now reason snr =
      (some (.plain ("unkown processingChangeReason:" ++ reason)), snr) := by
  unfold updateConditions
  simp [h1, h2, h3, h4]

theorem conditionsGrid_of_recognised (conditions : List Condition) (reason : String)
    (p s : ConditionStatus) (hr : RecognisedReason reason p s)
    (hp : IsStatusConditionPresentAndEqual conditions ProcessingConditionType p = true)
    (hs : IsStatusConditionPresentAndEqual conditions SucceededConditionType s = true) :
    ConditionsGrid conditions := by
  rcases hr with ⟨_, h1, h2⟩ | ⟨_, h1, h2⟩ | ⟨_, h1, h2⟩ | ⟨_, h1, h2⟩ <;> subst h1 h2
  · exact Or.inl ⟨hp, hs⟩
  · exact Or.inr (Or.inl ⟨hp, hs⟩)
  · exact Or.inr (Or.inr ⟨hp, hs⟩)
  · exact Or.inr (Or.inr ⟨hp, hs⟩)

theorem updateConditions_grid_of_recognised (now : Time) (reason : processingChangeReason)
    (snr : SelfNodeRemediation) (p s : ConditionStatus) (hr : RecognisedReason reason p s) :
    ConditionsGrid (updateConditions now reason snr).2.Status.Conditions := by
  obtain ⟨h1, h2⟩ := updateConditions_statuses now reason snr p s hr
  exact conditionsGrid_of_recognised _ reason p s hr h1 h2

theorem updateConditions_grid (now : Time) (reason : processingChangeReason)
    (snr : SelfNodeRemediation) (herr : (updateConditions now reason snr).1 = none) :
    ConditionsGrid (updateConditions now reason snr).2.Status.Conditions := by
  by_cases h1 : reason = remediationStarted
  · exact updateConditions_grid_of_recognised now reason snr _ _ (Or.inl ⟨h1, rfl, rfl⟩)
  · by_cases h2 : reason = remediationFinishedSuccessfully
    · exact updateConditions_grid_of_recognised now reason snr _ _
        (Or.inr (Or.inl ⟨h2, rfl, rfl⟩))
    · by_cases h3 : reason = remediationTimeoutByNHC
      · exact updateConditions_grid_of_recognised now reason snr _ _
          (Or.inr (Or.inr (Or.inl ⟨h3, rfl, rfl⟩)))
      · by_cases h4 : reason = remediationSkippedNodeNotFound
        · exact updateConditions_grid_of_recognised now reason snr _ _
            (Or.inr (Or.inr (Or.inr ⟨h4, rfl, rfl⟩)))
        · rw [updateConditions_unrecognised now reason snr h1 h2 h3 h4] at herr
          exact absurd herr (by simp)

theorem status_single_valued (conditions : List Condition) (ty : String)
    (a b : ConditionStatus)
    (ha : IsStatusConditionPresentAndEqual conditions ty a = true)
    (hb : IsStatusConditionPresentAndEqual conditions ty b = true) : a = b := by
  unfold IsStatusConditionPresentAndEqual at ha hb
  cases h : FindStatusCondition conditions ty with
  | none => rw [h] at ha; exact absurd ha (by simp)
  | some c =>
    rw [h] at ha hb
    simp only [beq_iff_eq] at ha hb
    exact ha.symm.trans hb

theorem conditionsGrid_excludes (conditions : List Condition) (h : ConditionsGrid conditions) :
    ¬(IsStatusConditionPresentAndEqual conditions ProcessingConditionType .ConditionTrue = true ∧
        IsStatusConditionPresentAndEqual conditions SucceededConditionType .ConditionTrue =
          true) ∧
      ¬(IsStatusConditionPresentAndEqual conditions ProcessingConditionType .ConditionTrue =
          true ∧
        IsStatusConditionPresentAndEqual conditions SucceededConditionType .ConditionFalse =
          true) := by
  constructor
  · rintro ⟨hp, hs⟩
    rcases h with ⟨_, h2⟩ | ⟨h1, _⟩ | ⟨h1, _⟩
    · exact absurd (status_single_valued _ _ _ _ hs h2) (by decide)
    · exact absurd (status_single_valued _ _ _ _ hp h1) (by decide)
    · exact absurd (status_single_valued _ _ _ _ hp h1) (by decide)
  · rintro ⟨hp, hs⟩
    rcases h with ⟨_, h2⟩ | ⟨h1, _⟩ | ⟨h1, _⟩
    · exact absurd (status_single_valued _ _ _ _ hs h2) (by decide)
    · exact absurd (status_single_valued _ _ _ _ hp h1) (by decide)
    · exact absurd (status_single_valued _ _ _ _ hp h1) (by decide)

theorem conditionsStep_trans {a b c : List Condition} (h1 : ConditionsStep a b)
    (h2 : ConditionsStep b c) : ConditionsStep a c := by
  rcases h2 with h2 | h2
  · rw [h2]; exact h1
  · exact Or.inr h2

theorem updateSnrStatusLastError_conditions (env : Env) (snr : SelfNodeRemediation)
    (err : Option GoError) :
    (updateSnrStatusLastError env snr err).2.1.Status.Conditions = snr.Status.Conditions := by
  obtain ⟨v, h⟩ := updateSnrStatusLastError_frame env snr err
  rw [h]

theorem prepareReboot_conditions (env : Env) (node : Node) (snr : SelfNodeRemediation) :
    (prepareReboot env node snr).snr.Status.Conditions = snr.Status.Conditions := by
  unfold prepareReboot
  split
  · rfl
  · split
    · rw [addFinalizer_status]
    · simp only []
      split
      · rfl
      · split
        · simp only [markNodeAsUnschedulable_snr]
        · by_cases hz : IsZero snr.Status.TimeAssumedRebooted = true
          · simp only [hz, if_true]
            unfold updateTimeAssumedRebooted
            cases env.timeToAssumeNodeRebooted <;> rfl
          · simp only [hz]
            rfl

theorem rebootNode_conditions (r : Reconciler) (env : Env) (node : Node)
    (snr : SelfNodeRemediation) :
    (rebootNode r env node snr).snr.Status.Conditions = snr.Status.Conditions := by
  unfold rebootNode
  split
  · rw [rebootIfNeeded_snr]
  · unfold wasNodeRebooted
    cases snr.Status.TimeAssumedRebooted with
    | none => rfl
    | some t =>
      by_cases hlt : t > env.now
      · simp only [hlt, if_true]; rfl
      · simp only [hlt, if_false]; rfl

theorem handleRebootCompletedPhase_conditions (env : Env) (node : Node)
    (snr : SelfNodeRemediation) (rm : removeNodeResources) :
    ConditionsStep snr.Status.Conditions
      (handleRebootCompletedPhase env node snr rm).snr.Status.Conditions := by
  unfold handleRebootCompletedPhase
  simp only []
  split
  · exact Or.inl rfl
  · split
    · exact Or.inl rfl
    · split
      · exact Or.inl rfl
      · exact Or.inr (updateConditions_grid_of_recognised env.now _ _ _ _
          finishedSuccessfully_recognised)

theorem remediateWithResourceRemoval_conditions (r : Reconciler) (env : Env)
    (snr : SelfNodeRemediation) (node : Node) (rm : removeNodeResources) :
    ConditionsStep snr.Status.Conditions
      (remediateWithResourceRemoval r env snr node rm).snr.Status.Conditions := by
  unfold remediateWithResourceRemoval
  simp only []
  split
  · exact Or.inl (prepareReboot_conditions env node snr)
  · split
    · exact Or.inl (rebootNode_conditions r env node snr)
    · split
      · exact handleRebootCompletedPhase_conditions env node snr rm
      · split
        · rw [handleFencingCompletedPhase_status]; exact Or.inl rfl
        · exact Or.inl rfl

theorem remediateWithStrategy_conditions (r : Reconciler) (env : Env)
    (snr : SelfNodeRemediation) (node : Node) :
    ConditionsStep snr.Status.Conditions
      (remediateWithStrategy r env snr node).snr.Status.Conditions := by
  unfold remediateWithStrategy
  simp only []
  split
  · exact remediateWithResourceRemoval_conditions _ _ _ _ _
  · split
    · exact remediateWithResourceRemoval_conditions _ _ _ _ _
    · exact Or.inl rfl

theorem reconcileRemediation_conditions (r : Reconciler) (env : Env)
    (snr s : SelfNodeRemediation) (node : Node)
    (hs : (reconcileRemediation r env snr node).snr = some s) :
    ConditionsStep snr.Status.Conditions s.Status.Conditions := by
  unfold reconcileRemediation at hs
  simp only [] at hs
  split at hs
  · simp only [Option.some.injEq] at hs
    subst hs
    exact remediateWithStrategy_conditions _ _ _ _
  · simp only [Option.some.injEq] at hs
    subst hs
    rw [updateSnrStatusLastError_conditions]
    exact remediateWithStrategy_conditions _ _ _ _

theorem skippedNodeNotFound_recognised :
    RecognisedReason remediationSkippedNodeNotFound .ConditionFalse .ConditionFalse :=
  Or.inr (Or.inr (Or.inr ⟨rfl, rfl, rfl⟩))

theorem reconcileNode_conditions (r : Reconciler) (env : Env) (snr s : SelfNodeRemediation)
    (hs : (reconcileNode r env snr).snr = some s) :
    ConditionsStep snr.Status.Conditions s.Status.Conditions := by
  have hgrid := updateConditions_grid_of_recognised env.now remediationSkippedNodeNotFound
    snr _ _ skippedNodeNotFound_recognised
  unfold reconcileNode at hs
  split at hs
  · split at hs
    · split at hs
      · rename_i updateErr snr₁ heq
        simp only [Option.some.injEq] at hs
        subst hs
        rw [heq] at hgrid
        exact Or.inr hgrid
      · rename_i snr₁ heq
        split at hs
        rename_i lastErr snr₂ lastActs heq₂
        simp only [Option.some.injEq] at hs
        subst hs
        rw [heq] at hgrid
        have h3 := updateSnrStatusLastError_conditions env snr₁ (some ‹GoError›)
        rw [heq₂] at h3
        exact Or.inr (by rw [h3]; exact hgrid)
    · split at hs
      rename_i lastErr snr₁ lastActs heq
      simp only [Option.some.injEq] at hs
      subst hs
      have h3 := updateSnrStatusLastError_conditions env snr (some ‹GoError›)
      rw [heq] at h3
      exact Or.inl h3
  · split at hs
    · simp only [Option.some.injEq] at hs
      subst hs
      exact Or.inl rfl
    · exact reconcileRemediation_conditions r env snr s _ hs

theorem reconcileBody_conditions (r : Reconciler) (env : Env) (snr s : SelfNodeRemediation)
    (hs : (reconcileBody r env snr).snr = some s) :
    ConditionsStep snr.Status.Conditions s.Status.Conditions ∧
      (isStoppedByNHC snr = true ∨ getPhase snr ≠ fencingCompletedPhase →
        ConditionsGrid s.Status.Conditions) := by
  unfold reconcileBody reconcileStarted at hs
  split at hs
  · split at hs
    rename_i condErr snr₁ heq
    simp only [Option.some.injEq] at hs
    subst hs
    have hgrid := updateConditions_grid_of_recognised env.now remediationTimeoutByNHC snr _ _
      timeoutByNHC_recognised
    rw [heq] at hgrid
    exact ⟨Or.inr hgrid, fun _ => hgrid⟩
  · rename_i hstop
    split at hs
    · have hgrid := updateConditions_grid_of_recognised env.now remediationStarted snr _ _
        started_recognised
      split at hs
      · rename_i err snr₁ heq
        simp only [Option.some.injEq] at hs
        subst hs
        rw [heq] at hgrid
        exact ⟨Or.inr hgrid, fun _ => hgrid⟩
      · rename_i snr₁ heq
        rw [heq] at hgrid
        have hstep := reconcileNode_conditions r env snr₁ s hs
        have hg : ConditionsGrid s.Status.Conditions := by
          rcases hstep with h | h
          · rw [h]; exact hgrid
          · exact h
        exact ⟨Or.inr hg, fun _ => hg⟩
    · rename_i hphase
      refine ⟨reconcileNode_conditions r env snr s hs, fun h => ?_⟩
      rcases h with h | h
      · exact absurd h hstop
      · exact absurd (by simpa using h) hphase

theorem Reconcile_conditions (r : Reconciler) (req : Request) (env : Env)
    (snr s : SelfNodeRemediation) (hget : env.getSnr = .ok snr)
    (hs : (Reconcile r req env).snr = some s) :
    ConditionsStep snr.Status.Conditions s.Status.Conditions ∧
      (isStoppedByNHC snr = true ∨ getPhase snr ≠ fencingCompletedPhase →
        ConditionsGrid s.Status.Conditions) := by
  unfold Reconcile at hs
  split at hs
  · exact absurd hs (by simp)
  · rw [hget] at hs
    simp only [deferredStatusUpdate_snr] at hs
    exact reconcileBody_conditions r env snr s hs

theorem storedStatus_conditions (r : Reconciler) (req : Request) (env : Env)
    (snr : SelfNodeRemediation) (hget : env.getSnr = .ok snr) :
    ConditionsStep snr.Status.Conditions
      (storedStatus env snr (Reconcile r req env)).Conditions := by
  unfold storedStatus
  split
  · exact Or.inl rfl
  · rename_i s hs
    split
    · exact (Reconcile_conditions r req env snr s hget hs).1
    · split <;> exact Or.inl rfl

theorem reachableFrom_conditions {start snr : SelfNodeRemediation}
    (h : ReachableFrom start snr) :
    ConditionsStep start.Status.Conditions snr.Status.Conditions := by
  induction h with
  | start => exact Or.inl rfl
  | reconcile snr next r req env _ hget hstatus _ ih =>
    have hstep := storedStatus_conditions r req env snr hget
    rw [← hstatus] at hstep
    exact conditionsStep_trans ih hstep

/-- C12. Conditions grid: a successful `updateConditions` call leaves the pair
(Processing, Succeeded) at (True, Unknown), (False, True) or (False, False),
and so never at (True, True) or (True, False); an unrecognised reason makes
`updateConditions` return an error and the request unchanged. Hence in every
state that `Reconcile` invocations reach from a request `start`, the conditions
are those of `start`, not yet written, or are in the grid; and every
invocation that stops on the detector timeout or runs in a phase other than
Fencing-Completed leaves conditions of the grid. -/
theorem conditions_grid :
    (∀ now reason snr, (updateConditions now reason snr).1 = none →
      ConditionsGrid (updateConditions now reason snr).2.Status.Conditions ∧
      ¬(IsStatusConditionPresentAndEqual (updateConditions now reason snr).2.Status.Conditions
          ProcessingConditionType .ConditionTrue = true ∧
        IsStatusConditionPresentAndEqual (updateConditions now reason snr).2.Status.Conditions
          SucceededConditionType .ConditionTrue = true) ∧
      ¬(IsStatusConditionPresentAndEqual (updateConditions now reason snr).2.Status.Conditions
          ProcessingConditionType .ConditionTrue = true ∧
        IsStatusConditionPresentAndEqual (updateConditions now reason snr).2.Status.Conditions
          SucceededConditionType .ConditionFalse = true)) ∧
    (∀ now reason snr, reason ≠ remediationStarted →
      reason ≠ remediationFinishedSuccessfully → reason ≠ remediationTimeoutByNHC →
      reason ≠ remediationSkippedNodeNotFound →
      (updateConditions now reason snr).1 ≠ none ∧ (updateConditions now reason snr).2 = snr) ∧
    (∀ start snr, ReachableFrom start snr →
      snr.Status.Conditions = start.Status.Conditions ∨
      ConditionsGrid snr.Status.Conditions) ∧
    (∀ r req env snr s, env.getSnr = .ok snr → (Reconcile r req env).snr = some s →
      (isStoppedByNHC snr = true ∨ getPhase snr ≠ fencingCompletedPhase) →
      ConditionsGrid s.Status.Conditions) := by
  refine ⟨?_, ?_, ?_, ?_⟩
  · intro now reason snr herr
    have hg := updateConditions_grid now reason snr herr
    exact ⟨hg, conditionsGrid_excludes _ hg⟩
  · intro now reason snr h1 h2 h3 h4
    rw [updateConditions_unrecognised now reason snr h1 h2 h3 h4]
    exact ⟨by simp, rfl⟩
  · intro start snr h
    exact reachableFrom_conditions h
  · intro r req env snr s hget hs h
    exact (Reconcile_conditions r req env snr s hget hs).2 h

theorem conditions_grid_witness :
    (updateConditions 1000 remediationStarted exFresh).1 = none ∧
      ConditionsGrid (updateConditions 1000 remediationStarted exFresh).2.Status.Conditions ∧
      ReachableFrom exFresh exPreReboot ∧
      ConditionsGrid exPreReboot.Status.Conditions :=
  ⟨rfl,
   (conditions_grid.1 1000 remediationStarted exFresh rfl).1,
   ReachableFrom.reconcile exFresh exPreReboot exManager exRequest (exEnv 1000 exFresh)
     ReachableFrom.start rfl rfl rfl,
   (conditions_grid.2.2.1 exFresh exPreReboot
     (ReachableFrom.reconcile exFresh exPreReboot exManager exRequest (exEnv 1000 exFresh)
       ReachableFrom.start rfl rfl rfl)).resolve_left (by decide)⟩

/-! ### The finalizer -/

theorem finalizerStep_idle {snr s : SelfNodeRemediation} {acts : List Action}
    (hacts : issuedUpdateSnr acts = false) (hphase : s.Status.Phase = snr.Status.Phase) :
    FinalizerStep snr s acts := by
  constructor
  · intro h; rw [hacts] at h; exact absurd h (by simp)
  · intro h1 h2; rw [hphase] at h2; exact absurd h1 h2

theorem finalizerStep_recorded {snr s : SelfNodeRemediation} {acts : List Action}
    (hacts : issuedUpdateSnr acts = false) (hphase : snr.Status.Phase ≠ none) :
    FinalizerStep snr s acts := by
  constructor
  · intro h; rw [hacts] at h; exact absurd h (by simp)
  · intro h1 _; exact absurd h1 hphase

theorem finalizerStep_congr {snr snr' s s' : SelfNodeRemediation} {acts acts' : List Action}
    (h : FinalizerStep snr s acts) (hphase : snr'.Status.Phase = snr.Status.Phase)
    (hfin : snr'.Finalizers = snr.Finalizers) (hs : s'.Status.Phase = s.Status.Phase)
    (hacts : issuedUpdateSnr acts' = issuedUpdateSnr acts) :
    FinalizerStep snr' s' acts' := by
  unfold FinalizerStep ContainsFinalizer at *
  rw [hphase, hfin, hs, hacts]
  exact h

theorem addNoExecuteTaint_noUpdateSnr (env : Env) (node : Node) :
    issuedUpdateSnr (addNoExecuteTaint env node).acts = false := by
  unfold addNoExecuteTaint
  repeat' split
  all_goals rfl

theorem removeNoExecuteTaint_noUpdateSnr (env : Env) (node : Node) :
    issuedUpdateSnr (removeNoExecuteTaint env node).acts = false := by
  unfold removeNoExecuteTaint
  repeat' split
  all_goals rfl

theorem addOutOfServiceTaint_noUpdateSnr (env : Env) (node : Node) :
    issuedUpdateSnr (addOutOfServiceTaint env node).acts = false := by
  unfold addOutOfServiceTaint
  repeat' split
  all_goals rfl

theorem removeOutOfServiceTaint_noUpdateSnr (env : Env) (node : Node) :
    issuedUpdateSnr (removeOutOfServiceTaint env node).acts = false := by
  unfold removeOutOfServiceTaint
  repeat' split
  all_goals rfl

theorem markNodeAsUnschedulable_noUpdateSnr (env : Env) (node : Node)
    (snr : SelfNodeRemediation) :
    issuedUpdateSnr (markNodeAsUnschedulable env node snr).acts = false := by
  unfold markNodeAsUnschedulable
  repeat' split
  all_goals rfl

theorem updateTimeAssumedRebooted_noUpdateSnr (env : Env) (snr : SelfNodeRemediation) :
    issuedUpdateSnr (updateTimeAssumedRebooted env snr).2.2 = false := by
  unfold updateTimeAssumedRebooted
  repeat' split
  all_goals rfl

theorem rebootNode_noUpdateSnr (r : Reconciler) (env : Env) (node : Node)
    (snr : SelfNodeRemediation) :
    issuedUpdateSnr (rebootNode r env node snr).acts = false := by
  unfold rebootNode rebootIfNeeded
  repeat' split
  all_goals rfl

theorem deleteResourcesWrapper_noUpdateSnr (env : Env) (node : Node)
    (snr : SelfNodeRemediation) :
    issuedUpdateSnr (deleteResourcesWrapper env node snr).acts = false := rfl

theorem useOutOfServiceTaint_noUpdateSnr (env : Env) (node : Node)
    (snr : SelfNodeRemediation) :
    issuedUpdateSnr (useOutOfServiceTaint env node snr).acts = false := by
  have h1 := addOutOfServiceTaint_noUpdateSnr env node
  have h2 := removeOutOfServiceTaint_noUpdateSnr env (addOutOfServiceTaint env node).node
  unfold useOutOfServiceTaint
  simp only []
  repeat' split
  all_goals first
    | exact h1
    | (rw [issuedUpdateSnr_append, h1, h2]; rfl)

theorem updateSnrStatusLastError_noUpdateSnr (env : Env) (snr : SelfNodeRemediation)
    (err : Option GoError) :
    issuedUpdateSnr (updateSnrStatusLastError env snr err).2.2 = false := by
  unfold updateSnrStatusLastError
  simp only []
  repeat' split
  all_goals rfl

theorem prepareReboot_noUpdateSnr (env : Env) (node : Node) (snr : SelfNodeRemediation)
    (hfin : ContainsFinalizer snr SNRFinalizer = true) :
    issuedUpdateSnr (prepareReboot env node snr).acts = false := by
  have h2 := addNoExecuteTaint_noUpdateSnr env node
  have h3 := markNodeAsUnschedulable_noUpdateSnr env (addNoExecuteTaint env node).node snr
  have h4 := updateTimeAssumedRebooted_noUpdateSnr env snr
  unfold prepareReboot
  split
  · rfl
  · split
    · rename_i hnot
      rw [hfin] at hnot
      exact absurd hnot (by simp)
    · simp only []
      split
      · exact h2
      · split
        · show issuedUpdateSnr (_ ++ _) = false
          rw [issuedUpdateSnr_append, h2, h3]; rfl
        · by_cases hz : IsZero snr.Status.TimeAssumedRebooted = true
          · simp only [hz, if_true]
            have hacts : ∀ a ∈ (updateTimeAssumedRebooted env snr).2.2,
                ∀ fin, a ≠ Action.updateSnr fin := by
              unfold updateTimeAssumedRebooted
              repeat' split
              all_goals simp
            unfold issuedUpdateSnr at h2 ⊢
            rw [List.any_eq_false] at h2 ⊢
            intro a ha
            have hmem : a ∈ (addNoExecuteTaint env node).acts ++
                (updateTimeAssumedRebooted env snr).2.2 := by
              revert ha
              split <;> exact id
            simp only [List.mem_append] at hmem
            rcases hmem with ha | ha
            · exact h2 a ha
            · have := hacts a ha
              cases a <;> simp at this ⊢
          · simp only [hz]
            show issuedUpdateSnr (_ ++ []) = false
            rw [issuedUpdateSnr_append, h2]; rfl

theorem prepareReboot_finalizerStep (env : Env) (node : Node) (snr : SelfNodeRemediation)
    (hphase : snr.Status.Phase = none) :
    FinalizerStep snr (prepareReboot env node snr).snr (prepareReboot env node snr).acts := by
  by_cases hfin : ContainsFinalizer snr SNRFinalizer = true
  · have hacts := prepareReboot_noUpdateSnr env node snr hfin
    exact ⟨fun h => by rw [hacts] at h; exact absurd h (by simp), fun _ _ => hfin⟩
  · by_cases hcap : isNodeRebootCapable env node = true
    · have heq : prepareReboot env node snr = addFinalizer env node snr := by
        unfold prepareReboot
        simp [hcap, hfin]
      rw [heq]
      constructor
      · intro _
        exact ⟨by rw [addFinalizer_status], Or.inl hphase⟩
      · intro h1 h2
        rw [addFinalizer_status] at h2
        exact absurd h1 h2
    · have heq : prepareReboot env node snr =
          { err := some (.plain "Node is not capable to reboot itself"), node := node,
            snr := snr } := by
        unfold prepareReboot
        simp [hcap]
      rw [heq]
      exact finalizerStep_idle rfl rfl

theorem handleRebootCompletedPhase_noUpdateSnr (env : Env) (node : Node)
    (snr : SelfNodeRemediation) (rm : removeNodeResources)
    (hrm : issuedUpdateSnr (rm node snr).acts = false) :
    issuedUpdateSnr (handleRebootCompletedPhase env node snr rm).acts = false := by
  unfold handleRebootCompletedPhase
  simp only []
  split
  · exact hrm
  · split
    · exact hrm
    · split
      · exact hrm
      · show issuedUpdateSnr (_ ++ _) = false
        rw [issuedUpdateSnr_append, hrm]; rfl

theorem remediateWithResourceRemoval_finalizerStep (r : Reconciler) (env : Env)
    (snr : SelfNodeRemediation) (node : Node) (rm : removeNodeResources)
    (hrm : issuedUpdateSnr (rm node snr).acts = false) :
    FinalizerStep snr (remediateWithResourceRemoval r env snr node rm).snr
      (remediateWithResourceRemoval r env snr node rm).acts := by
  unfold remediateWithResourceRemoval
  simp only []
  split
  · rename_i h
    exact prepareReboot_finalizerStep env node snr ((getPhase_fencingStarted snr).mp h)
  · split
    · rename_i h
      have hp := (getPhase_preRebootCompleted snr).mp h
      exact finalizerStep_recorded (rebootNode_noUpdateSnr r env node snr)
        (by rw [hp]; simp)
    · split
      · rename_i h
        have hp := (getPhase_rebootCompleted snr).mp h
        exact finalizerStep_recorded (handleRebootCompletedPhase_noUpdateSnr env node snr rm hrm)
          (by rw [hp]; simp)
      · split
        · rename_i h
          have hp := (getPhase_fencingCompleted snr).mp h
          constructor
          · intro _
            exact ⟨by rw [handleFencingCompletedPhase_status], Or.inr hp⟩
          · intro h1 _
            rw [hp] at h1
            exact absurd h1 (by simp)
        · exact finalizerStep_idle rfl rfl

theorem remediateWithStrategy_finalizerStep (r : Reconciler) (env : Env)
    (snr : SelfNodeRemediation) (node : Node) :
    FinalizerStep snr (remediateWithStrategy r env snr node).snr
      (remediateWithStrategy r env snr node).acts := by
  unfold remediateWithStrategy
  simp only []
  split
  · exact remediateWithResourceRemoval_finalizerStep r env snr node _
      (deleteResourcesWrapper_noUpdateSnr env node snr)
  · split
    · exact remediateWithResourceRemoval_finalizerStep r env snr node _
        (useOutOfServiceTaint_noUpdateSnr env node snr)
    · exact finalizerStep_idle rfl rfl

theorem startedActs_noUpdateSnr (snr : SelfNodeRemediation) :
    issuedUpdateSnr (if (!ContainsFinalizer snr SNRFinalizer) = true then
      [Action.event "RemediationStarted"] else []) = false := by
  split <;> rfl

theorem reconcileRemediation_finalizerStep (r : Reconciler) (env : Env)
    (snr s : SelfNodeRemediation) (node : Node)
    (hs : (reconcileRemediation r env snr node).snr = some s) :
    FinalizerStep snr s (reconcileRemediation r env snr node).acts := by
  have hstep := remediateWithStrategy_finalizerStep r env snr node
  have hstarted := startedActs_noUpdateSnr snr
  have hlast := updateSnrStatusLastError_noUpdateSnr env
    (remediateWithStrategy r env snr node).snr (remediateWithStrategy r env snr node).err
  have hlastPhase := updateSnrStatusLastError_phase env
    (remediateWithStrategy r env snr node).snr (remediateWithStrategy r env snr node).err
  unfold reconcileRemediation at hs ⊢
  simp only [] at hs ⊢
  split at hs
  · rename_i hp
    simp only [Option.some.injEq] at hs
    subst hs
    rw [if_pos hp]
    refine finalizerStep_congr hstep rfl rfl rfl ?_
    show issuedUpdateSnr (_ ++ _) = _
    rw [issuedUpdateSnr_append, hstarted]; rfl
  · rename_i hp
    simp only [Option.some.injEq] at hs
    subst hs
    rw [if_neg hp]
    refine finalizerStep_congr hstep rfl rfl hlastPhase ?_
    show issuedUpdateSnr (_ ++ _ ++ _) = _
    rw [issuedUpdateSnr_append, issuedUpdateSnr_append, hstarted, hlast]; simp

theorem issuedUpdateSnr_cons_getTargetNodeFailed (acts : List Action) :
    issuedUpdateSnr (Action.getTargetNodeFailed :: acts) = issuedUpdateSnr acts := rfl

theorem reconcileNode_finalizerStep (r : Reconciler) (env : Env) (snr s : SelfNodeRemediation)
    (out : ReconcileOut) (hout : reconcileNode r env snr = out) (hs : out.snr = some s) :
    FinalizerStep snr s out.acts := by
  unfold reconcileNode at hout
  split at hout
  · rename_i err _
    split at hout
    · split at hout
      · rename_i updateErr snr₁ heq
        subst hout
        simp only [Option.some.injEq] at hs
        subst hs
        have h1 := updateConditions_phase env.now remediationSkippedNodeNotFound snr
        rw [heq] at h1
        exact finalizerStep_idle rfl h1
      · rename_i snr₁ heq
        split at hout
        rename_i lastErr snr₂ lastActs heq₂
        subst hout
        simp only [Option.some.injEq] at hs
        subst hs
        have h1 := updateConditions_phase env.now remediationSkippedNodeNotFound snr
        rw [heq] at h1
        have h3 := updateSnrStatusLastError_phase env snr₁ (some err)
        have h5 := updateSnrStatusLastError_noUpdateSnr env snr₁ (some err)
        rw [heq₂] at h3 h5
        exact finalizerStep_idle
          ((issuedUpdateSnr_cons_getTargetNodeFailed lastActs).trans h5) (h3.trans h1)
    · split at hout
      rename_i lastErr snr₁ lastActs heq
      subst hout
      simp only [Option.some.injEq] at hs
      subst hs
      have h3 := updateSnrStatusLastError_phase env snr (some err)
      have h5 := updateSnrStatusLastError_noUpdateSnr env snr (some err)
      rw [heq] at h3 h5
      exact finalizerStep_idle h5 h3
  · split at hout
    · subst hout
      simp only [Option.some.injEq] at hs
      subst hs
      exact finalizerStep_idle rfl rfl
    · subst hout
      exact reconcileRemediation_finalizerStep r env snr s _ hs

theorem updateConditions_finalizers (now : Time) (reason : processingChangeReason)
    (snr : SelfNodeRemediation) :
    (updateConditions now reason snr).2.Finalizers = snr.Finalizers := by
  obtain ⟨cs, h⟩ := updateConditions_frame now reason snr
  rw [h]

theorem reconcileBody_finalizerStep (r : Reconciler) (env : Env) (snr s : SelfNodeRemediation)
    (out : ReconcileOut) (hout : reconcileBody r env snr = out) (hs : out.snr = some s) :
    FinalizerStep snr s out.acts := by
  unfold reconcileBody reconcileStarted at hout
  split at hout
  · split at hout
    rename_i condErr snr₁ heq
    subst hout
    simp only [Option.some.injEq] at hs
    subst hs
    have h1 := updateConditions_phase env.now remediationTimeoutByNHC snr
    rw [heq] at h1
    exact finalizerStep_idle rfl h1
  · split at hout
    · have h1 := updateConditions_phase env.now remediationStarted snr
      have h2 := updateConditions_finalizers env.now remediationStarted snr
      split at hout
      · rename_i err snr₁ heq
        subst hout
        simp only [Option.some.injEq] at hs
        subst hs
        rw [heq] at h1
        exact finalizerStep_idle rfl h1
      · rename_i snr₁ heq
        rw [heq] at h1 h2
        exact finalizerStep_congr (reconcileNode_finalizerStep r env snr₁ s out hout hs)
          h1.symm h2.symm rfl rfl
    · exact reconcileNode_finalizerStep r env snr s out hout hs

theorem Reconcile_finalizerStep (r : Reconciler) (req : Request) (env : Env)
    (snr s : SelfNodeRemediation) (hget : env.getSnr = .ok snr)
    (hs : (Reconcile r req env).snr = some s) :
    FinalizerStep snr s (Reconcile r req env).acts := by
  unfold Reconcile at hs ⊢
  split at hs
  · exact absurd hs (by simp)
  · rename_i hagent
    rw [if_neg hagent]
    rw [hget] at hs ⊢
    simp only [deferredStatusUpdate_snr] at hs
    simp only [deferredStatusUpdate_acts]
    refine finalizerStep_congr (reconcileBody_finalizerStep r env snr s _ rfl hs)
      rfl rfl rfl ?_
    rw [issuedUpdateSnr_append]
    simp [issuedUpdateSnr]

theorem stored_finalizer_step (r : Reconciler) (req : Request) (env : Env)
    (snr next : SelfNodeRemediation) (hget : env.getSnr = .ok snr)
    (hstatus : next.Status = storedStatus env snr (Reconcile r req env))
    (hfinalizers : next.Finalizers = storedFinalizers env snr (Reconcile r req env))
    (hinv : snr.Status.Phase = some preRebootCompletedPhase ∨
      snr.Status.Phase = some rebootCompletedPhase →
      ContainsFinalizer snr SNRFinalizer = true)
    (hphase : next.Status.Phase = some preRebootCompletedPhase ∨
      next.Status.Phase = some rebootCompletedPhase) :
    ContainsFinalizer next SNRFinalizer = true := by
  have hcongr : next.Finalizers = snr.Finalizers →
      ContainsFinalizer next SNRFinalizer = ContainsFinalizer snr SNRFinalizer := by
    intro h; unfold ContainsFinalizer; rw [h]
  unfold storedStatus at hstatus
  unfold storedFinalizers at hfinalizers
  cases hout : (Reconcile r req env).snr with
  | none =>
    rw [hout] at hstatus hfinalizers
    simp only [] at hstatus hfinalizers
    rw [hcongr hfinalizers]
    rw [hstatus] at hphase
    exact hinv hphase
  | some s =>
    rw [hout] at hstatus hfinalizers
    simp only [] at hstatus hfinalizers
    obtain ⟨hupd, hfirst⟩ := Reconcile_finalizerStep r req env snr s hget hout
    have hstep := Reconcile_step r req env snr s hget hout
    have hphases : next.Status.Phase = s.Status.Phase ∨
        next.Status.Phase = snr.Status.Phase := by
      rw [hstatus]
      split
      · exact Or.inl rfl
      · split
        · exact Or.inr rfl
        · exact Or.inr rfl
    by_cases hissued : issuedUpdateSnr (Reconcile r req env).acts = true ∧
        env.updateSnrErr = none
    · obtain ⟨hsame, hwhich⟩ := hupd hissued.1
      have hnext : next.Status.Phase = snr.Status.Phase := by
        rcases hphases with h | h
        · exact h.trans hsame
        · exact h
      rw [hnext] at hphase
      rcases hwhich with h | h <;> rw [h] at hphase <;>
        rcases hphase with h' | h' <;> exact absurd h' (by decide)
    · rw [if_neg hissued] at hfinalizers
      rw [hcongr hfinalizers]
      rcases hphases with h | h
      · rw [h] at hphase
        cases hp : snr.Status.Phase with
        | none =>
          refine hfirst hp ?_
          rcases hphase with h' | h' <;> rw [h'] <;> simp
        | some p =>
          rcases hstep with ⟨h1, _⟩ | ⟨h1, _⟩ | ⟨h1, _⟩ | ⟨h1, _⟩
          · rw [h1] at hphase; exact hinv hphase
          · rw [hp] at h1; exact absurd h1 (by simp)
          · exact hinv (Or.inl h1)
          · exact hinv (Or.inr h1)
      · rw [h] at hphase
        exact hinv hphase

theorem reachable_finalizer {snr : SelfNodeRemediation} {clock : Time}
    (h : Reachable snr clock) :
    snr.Status.Phase = some preRebootCompletedPhase ∨
      snr.Status.Phase = some rebootCompletedPhase →
      ContainsFinalizer snr SNRFinalizer = true := by
  induction h with
  | fresh snr clock hphase _ =>
    intro h
    rw [hphase] at h
    rcases h with h | h <;> exact absurd h (by simp)
  | reconcile snr next clock r req env _ _ hget hstatus hfinalizers ih =>
    exact stored_finalizer_step r req env snr next hget hstatus hfinalizers ih

/-- C11 (amended). Finalizer discipline: in every request state reachable
through `Reconcile` invocations from a fresh request, if the phase is
Pre-Reboot-Completed or Reboot-Completed then the SNR finalizer is present on
the request. (In phase Fencing-Started the finalizer is absent until the first
pass has added it.) -/
theorem finalizer_discipline (snr : SelfNodeRemediation) (clock : Time)
    (h : Reachable snr clock)
    (hphase : getPhase snr = preRebootCompletedPhase ∨ getPhase snr = rebootCompletedPhase) :
    ContainsFinalizer snr SNRFinalizer = true := by
  apply reachable_finalizer h
  rcases hphase with hp | hp
  · exact Or.inl ((getPhase_preRebootCompleted snr).mp hp)
  · exact Or.inr ((getPhase_rebootCompleted snr).mp hp)

theorem finalizer_discipline_witness :
    getPhase exRebooted = rebootCompletedPhase ∧
      ContainsFinalizer exRebooted SNRFinalizer = true :=
  ⟨by decide,
   finalizer_discipline exRebooted (1000 + 180 * Second) exRebooted_reachable
     (Or.inr (by decide))⟩

/-- C11, counterexample to the claim as stated. The request `exAfterGate` is
what the store holds after one `Reconcile` invocation on a fresh request whose
node is not able to reboot: its phase is Fencing-Started, which is not
Fencing-Completed, and it carries no finalizer. -/
theorem fencingStarted_without_finalizer :
    Reachable exAfterGate 1000 ∧
      getPhase exAfterGate = fencingStartedPhase ∧
      getPhase exAfterGate ≠ fencingCompletedPhase ∧
      ContainsFinalizer exAfterGate SNRFinalizer = false :=
  ⟨Reachable.reconcile exFreshNoFinalizer exAfterGate 0 exManager exRequest
      (exEnvIncapable 1000 exFreshNoFinalizer)
      (Reachable.fresh exFreshNoFinalizer 0 rfl rfl) (by decide) rfl rfl rfl,
   by decide, by decide, by decide⟩


/-! ### The peer health server -/

theorem isHealthyBySnr_healthy_iff (env : ServerEnv) (name ns : String) :
    isHealthyBySnr env name ns = .Healthy ↔
      ∃ err, env.getSnrErr name ns = some err ∧ IsNotFound err = true := by
  unfold isHealthyBySnr
  cases h : env.getSnrErr name ns with
  | none => simp
  | some err =>
    by_cases hnf : IsNotFound err = true
    · simp [hnf]
    · simp [hnf]

theorem isHealthyBySnr_unhealthy_iff (env : ServerEnv) (name ns : String) :
    isHealthyBySnr env name ns = .Unhealthy ↔ env.getSnrErr name ns = none := by
  unfold isHealthyBySnr
  cases h : env.getSnrErr name ns with
  | none => simp
  | some err =>
    by_cases hnf : IsNotFound err = true
    · simp [hnf]
    · simp [hnf]

theorem isHealthyBySnr_apiError_iff (env : ServerEnv) (name ns : String) :
    isHealthyBySnr env name ns = .ApiError ↔
      ∃ err, env.getSnrErr name ns = some err ∧ IsNotFound err = false := by
  unfold isHealthyBySnr
  cases h : env.getSnrErr name ns with
  | none => simp
  | some err =>
    by_cases hnf : IsNotFound err = true
    · simp [hnf]
    · simp [hnf]

theorem isHealthyOverSnrs_cons (env : ServerEnv) (request : HealthRequest)
    (snr : SelfNodeRemediation) (rest : List SelfNodeRemediation) :
    isHealthyOverSnrs env request (snr :: rest) =
      if isHealthyBySnr env (serverLookupName request snr) snr.Namespace = .Healthy then
        isHealthyOverSnrs env request rest
      else toResponse (isHealthyBySnr env (serverLookupName request snr) snr.Namespace) := by
  unfold serverLookupName
  rw [isHealthyOverSnrs]
  by_cases hown : IsOwnedByNHC snr = true
  · simp only [hown, if_true]
    by_cases hc : isHealthyBySnr env request.NodeName snr.Namespace = .Healthy
    · simp [hc]
    · simp [hc]
  · simp only [hown]
    by_cases hc : isHealthyBySnr env request.MachineName snr.Namespace = .Healthy
    · simp [hc]
    · simp [hc]

theorem IsHealthy_listed (env : ServerEnv) (request : HealthRequest)
    (snrs : List SelfNodeRemediation) (hname : request.NodeName ≠ "")
    (hlist : env.listSnrs = .ok snrs) :
    IsHealthy env request = isHealthyOverSnrs env request snrs := by
  unfold IsHealthy
  simp only [hname, if_false, hlist]

theorem isHealthyOverSnrs_ok (env : ServerEnv) (request : HealthRequest)
    (snrs : List SelfNodeRemediation) :
    ∃ code, isHealthyOverSnrs env request snrs = .ok { Status := code } := by
  induction snrs with
  | nil => exact ⟨.Healthy, rfl⟩
  | cons snr rest ih =>
    rw [isHealthyOverSnrs_cons]
    split
    · exact ih
    · exact ⟨_, rfl⟩

theorem isHealthyOverSnrs_healthy_iff (env : ServerEnv) (request : HealthRequest)
    (snrs : List SelfNodeRemediation) :
    isHealthyOverSnrs env request snrs = .ok { Status := .Healthy } ↔
      ∀ snr ∈ snrs, isHealthyBySnr env (serverLookupName request snr) snr.Namespace =
        .Healthy := by
  induction snrs with
  | nil => simp [isHealthyOverSnrs, toResponse]
  | cons snr rest ih =>
    rw [isHealthyOverSnrs_cons]
    by_cases hc : isHealthyBySnr env (serverLookupName request snr) snr.Namespace = .Healthy
    · rw [if_pos hc, ih]
      simp [hc]
    · rw [if_neg hc]
      constructor
      · intro h
        unfold toResponse at h
        simp only [Except.ok.injEq, HealthResponse.mk.injEq] at h
        exact absurd h hc
      · intro h
        exact absurd (h snr (List.mem_cons_self _ _)) hc

/-- C23. Peer says healthy: for a health request with a non-empty node name,
`IsHealthy` answers Healthy if and only if the list of remediation requests
succeeds and, for every listed request, the lookup in the namespace of that
request, by the node name when the listed request is owned by a
NodeHealthCheck and by the machine name otherwise, fails with a not-found
error. In particular it answers Healthy when the list is empty. -/
theorem peer_says_healthy (env : ServerEnv) (request : HealthRequest)
    (hname : request.NodeName ≠ "") :
    (IsHealthy env request = .ok { Status := .Healthy } ↔
      ∃ snrs, env.listSnrs = .ok snrs ∧
        ∀ snr ∈ snrs, ∃ err,
          env.getSnrErr (if IsOwnedByNHC snr = true then request.NodeName
            else request.MachineName) snr.Namespace = some err ∧
          IsNotFound err = true) ∧
      (env.listSnrs = .ok [] → IsHealthy env request = .ok { Status := .Healthy }) := by
  have hiff : ∀ snrs, env.listSnrs = .ok snrs →
      (IsHealthy env request = .ok { Status := .Healthy } ↔
        ∀ snr ∈ snrs, ∃ err,
          env.getSnrErr (if IsOwnedByNHC snr = true then request.NodeName
            else request.MachineName) snr.Namespace = some err ∧
          IsNotFound err = true) := by
    intro snrs hlist
    rw [IsHealthy_listed env request snrs hname hlist, isHealthyOverSnrs_healthy_iff]
    constructor
    · intro h snr hmem
      exact (isHealthyBySnr_healthy_iff env _ _).mp (h snr hmem)
    · intro h snr hmem
      exact (isHealthyBySnr_healthy_iff env _ _).mpr (h snr hmem)
  constructor
  · cases hlist : env.listSnrs with
    | error err =>
      constructor
      · intro h
        unfold IsHealthy at h
        simp [hname, hlist] at h
      · rintro ⟨snrs, h, _⟩
        exact absurd h (by simp)
    | ok snrs =>
      rw [hiff snrs hlist]
      constructor
      · intro h
        exact ⟨snrs, rfl, h⟩
      · rintro ⟨snrs', h', hall⟩
        cases h'
        exact hall
  · intro hlist
    rw [hiff [] hlist]
    intro snr hmem
    exact absurd hmem (List.not_mem_nil _)

theorem peer_says_healthy_witness :
    IsHealthy (exServerEnv [exOwnedByNHC]) exOtherHealthRequest =
      .ok { Status := .Healthy } :=
  (peer_says_healthy (exServerEnv [exOwnedByNHC]) exOtherHealthRequest (by decide)).1.mpr
    ⟨[exOwnedByNHC], rfl, fun snr hmem => by
      rw [List.mem_singleton] at hmem
      subst hmem
      exact ⟨_, rfl, rfl⟩⟩

theorem isHealthyOverSnrs_first (env : ServerEnv) (request : HealthRequest)
    (pre post : List SelfNodeRemediation) (snr : SelfNodeRemediation)
    (hpre : ∀ x ∈ pre, isHealthyBySnr env (serverLookupName request x) x.Namespace = .Healthy)
    (hsnr : isHealthyBySnr env (serverLookupName request snr) snr.Namespace ≠ .Healthy) :
    isHealthyOverSnrs env request (pre ++ snr :: post) =
      .ok { Status := isHealthyBySnr env (serverLookupName request snr) snr.Namespace } := by
  induction pre with
  | nil =>
    rw [List.nil_append, isHealthyOverSnrs_cons, if_neg hsnr]
    rfl
  | cons x rest ih =>
    rw [List.cons_append, isHealthyOverSnrs_cons,
      if_pos (hpre x (List.mem_cons_self _ _))]
    exact ih (fun y hy => hpre y (List.mem_cons_of_mem _ hy))

theorem isHealthyOverSnrs_unhealthy (env : ServerEnv) (request : HealthRequest)
    (snrs : List SelfNodeRemediation)
    (hfound : ∃ snr ∈ snrs,
      isHealthyBySnr env (serverLookupName request snr) snr.Namespace = .Unhealthy)
    (hnoerr : ∀ snr ∈ snrs,
      isHealthyBySnr env (serverLookupName request snr) snr.Namespace ≠ .ApiError) :
    isHealthyOverSnrs env request snrs = .ok { Status := .Unhealthy } := by
  induction snrs with
  | nil =>
    obtain ⟨snr, hmem, _⟩ := hfound
    exact absurd hmem (List.not_mem_nil _)
  | cons x rest ih =>
    rw [isHealthyOverSnrs_cons]
    by_cases hc : isHealthyBySnr env (serverLookupName request x) x.Namespace = .Healthy
    · rw [if_pos hc]
      apply ih
      · obtain ⟨snr, hmem, hun⟩ := hfound
        rcases List.mem_cons.mp hmem with h | h
        · subst h
          rw [hc] at hun
          exact absurd hun (by decide)
        · exact ⟨snr, h, hun⟩
      · exact fun y hy => hnoerr y (List.mem_cons_of_mem _ hy)
    · rw [if_neg hc]
      have hne := hnoerr x (List.mem_cons_self _ _)
      have hun : isHealthyBySnr env (serverLookupName request x) x.Namespace = .Unhealthy := by
        cases hcode : isHealthyBySnr env (serverLookupName request x) x.Namespace with
        | Healthy => exact absurd hcode hc
        | Unhealthy => rfl
        | ApiError => exact absurd hcode hne
      rw [hun]
      rfl

/-- C24. Peer says unhealthy: for a health request naming the node N of the
machine M (N not empty), when the list of remediation requests succeeds, no
lookup for a listed request fails with an error other than not-found, and for
some listed request the lookup finds a request (one named N in the namespace
of a listed request owned by a NodeHealthCheck, or one named M in the
namespace of a listed request not owned by one), `IsHealthy` answers
Unhealthy. -/
theorem peer_says_unhealthy (env : ServerEnv) (request : HealthRequest)
    (snrs : List SelfNodeRemediation) (hname : request.NodeName ≠ "")
    (hlist : env.listSnrs = .ok snrs)
    (hfound : ∃ snr ∈ snrs,
      env.getSnrErr (if IsOwnedByNHC snr = true then request.NodeName
        else request.MachineName) snr.Namespace = none)
    (hnoerr : ∀ snr ∈ snrs, ∀ err,
      env.getSnrErr (if IsOwnedByNHC snr = true then request.NodeName
        else request.MachineName) snr.Namespace = some err → IsNotFound err = true) :
    IsHealthy env request = .ok { Status := .Unhealthy } := by
  rw [IsHealthy_listed env request snrs hname hlist]
  apply isHealthyOverSnrs_unhealthy
  · obtain ⟨snr, hmem, h⟩ := hfound
    exact ⟨snr, hmem, (isHealthyBySnr_unhealthy_iff env _ _).mpr h⟩
  · intro snr hmem hc
    obtain ⟨err, herr, hnf⟩ := (isHealthyBySnr_apiError_iff env _ _).mp hc
    have := hnoerr snr hmem err herr
    rw [hnf] at this
    exact absurd this (by simp)

theorem peer_says_unhealthy_witness :
    IsHealthy (exServerEnv [exOwnedByNHC]) exHealthRequest = .ok { Status := .Unhealthy } :=
  peer_says_unhealthy (exServerEnv [exOwnedByNHC]) exHealthRequest [exOwnedByNHC]
    (by decide) rfl ⟨exOwnedByNHC, List.mem_singleton.mpr rfl, rfl⟩
    (fun snr hmem err herr => by
      rw [List.mem_singleton] at hmem
      subst hmem
      have hnone : (exServerEnv [exOwnedByNHC]).getSnrErr
          (if IsOwnedByNHC exOwnedByNHC = true then exHealthRequest.NodeName
            else exHealthRequest.MachineName) exOwnedByNHC.Namespace = none := rfl
      rw [hnone] at herr
      exact absurd herr (by simp))

/-- C25 (amended). Peer API failure: for a health request with a non-empty node
name, when the list succeeds and the first lookup that does not report
not-found fails with another error, the response carries the status ApiError;
when the listing of remediation requests fails, `IsHealthy` returns that error
and no response; a health request with an empty node name is rejected with an
error and no response. -/
theorem peer_api_failure (env : ServerEnv) (request : HealthRequest) :
    (request.NodeName ≠ "" →
      ∀ pre snr post err, env.listSnrs = .ok (pre ++ snr :: post) →
        (∀ x ∈ pre, ∃ e,
          env.getSnrErr (if IsOwnedByNHC x = true then request.NodeName
            else request.MachineName) x.Namespace = some e ∧ IsNotFound e = true) →
        env.getSnrErr (if IsOwnedByNHC snr = true then request.NodeName
          else request.MachineName) snr.Namespace = some err →
        IsNotFound err = false →
        IsHealthy env request = .ok { Status := .ApiError }) ∧
      (request.NodeName ≠ "" → ∀ err, env.listSnrs = .error err →
        IsHealthy env request = .error err) ∧
      (request.NodeName = "" →
        IsHealthy env request = .error (.plain "empty node name in HealthRequest")) := by
  refine ⟨?_, ?_, ?_⟩
  · intro hname pre snr post err hlist hpre hsnr hnf
    rw [IsHealthy_listed env request _ hname hlist]
    have hcode : isHealthyBySnr env (serverLookupName request snr) snr.Namespace =
        .ApiError := (isHealthyBySnr_apiError_iff env _ _).mpr ⟨err, hsnr, hnf⟩
    rw [isHealthyOverSnrs_first env request pre post snr
      (fun x hx => (isHealthyBySnr_healthy_iff env _ _).mpr (hpre x hx))
      (by rw [hcode]; decide), hcode]
  · intro hname err hlist
    unfold IsHealthy
    simp only [hname, if_false, hlist]
  · intro hname
    unfold IsHealthy
    simp only [hname, if_true]

theorem peer_api_failure_witness :
    IsHealthy (exServerEnvLookupFails [exOwnedByNHC]) exHealthRequest =
      .ok { Status := .ApiError } :=
  (peer_api_failure (exServerEnvLookupFails [exOwnedByNHC]) exHealthRequest).1 (by decide)
    [] exOwnedByNHC [] (.plain "context deadline exceeded") rfl
    (fun x hx => absurd hx (List.not_mem_nil _)) rfl rfl

/-- C25, counterexample. The listing of remediation requests fails with a
timeout, an error other than not-found: `IsHealthy` returns the error and no
response, so no response carries the status ApiError. -/
theorem list_failure_gives_no_response :
    exHealthRequest.NodeName ≠ "" ∧
      exServerEnvListFails.listSnrs = .error (.plain "context deadline exceeded") ∧
      IsNotFound (.plain "context deadline exceeded") = false ∧
      IsHealthy exServerEnvListFails exHealthRequest =
        .error (.plain "context deadline exceeded") ∧
      IsHealthy exServerEnvListFails exHealthRequest ≠ .ok { Status := .ApiError } :=
  ⟨by decide, rfl, rfl, rfl, by
    intro h
    have h2 : IsHealthy exServerEnvListFails exHealthRequest =
        .error (.plain "context deadline exceeded") := rfl
    rw [h2] at h
    exact absurd h (by simp)⟩

/-! ### Reconciler and peer health server -/

theorem getNodeFromSnr_own_name (env : Env) (snr : SelfNodeRemediation)
    (h : resolvesByOwnName snr = true) :
    getNodeFromSnr env snr = env.getNode snr.Name "" := by
  unfold resolvesByOwnName at h
  unfold getNodeFromSnr
  by_cases hown : IsOwnedByNHC snr = true
  · simp [hown]
  · simp only [hown, Bool.false_or, Bool.not_eq_true', List.any_eq_false, beq_iff_eq] at h
    have hfind : snr.OwnerReferences.find? (fun ownerRef => ownerRef.Kind == "Machine") =
        none := by
      rw [List.find?_eq_none]
      intro x hx
      simpa using h x hx
    simp [hown, hfind]

/-- C30, the code at a failing input. The request `exNoOwner` for `node-1` has
no owner reference: it is not owned by a NodeHealthCheck and has no Machine
owner. The reconciler takes its node from the name of the request, `node-1`.
The server, asked about `node-1` on the machine `machine-1`, looks the request
up by the machine name, finds nothing and answers Healthy, while the request
for `node-1` is in the store. -/
theorem server_looks_up_machine_name_without_owner :
    resolvesByOwnName exNoOwner = true ∧
      (∀ env, getNodeFromSnr env exNoOwner = env.getNode "node-1" "") ∧
      serverLookupName exHealthRequest exNoOwner = exHealthRequest.MachineName ∧
      serverLookupName exHealthRequest exNoOwner ≠ exHealthRequest.NodeName ∧
      (exServerEnv [exNoOwner]).getSnrErr "node-1" "ns" = none ∧
      IsHealthy (exServerEnv [exNoOwner]) exHealthRequest = .ok { Status := .Healthy } :=
  ⟨by decide, fun env => getNodeFromSnr_own_name env exNoOwner (by decide), by decide,
    by decide, by decide, rfl⟩

/-! ### The control-plane manager -/

theorem string_length_eq_zero (s : String) : s.length = 0 ↔ s = "" := by
  constructor
  · intro h
    cases s with
    | mk data =>
      have hd : data = [] := List.length_eq_zero.mp h
      subst hd
      rfl
  · intro h
    subst h
    rfl

theorem isDiagnosticsPassed_iff (env : ManagerEnv) (manager : Manager) :
    isDiagnosticsPassed env manager = true ↔
      isEndpointAccessLost env manager = false ∧ isKubeletServiceRunning env manager = true := by
  unfold isDiagnosticsPassed isEtcdRunning
  cases isEndpointAccessLost env manager <;> cases isKubeletServiceRunning env manager <;> simp

theorem isEndpointAccessLost_iff (env : ManagerEnv) (manager : Manager) :
    isEndpointAccessLost env manager = false ↔
      (manager.endpointHealthCheckUrl ≠ "" ∧
          env.newPingerOk manager.endpointHealthCheckUrl = true ∧
          env.pingerRunOk manager.endpointHealthCheckUrl = true) ∨
        manager.wasEndpointAccessibleAtStart = false ∨
        manager.endpointHealthCheckUrl = "" := by
  have hlen : manager.endpointHealthCheckUrl.length = 0 ↔
      manager.endpointHealthCheckUrl = "" := string_length_eq_zero _
  unfold isEndpointAccessLost isEndpointAccessible
  by_cases hurl : manager.endpointHealthCheckUrl = ""
  · cases manager.wasEndpointAccessibleAtStart <;> simp [hurl]
  · have hl : ¬manager.endpointHealthCheckUrl.length = 0 := fun h => hurl (hlen.mp h)
    cases manager.wasEndpointAccessibleAtStart <;>
      cases env.newPingerOk manager.endpointHealthCheckUrl <;>
      cases env.pingerRunOk manager.endpointHealthCheckUrl <;> simp [hurl, hl]

/-- C26. Control-plane health decision: `IsControlPlaneHealthy` returns false
for UnHealthyBecausePeersResponse; `canOtherMastersBeReached` for
UnHealthyBecauseNodeIsIsolated; true for HealthyBecauseErrorsThresholdNotReached
and HealthyBecauseCRNotFound; the result of the diagnostics for
HealthyBecauseMostPeersCantAccessAPIServer; diagnostics and
`canOtherMastersBeReached` for HealthyBecauseNoPeersWereFound; false for every
other reason. So an isolated node that cannot reach the other control-plane
nodes, and a node without peers whose diagnostics fail, are not reported
healthy. -/
theorem control_plane_health_decision (env : ManagerEnv) (manager : Manager)
    (isHealthy : Bool) (canOtherMastersBeReached : Bool) :
    IsControlPlaneHealthy env manager
        { IsHealthy := isHealthy, Reason := .UnHealthyBecausePeersResponse }
        canOtherMastersBeReached = false ∧
      IsControlPlaneHealthy env manager
        { IsHealthy := isHealthy, Reason := .UnHealthyBecauseNodeIsIsolated }
        canOtherMastersBeReached = canOtherMastersBeReached ∧
      IsControlPlaneHealthy env manager
        { IsHealthy := isHealthy, Reason := .HealthyBecauseErrorsThresholdNotReached }
        canOtherMastersBeReached = true ∧
      IsControlPlaneHealthy env manager
        { IsHealthy := isHealthy, Reason := .HealthyBecauseCRNotFound }
        canOtherMastersBeReached = true ∧
      IsControlPlaneHealthy env manager
        { IsHealthy := isHealthy, Reason := .HealthyBecauseMostPeersCantAccessAPIServer }
        canOtherMastersBeReached = isDiagnosticsPassed env manager ∧
      IsControlPlaneHealthy env manager
        { IsHealthy := isHealthy, Reason := .HealthyBecauseNoPeersWereFound }
        canOtherMastersBeReached =
          (isDiagnosticsPassed env manager && canOtherMastersBeReached) ∧
      (∀ reason, IsControlPlaneHealthy env manager
        { IsHealthy := isHealthy, Reason := .other reason }
        canOtherMastersBeReached = false) ∧
      IsControlPlaneHealthy env manager
        { IsHealthy := isHealthy, Reason := .UnHealthyBecauseNodeIsIsolated } false = false ∧
      (isDiagnosticsPassed env manager = false →
        IsControlPlaneHealthy env manager
          { IsHealthy := isHealthy, Reason := .HealthyBecauseNoPeersWereFound }
          canOtherMastersBeReached = false) :=
  ⟨rfl, rfl, rfl, rfl, rfl, rfl, fun _ => rfl, rfl, fun h => by
    show (isDiagnosticsPassed env manager && canOtherMastersBeReached) = false
    rw [h]
    rfl⟩

theorem control_plane_health_decision_witness :
    isDiagnosticsPassed exEnvKubeletDown exControlPlane = false ∧
      IsControlPlaneHealthy exEnvKubeletDown exControlPlane
        { IsHealthy := true, Reason := .HealthyBecauseNoPeersWereFound } true = false :=
  ⟨by decide,
   (control_plane_health_decision exEnvKubeletDown exControlPlane true true).2.2.2.2.2.2.2.2
     (by decide)⟩

/-- C27 (amended). Diagnostics: `isDiagnosticsPassed` returns true if and only if
(a) the health endpoint is reachable now, or it was not reachable at process
start, or no endpoint URL is configured, and (b) the kubelet service responds
on port 10250. The check of etcd, `isEtcdRunning`, always reports true, so the
result does not depend on whether etcd is running. -/
theorem diagnostics_passed_iff (env : ManagerEnv) (manager : Manager) :
    (isDiagnosticsPassed env manager = true ↔
      (((manager.endpointHealthCheckUrl ≠ "" ∧
            env.newPingerOk manager.endpointHealthCheckUrl = true ∧
            env.pingerRunOk manager.endpointHealthCheckUrl = true) ∨
          manager.wasEndpointAccessibleAtStart = false ∨
          manager.endpointHealthCheckUrl = "") ∧
        env.curlOk ("https://" ++ manager.nodeName ++ ":10250/pods") = true)) ∧
      isEtcdRunning env manager = true ∧
      (∀ etcd, isDiagnosticsPassed { env with etcdRunning := etcd } manager =
        isDiagnosticsPassed env manager) := by
  refine ⟨?_, rfl, fun _ => rfl⟩
  rw [isDiagnosticsPassed_iff, isEndpointAccessLost_iff]
  have hk : isKubeletServiceRunning env manager =
      env.curlOk ("https://" ++ manager.nodeName ++ ":10250/pods") := by
    unfold isKubeletServiceRunning kubeletPort
    have hs : "https://" ++ manager.nodeName ++ ":" ++ "10250" ++ "/pods" =
        "https://" ++ manager.nodeName ++ ":10250/pods" := by
      simp [String.append_assoc]
    simp only [hs]
    cases env.curlOk ("https://" ++ manager.nodeName ++ ":10250/pods") <;> rfl
  rw [hk]

/-- C27, counterexample. On a node whose etcd is not running, with the kubelet
responding and no health endpoint configured, the diagnostics pass. -/
theorem diagnostics_pass_with_etcd_down :
    exEnvEtcdDown.etcdRunning = false ∧
      isDiagnosticsPassed exEnvEtcdDown exControlPlane = true :=
  ⟨rfl, by decide⟩

/-! ### The default configuration -/

/-- C28 (amended). Default configuration: `NewDefaultSelfNodeRemediationConfig`
returns a configuration object with the name self-node-remediation-config
whose spec has WatchdogFilePath = /dev/watchdog,
SafeTimeToAssumeNodeRebootedSeconds = 180 and IsSoftwareRebootEnabled = true;
the function sets no other field, so MaxApiErrorThreshold is the zero value of
its type. -/
theorem default_configuration :
    NewDefaultSelfNodeRemediationConfig.Name = "self-node-remediation-config" ∧
      NewDefaultSelfNodeRemediationConfig.Spec =
        { WatchdogFilePath := "/dev/watchdog"
          SafeTimeToAssumeNodeRebootedSeconds := 180
          IsSoftwareRebootEnabled := true } ∧
      NewDefaultSelfNodeRemediationConfig.Spec.MaxApiErrorThreshold = 0 :=
  ⟨rfl, rfl, rfl⟩

/-- C28, counterexample. The configuration that
`NewDefaultSelfNodeRemediationConfig` returns has MaxApiErrorThreshold 0, not 3. -/
theorem default_configuration_threshold_unset :
    NewDefaultSelfNodeRemediationConfig.Spec.MaxApiErrorThreshold ≠ 3 := by
  decide

/-! ### The target node is not found -/

theorem updateConditions_pair (now : Time) (reason : processingChangeReason)
    (snr : SelfNodeRemediation) (p s : ConditionStatus) (hr : RecognisedReason reason p s) :
    updateConditions now reason snr = (none, (updateConditions now reason snr).2) := by
  have h := updateConditions_err now reason snr p s hr
  cases hx : updateConditions now reason snr with
  | mk e v =>
    rw [hx] at h
    simp only at h
    rw [h]

theorem reconcileStarted_node (r : Reconciler) (env : Env) (snr : SelfNodeRemediation) :
    reconcileStarted r env snr =
      reconcileNode r env
        (if (getPhase snr != fencingCompletedPhase) = true then
          (updateConditions env.now remediationStarted snr).2 else snr) := by
  unfold reconcileStarted
  by_cases hphase : (getPhase snr != fencingCompletedPhase) = true
  · rw [if_pos hphase, if_pos hphase,
      updateConditions_pair env.now remediationStarted snr _ _ started_recognised]
  · rw [if_neg hphase, if_neg hphase]

theorem reconcileNode_notFound (r : Reconciler) (env : Env) (snr : SelfNodeRemediation)
    (err : GoError) (hnode : getNodeFromSnr env snr = .error err)
    (hnf : IsNotFound err = true) :
    reconcileNode r env snr =
      { err := (updateSnrStatusLastError env
          (updateConditions env.now remediationSkippedNodeNotFound snr).2 (some err)).1
        snr := some (updateSnrStatusLastError env
          (updateConditions env.now remediationSkippedNodeNotFound snr).2 (some err)).2.1
        acts := .getTargetNodeFailed :: (updateSnrStatusLastError env
          (updateConditions env.now remediationSkippedNodeNotFound snr).2 (some err)).2.2 } := by
  unfold reconcileNode
  rw [hnode]
  simp only [hnf, if_true]
  rw [updateConditions_pair env.now remediationSkippedNodeNotFound snr _ _
    skippedNodeNotFound_recognised]

theorem updateSnrStatusLastError_returns (env : Env) (snr : SelfNodeRemediation)
    (e : GoError) (hu : isUnreconcilableError (some e) = false) :
    (updateSnrStatusLastError env snr (some e)).1 ≠ none ∧
      (env.patchSnrStatusErr = none → (updateSnrStatusLastError env snr (some e)).1 = some e) ∧
      (∀ a ∈ (updateSnrStatusLastError env snr (some e)).2.2, ∃ m, a = .patchSnrStatus m) := by
  unfold updateSnrStatusLastError
  simp only [hu, Bool.false_eq_true, if_false]
  by_cases hsame : (snr.Status.LastError != e.Error) = true
  · rw [if_pos hsame]
    cases hp : env.patchSnrStatusErr with
    | none => simp
    | some u => simp
  · rw [if_neg hsame]
    simp

theorem isUnreconcilableError_notFound (e : GoError) (h : IsNotFound e = true) :
    isUnreconcilableError (some e) = false := by
  cases e <;> first
    | rfl
    | exact absurd h (by simp [IsNotFound])

theorem deferredStatusUpdate_failed (env : Env) (snr : SelfNodeRemediation)
    (body : ReconcileOut) (hbody : body.err ≠ none) :
    (deferredStatusUpdate env snr body).result = body.result ∧
      (deferredStatusUpdate env snr body).err ≠ none ∧
      (env.updateSnrStatusErr = none ∨
          (∃ e, env.updateSnrStatusErr = some e ∧ IsConflict e = true) →
        (deferredStatusUpdate env snr body).err = body.err) := by
  cases hupd : env.updateSnrStatusErr with
  | none =>
    have heq : deferredStatusUpdate env snr body =
        { body with acts := body.acts ++ [.updateSnrStatus snr.Status] } := by
      unfold deferredStatusUpdate
      simp only [hupd]
    rw [heq]
    exact ⟨rfl, hbody, fun _ => rfl⟩
  | some updateErr =>
    by_cases hc : IsConflict updateErr = true
    · have heq : deferredStatusUpdate env snr body =
          { body with acts := body.acts ++ [.updateSnrStatus snr.Status] } := by
        unfold deferredStatusUpdate
        simp only [hupd, hc, if_true, if_neg hbody]
      rw [heq]
      exact ⟨rfl, hbody, fun _ => rfl⟩
    · have heq : deferredStatusUpdate env snr body =
          { body with err := some (NewAggregate updateErr body.err)
                      acts := body.acts ++ [.updateSnrStatus snr.Status] } := by
        unfold deferredStatusUpdate
        simp only [hupd, hc]
        rfl
      rw [heq]
      refine ⟨rfl, by simp, ?_⟩
      rintro (h | ⟨e, he, hce⟩)
      · exact absurd h (by simp)
      · cases he
        exact absurd hce hc

/-- C22 (amended). Target node not found: for a request that is not stopped by
the detector and whose node lookup reports not-found, `Reconcile` ends with
Processing=False and Succeeded=False, with reason SkippedNodeNotFound unless
the phase is Fencing-Completed and both conditions were False already; it adds
no finalizer and no taint (the only calls are the event, the patch of the last
error and the deferred status update) and changes neither phase nor
`timeAssumedRebooted`. It returns an empty result and a non-nil error: the
not-found error itself when the patch of the last error does not fail and the
status update succeeds or meets a conflict. -/
theorem target_node_not_found (r : Reconciler) (req : Request) (env : Env)
    (snr : SelfNodeRemediation) (err : GoError) (hget : env.getSnr = .ok snr)
    (hagent : r.IsAgent = true → req.Name = r.MyNodeName)
    (hstop : isStoppedByNHC snr = false)
    (hnode : getNodeFromSnr env snr = .error err) (hnf : IsNotFound err = true) :
    ∃ s, (Reconcile r req env).snr = some s ∧
      IsStatusConditionPresentAndEqual s.Status.Conditions ProcessingConditionType
        .ConditionFalse = true ∧
      IsStatusConditionPresentAndEqual s.Status.Conditions SucceededConditionType
        .ConditionFalse = true ∧
      (getPhase snr ≠ fencingCompletedPhase ∨
          (IsStatusConditionPresentAndEqual snr.Status.Conditions ProcessingConditionType
              .ConditionFalse &&
            IsStatusConditionPresentAndEqual snr.Status.Conditions SucceededConditionType
              .ConditionFalse) = false →
        conditionReason s.Status.Conditions ProcessingConditionType =
            some remediationSkippedNodeNotFound ∧
          conditionReason s.Status.Conditions SucceededConditionType =
            some remediationSkippedNodeNotFound) ∧
      s.Finalizers = snr.Finalizers ∧
      s.Status.Phase = snr.Status.Phase ∧
      s.Status.TimeAssumedRebooted = snr.Status.TimeAssumedRebooted ∧
      (∀ a ∈ (Reconcile r req env).acts,
        a = .getTargetNodeFailed ∨ (∃ m, a = .patchSnrStatus m) ∨
          ∃ status, a = .updateSnrStatus status) ∧
      (Reconcile r req env).result = {} ∧
      (Reconcile r req env).err ≠ none ∧
      (env.patchSnrStatusErr = none →
        env.updateSnrStatusErr = none ∨
          (∃ e, env.updateSnrStatusErr = some e ∧ IsConflict e = true) →
        (Reconcile r req env).err = some err) ∧
      (Reconcile r req env).panicked = false := by
  have hrec := Reconcile_fetched r req env snr hget hagent
  have hbody : reconcileBody r env snr = reconcileStarted r env snr := by
    unfold reconcileBody
    simp [hstop]
  rw [hbody, reconcileStarted_node] at hrec
  obtain ⟨cs₁, hcs₁⟩ : ∃ cs, (if (getPhase snr != fencingCompletedPhase) = true then
      (updateConditions env.now remediationStarted snr).2 else snr) =
      { snr with Status := { snr.Status with Conditions := cs } } := by
    split
    · exact updateConditions_frame env.now remediationStarted snr
    · exact ⟨snr.Status.Conditions, rfl⟩
  have hguard : getPhase snr ≠ fencingCompletedPhase ∨
      (IsStatusConditionPresentAndEqual snr.Status.Conditions ProcessingConditionType
          .ConditionFalse &&
        IsStatusConditionPresentAndEqual snr.Status.Conditions SucceededConditionType
          .ConditionFalse) = false →
      (IsStatusConditionPresentAndEqual cs₁ ProcessingConditionType .ConditionFalse &&
        IsStatusConditionPresentAndEqual cs₁ SucceededConditionType .ConditionFalse) =
        false := by
    intro h
    by_cases hphase : (getPhase snr != fencingCompletedPhase) = true
    · rw [if_pos hphase] at hcs₁
      have hst := (updateConditions_statuses env.now remediationStarted snr _ _
        started_recognised).1
      rw [hcs₁] at hst
      cases hp : IsStatusConditionPresentAndEqual cs₁ ProcessingConditionType .ConditionFalse
      · rfl
      · exact absurd (status_single_valued _ _ _ _ hst hp) (by decide)
    · rw [if_neg hphase] at hcs₁
      have hcs : cs₁ = snr.Status.Conditions := by
        have := congrArg (fun x => x.Status.Conditions) hcs₁
        exact this.symm
      rw [hcs]
      rcases h with h | h
      · exact absurd (by simpa using h) hphase
      · exact h
  rw [hcs₁] at hrec
  have hnode₁ : getNodeFromSnr env
      { snr with Status := { snr.Status with Conditions := cs₁ } } = .error err := hnode
  rw [reconcileNode_notFound r env _ err hnode₁ hnf] at hrec
  simp only [Option.getD_some] at hrec
  obtain ⟨cs₂, hcs₂⟩ := updateConditions_frame env.now remediationSkippedNodeNotFound
    { snr with Status := { snr.Status with Conditions := cs₁ } }
  have hst₂ := updateConditions_statuses env.now remediationSkippedNodeNotFound
    { snr with Status := { snr.Status with Conditions := cs₁ } } _ _
    skippedNodeNotFound_recognised
  have hre₂ := updateConditions_reasons env.now remediationSkippedNodeNotFound
    { snr with Status := { snr.Status with Conditions := cs₁ } } _ _
    skippedNodeNotFound_recognised
  obtain ⟨v, hv⟩ := updateSnrStatusLastError_frame env
    (updateConditions env.now remediationSkippedNodeNotFound
      { snr with Status := { snr.Status with Conditions := cs₁ } }).2 (some err)
  obtain ⟨hne, hsome, hacts⟩ := updateSnrStatusLastError_returns env
    (updateConditions env.now remediationSkippedNodeNotFound
      { snr with Status := { snr.Status with Conditions := cs₁ } }).2 err
    (isUnreconcilableError_notFound err hnf)
  obtain ⟨hres, herr, herr'⟩ := deferredStatusUpdate_failed env
    (updateSnrStatusLastError env
      (updateConditions env.now remediationSkippedNodeNotFound
        { snr with Status := { snr.Status with Conditions := cs₁ } }).2 (some err)).2.1
    { err := (updateSnrStatusLastError env
        (updateConditions env.now remediationSkippedNodeNotFound
          { snr with Status := { snr.Status with Conditions := cs₁ } }).2 (some err)).1
      snr := some (updateSnrStatusLastError env
        (updateConditions env.now remediationSkippedNodeNotFound
          { snr with Status := { snr.Status with Conditions := cs₁ } }).2 (some err)).2.1
      acts := .getTargetNodeFailed :: (updateSnrStatusLastError env
        (updateConditions env.now remediationSkippedNodeNotFound
          { snr with Status := { snr.Status with Conditions := cs₁ } }).2 (some err)).2.2 }
    hne
  rw [← hrec] at hres herr herr'
  refine ⟨_, by rw [hrec, deferredStatusUpdate_snr], ?_, ?_, ?_, ?_, ?_, ?_, ?_, hres, herr, ?_,
    by rw [hrec, deferredStatusUpdate_panicked]⟩
  · rw [hv]; exact hst₂.1
  · rw [hv]; exact hst₂.2
  · intro h
    rw [hv]
    exact hre₂ (hguard h)
  · rw [hv, hcs₂]
  · rw [hv, hcs₂]
  · rw [hv, hcs₂]
  · intro a ha
    rw [hrec, deferredStatusUpdate_acts] at ha
    simp only [List.mem_append, List.mem_cons, List.mem_singleton, List.not_mem_nil,
      or_false] at ha
    rcases ha with (ha | ha) | ha
    · exact Or.inl ha
    · exact Or.inr (Or.inl (hacts a ha))
    · exact Or.inr (Or.inr ⟨_, ha⟩)
  · intro hpatch hupd
    rw [herr' hupd]
    exact hsome hpatch

theorem target_node_not_found_witness :
    (Reconcile exManager exRequest (exEnvNodeMissing 1000 exFresh)).result = {} ∧
      (Reconcile exManager exRequest (exEnvNodeMissing 1000 exFresh)).err =
        some (.notFound "nodes \"node-1\" not found") := by
  obtain ⟨s, _, _, _, _, _, _, _, _, hres, _, herr, _⟩ :=
    target_node_not_found exManager exRequest (exEnvNodeMissing 1000 exFresh) exFresh
      (.notFound "nodes \"node-1\" not found") rfl (by decide) rfl rfl rfl
  exact ⟨hres, herr rfl (Or.inl rfl)⟩

/-- C22, counterexample. A fresh request whose node does not exist: `Reconcile`
sets both conditions to False and returns the not-found error, not nil. -/
theorem node_not_found_returns_error :
    isStoppedByNHC exFresh = false ∧
      getNodeFromSnr (exEnvNodeMissing 1000 exFresh) exFresh =
        .error (.notFound "nodes \"node-1\" not found") ∧
      (Reconcile exManager exRequest (exEnvNodeMissing 1000 exFresh)).err =
        some (.notFound "nodes \"node-1\" not found") ∧
      (Reconcile exManager exRequest (exEnvNodeMissing 1000 exFresh)).err ≠ none :=
  ⟨rfl, rfl, rfl, by
    have h : (Reconcile exManager exRequest (exEnvNodeMissing 1000 exFresh)).err =
        some (.notFound "nodes \"node-1\" not found") := rfl
    rw [h]
    simp⟩

/-! ### The deferred status update -/

theorem deferredStatusUpdate_conflict (env : Env) (snr : SelfNodeRemediation)
    (body : ReconcileOut) (e : GoError) (hupd : env.updateSnrStatusErr = some e)
    (hc : IsConflict e = true) (hbody : body.err = none) :
    deferredStatusUpdate env snr body =
      { body with
        result := { body.result with
          RequeueAfter :=
            if body.result.RequeueAfter > 0 ∧ Second > body.result.RequeueAfter then
              body.result.RequeueAfter
            else Second }
        acts := body.acts ++ [.updateSnrStatus snr.Status] } := by
  unfold deferredStatusUpdate
  simp only [hupd, hc, if_true, hbody]

theorem deferredStatusUpdate_otherError (env : Env) (snr : SelfNodeRemediation)
    (body : ReconcileOut) (e : GoError) (hupd : env.updateSnrStatusErr = some e)
    (hc : IsConflict e = false) :
    (deferredStatusUpdate env snr body).err = some (NewAggregate e body.err) := by
  unfold deferredStatusUpdate
  simp only [hupd, hc]
  rfl

/-- C21 (amended). Status-write conflict: for a `Reconcile` invocation that
fetched the request, whose body returned (did not panic) with no error and
whose deferred status update fails with a conflict, `Reconcile` returns no
error and a positive requeue delay of at most 1 second: the delay of the body
when that is positive and under 1 second, and 1 second otherwise. A status
update that fails with any other error makes `Reconcile` return a non-nil
error. -/
theorem status_write_conflict (r : Reconciler) (req : Request) (env : Env)
    (snr : SelfNodeRemediation) (e : GoError) (hget : env.getSnr = .ok snr)
    (hagent : r.IsAgent = true → req.Name = r.MyNodeName)
    (hupd : env.updateSnrStatusErr = some e) :
    (IsConflict e = true → (reconcileBody r env snr).err = none →
        (reconcileBody r env snr).panicked = false →
        (Reconcile r req env).err = none ∧
        (Reconcile r req env).result.RequeueAfter =
          (if (reconcileBody r env snr).result.RequeueAfter > 0 ∧
              Second > (reconcileBody r env snr).result.RequeueAfter then
            (reconcileBody r env snr).result.RequeueAfter
          else Second) ∧
        0 < (Reconcile r req env).result.RequeueAfter ∧
        (Reconcile r req env).result.RequeueAfter ≤ Second ∧
        ((reconcileBody r env snr).result.RequeueAfter ≤ 0 ∨
            Second ≤ (reconcileBody r env snr).result.RequeueAfter →
          (Reconcile r req env).result.RequeueAfter = Second) ∧
        (Reconcile r req env).panicked = false) ∧
      (IsConflict e = false → (Reconcile r req env).err ≠ none) := by
  have hrec := Reconcile_fetched r req env snr hget hagent
  have hpos : (0 : Int) < Second := by decide
  constructor
  · intro hc hbody hpanic
    have heq := deferredStatusUpdate_conflict env ((reconcileBody r env snr).snr.getD snr)
      (reconcileBody r env snr) e hupd hc hbody
    rw [← hrec] at heq
    have hafter : (Reconcile r req env).result.RequeueAfter =
        (if (reconcileBody r env snr).result.RequeueAfter > 0 ∧
            Second > (reconcileBody r env snr).result.RequeueAfter then
          (reconcileBody r env snr).result.RequeueAfter
        else Second) := by
      rw [heq]
    refine ⟨?_, hafter, ?_, ?_, ?_, ?_⟩
    · rw [heq]
      exact hbody
    · rw [hafter]
      split
      · rename_i h
        exact h.1
      · exact hpos
    · rw [hafter]
      split
      · rename_i h
        exact le_of_lt h.2
      · exact le_refl _
    · intro h
      rw [hafter]
      rcases h with h | h
      · rw [if_neg (fun hh => absurd h (not_le.mpr hh.1))]
      · rw [if_neg (fun hh => absurd h (not_le.mpr hh.2))]
    · rw [heq]
      exact hpanic
  · intro hc
    rw [hrec, deferredStatusUpdate_otherError env _ _ e hupd hc]
    simp

theorem status_write_conflict_witness :
    (Reconcile exManager exRequest (exEnvConflict 1000 exPreReboot)).err = none ∧
      (Reconcile exManager exRequest (exEnvConflict 1000 exPreReboot)).result.RequeueAfter =
        Second ∧
      (reconcileBody exManager (exEnvConflict 1000 exPreReboot)
        exPreReboot).result.RequeueAfter = 180 * Second + Second :=
  ⟨((status_write_conflict exManager exRequest (exEnvConflict 1000 exPreReboot) exPreReboot
      (.conflict "the object has been modified") rfl (by decide) rfl).1
      rfl rfl rfl).1,
   ((status_write_conflict exManager exRequest (exEnvConflict 1000 exPreReboot) exPreReboot
      (.conflict "the object has been modified") rfl (by decide) rfl).1
      rfl rfl rfl).2.2.2.2.1 (Or.inr (by decide)),
   by decide⟩

/-- C21, counterexample. The body of `Reconcile` returns no error and a requeue
delay of 999999900 nanoseconds (`wasNodeRebooted` with `timeAssumedRebooted`
between its two clock readings), and the deferred status update meets a
conflict: `Reconcile` returns no error and that delay, which is under 1
second. -/
theorem conflict_keeps_delay_under_one_second :
    exEnvClockMovesConflict.getSnr = .ok exPreReboot ∧
      exEnvClockMovesConflict.updateSnrStatusErr =
        some (.conflict "the object has been modified") ∧
      (reconcileBody exManager exEnvClockMovesConflict exPreReboot).err = none ∧
      (reconcileBody exManager exEnvClockMovesConflict exPreReboot).panicked = false ∧
      (Reconcile exManager exRequest exEnvClockMovesConflict).err = none ∧
      (Reconcile exManager exRequest exEnvClockMovesConflict).result.RequeueAfter =
        999999900 ∧
      ¬(Second ≤ (Reconcile exManager exRequest exEnvClockMovesConflict).result.RequeueAfter) :=
  ⟨rfl, rfl, rfl, rfl, rfl, by decide, by decide⟩

/-! ### `timeAssumedRebooted` is set where it is read -/

theorem addFinalizer_panicked (env : Env) (node : Node) (snr : SelfNodeRemediation) :
    (addFinalizer env node snr).panicked = false := by
  unfold addFinalizer
  repeat' split
  all_goals rfl

theorem markNodeAsUnschedulable_panicked (env : Env) (node : Node)
    (snr : SelfNodeRemediation) :
    (markNodeAsUnschedulable env node snr).panicked = false := by
  unfold markNodeAsUnschedulable
  repeat' split
  all_goals rfl

theorem prepareReboot_panicked (env : Env) (node : Node) (snr : SelfNodeRemediation) :
    (prepareReboot env node snr).panicked = false := by
  have h1 := addFinalizer_panicked env node snr
  have h3 := markNodeAsUnschedulable_panicked env (addNoExecuteTaint env node).node snr
  unfold prepareReboot
  split
  · rfl
  · split
    · exact h1
    · simp only []
      split
      · rfl
      · split
        · exact h3
        · by_cases hz : IsZero snr.Status.TimeAssumedRebooted = true
          · simp only [hz, if_true]
            unfold updateTimeAssumedRebooted
            cases env.timeToAssumeNodeRebooted <;> rfl
          · simp only [hz]
            rfl

theorem rebootNode_panicked (r : Reconciler) (env : Env) (node : Node)
    (snr : SelfNodeRemediation) (h : (rebootNode r env node snr).panicked = true) :
    snr.Status.TimeAssumedRebooted = none := by
  cases ht : snr.Status.TimeAssumedRebooted with
  | none => rfl
  | some t =>
    have hfalse : (rebootNode r env node snr).panicked = false := by
      unfold rebootNode
      split
      · unfold rebootIfNeeded
        repeat' split
        all_goals rfl
      · unfold wasNodeRebooted
        rw [ht]
        by_cases hlt : t > env.now
        · simp only [hlt, if_true]; rfl
        · simp only [hlt, if_false]; rfl
    rw [hfalse] at h
    exact absurd h (by simp)

theorem useOutOfServiceTaint_panicked (env : Env) (node : Node) (snr : SelfNodeRemediation)
    (h : (useOutOfServiceTaint env node snr).panicked = true) :
    snr.Status.TimeAssumedRebooted = none := by
  cases ht : snr.Status.TimeAssumedRebooted with
  | none => rfl
  | some t =>
    have hfalse : (useOutOfServiceTaint env node snr).panicked = false := by
      unfold useOutOfServiceTaint
      simp only []
      split
      · rfl
      · split
        · unfold isResourceDeletionExpired
          rw [ht]
          by_cases hlt : t + 300 * Second > env.now
          · simp only [hlt, if_true]; rfl
          · simp only [hlt, if_false]; rfl
        · rfl
    rw [hfalse] at h
    exact absurd h (by simp)

theorem handleRebootCompletedPhase_panicked (env : Env) (node : Node)
    (snr : SelfNodeRemediation) (rm : removeNodeResources) :
    (handleRebootCompletedPhase env node snr rm).panicked = (rm node snr).panicked := by
  unfold handleRebootCompletedPhase
  simp only []
  split
  · rename_i h
    exact h.symm
  · rename_i h
    have hf : (rm node snr).panicked = false := by simpa using h
    rw [hf]
    split
    · rfl
    · split <;> rfl

theorem recoverNodeTaints_panicked (env : Env) (node : Node) (snr : SelfNodeRemediation)
    (acts : List Action) : (recoverNodeTaints env node snr acts).panicked = false := by
  unfold recoverNodeTaints
  split
  · rfl
  · simp only []
    split
    · rfl
    · split
      · unfold removeFinalizer
        simp only []
        split <;> rfl
      · rfl

theorem recoverNode_panicked (env : Env) (node : Node) (snr : SelfNodeRemediation) :
    (recoverNode env node snr).panicked = false := by
  unfold recoverNode
  split
  · simp only []
    split
    · split <;> rfl
    · exact recoverNodeTaints_panicked _ _ _ _
  · exact recoverNodeTaints_panicked _ _ _ _

theorem remediateWithResourceRemoval_panicked (r : Reconciler) (env : Env)
    (snr : SelfNodeRemediation) (node : Node) (rm : removeNodeResources)
    (hrm : (rm node snr).panicked = true → snr.Status.TimeAssumedRebooted = none)
    (h : (remediateWithResourceRemoval r env snr node rm).panicked = true) :
    snr.Status.TimeAssumedRebooted = none ∧ snr.Status.Phase ≠ none := by
  unfold remediateWithResourceRemoval at h
  simp only [] at h
  split at h
  · unfold handleFencingStartedPhase at h
    rw [prepareReboot_panicked] at h
    exact absurd h (by simp)
  · split at h
    · rename_i hp
      refine ⟨rebootNode_panicked r env node snr h, ?_⟩
      rw [(getPhase_preRebootCompleted snr).mp hp]
      simp
    · split at h
      · rename_i hp
        rw [handleRebootCompletedPhase_panicked] at h
        refine ⟨hrm h, ?_⟩
        rw [(getPhase_rebootCompleted snr).mp hp]
        simp
      · split at h
        · unfold handleFencingCompletedPhase at h
          split at h
          · rw [recoverNode_panicked] at h
            exact absurd h (by simp)
          · exact absurd h (by simp)
        · exact absurd h (by simp)

theorem remediateWithStrategy_panicked (r : Reconciler) (env : Env)
    (snr : SelfNodeRemediation) (node : Node)
    (h : (remediateWithStrategy r env snr node).panicked = true) :
    snr.Status.TimeAssumedRebooted = none ∧ snr.Status.Phase ≠ none := by
  unfold remediateWithStrategy at h
  simp only [] at h
  split at h
  · exact remediateWithResourceRemoval_panicked r env snr node _
      (fun hp => absurd hp (by simp [deleteResourcesWrapper])) h
  · split at h
    · exact remediateWithResourceRemoval_panicked r env snr node _
        (useOutOfServiceTaint_panicked env node snr) h
    · exact absurd h (by simp)

theorem reconcileRemediation_panicked (r : Reconciler) (env : Env)
    (snr : SelfNodeRemediation) (node : Node)
    (h : (reconcileRemediation r env snr node).panicked = true) :
    snr.Status.TimeAssumedRebooted = none ∧ snr.Status.Phase ≠ none := by
  unfold reconcileRemediation at h
  simp only [] at h
  split at h
  · rename_i hp
    exact remediateWithStrategy_panicked r env snr node hp
  · exact absurd h (by simp)

theorem reconcileNode_panicked (r : Reconciler) (env : Env) (snr : SelfNodeRemediation)
    (h : (reconcileNode r env snr).panicked = true) :
    snr.Status.TimeAssumedRebooted = none ∧ snr.Status.Phase ≠ none := by
  unfold reconcileNode at h
  split at h
  · split at h
    · split at h
      · exact absurd h (by simp)
      · split at h
        exact absurd h (by simp)
    · split at h
      exact absurd h (by simp)
  · split at h
    · exact absurd h (by simp)
    · exact reconcileRemediation_panicked r env snr _ h

theorem reconcileBody_panicked (r : Reconciler) (env : Env) (snr : SelfNodeRemediation)
    (h : (reconcileBody r env snr).panicked = true) :
    snr.Status.TimeAssumedRebooted = none ∧ snr.Status.Phase ≠ none := by
  unfold reconcileBody at h
  split at h
  · split at h
    exact absurd h (by simp)
  · rw [reconcileStarted_node] at h
    have h2 := reconcileNode_panicked r env _ h
    split at h2
    · rw [updateConditions_timeAssumedRebooted, updateConditions_phase] at h2
      exact h2
    · exact h2

theorem Reconcile_panicked (r : Reconciler) (req : Request) (env : Env)
    (snr : SelfNodeRemediation) (hget : env.getSnr = .ok snr)
    (h : (Reconcile r req env).panicked = true) :
    snr.Status.TimeAssumedRebooted = none ∧ snr.Status.Phase ≠ none := by
  unfold Reconcile at h
  split at h
  · exact absurd h (by simp)
  · rw [hget] at h
    simp only [deferredStatusUpdate_panicked] at h
    exact reconcileBody_panicked r env snr h

theorem statusStep_timeSet {env : Env} {a b : SelfNodeRemediationStatus}
    (hnow : 0 < env.now) (hsafe : ∀ d, env.timeToAssumeNodeRebooted = .ok d → 0 ≤ d)
    (hstep : StatusStep env a b)
    (ha : a.Phase = none ∨ IsZero a.TimeAssumedRebooted = false) :
    b.Phase = none ∨ IsZero b.TimeAssumedRebooted = false := by
  rcases hstep with ⟨hp, ht⟩ | ⟨_, _, h⟩ | ⟨hp, _, ht, _⟩ | ⟨hp, _, ht⟩
  · rw [hp, ht]
    exact ha
  · rcases h with ⟨hz, ht⟩ | ⟨_, d, hd, ht⟩
    · rw [ht]
      exact Or.inr hz
    · right
      rw [ht]
      have hpos : 0 < env.now + d := add_pos_of_pos_of_nonneg hnow (hsafe d hd)
      show (env.now + d == 0) = false
      exact beq_false_of_ne (ne_of_gt hpos)
  · rw [ht]
    rcases ha with h | h
    · rw [hp] at h
      exact absurd h (by simp)
    · exact Or.inr h
  · rw [ht]
    rcases ha with h | h
    · rw [hp] at h
      exact absurd h (by simp)
    · exact Or.inr h

theorem reachableAfter_timeSet {snr : SelfNodeRemediation} (h : ReachableAfter 0 snr) :
    snr.Status.Phase = none ∨ IsZero snr.Status.TimeAssumedRebooted = false := by
  induction h with
  | fresh snr hp _ => exact Or.inl hp
  | reconcile snr next r req env _ hnow hsafe hget hstatus _ ih =>
    have hstep := storedStatus_step r req env snr hget
    rw [← hstatus] at hstep
    exact statusStep_timeSet hnow hsafe hstep ih

theorem isZero_false_iff (t : Option Time) :
    IsZero t = false ↔ ∃ v, t = some v ∧ v ≠ 0 := by
  cases t with
  | none => simp [IsZero]
  | some v => simp [IsZero]

/-- C29. `timeAssumedRebooted` is defined wherever it is read: in every request
state reachable from a fresh request (no phase, no `timeAssumedRebooted`)
through `Reconcile` invocations whose clock is after the zero instant and
whose safe time to assume the reboot is not negative, a phase of
Pre-Reboot-Completed, Reboot-Completed or Fencing-Completed implies that
`status.timeAssumedRebooted` is set, non-nil and non-zero. So `wasNodeRebooted`
and `isResourceDeletionExpired` do not dereference an unset time there, and no
`Reconcile` invocation on a reachable request ends in that panic. -/
theorem timeAssumedRebooted_defined (snr : SelfNodeRemediation)
    (h : ReachableAfter 0 snr) :
    (getPhase snr = preRebootCompletedPhase ∨ getPhase snr = rebootCompletedPhase ∨
        getPhase snr = fencingCompletedPhase →
      IsZero snr.Status.TimeAssumedRebooted = false ∧
      (∃ t, snr.Status.TimeAssumedRebooted = some t ∧ t ≠ 0) ∧
      ∀ env, wasNodeRebooted env snr ≠ none ∧ isResourceDeletionExpired env snr ≠ none) ∧
    (∀ r req env, env.getSnr = .ok snr → (Reconcile r req env).panicked = false) := by
  have hinv := reachableAfter_timeSet h
  constructor
  · intro hphase
    have hp : snr.Status.Phase ≠ none := by
      rcases hphase with hp | hp | hp
      · rw [(getPhase_preRebootCompleted snr).mp hp]; simp
      · rw [(getPhase_rebootCompleted snr).mp hp]; simp
      · rw [(getPhase_fencingCompleted snr).mp hp]; simp
    have hz : IsZero snr.Status.TimeAssumedRebooted = false := hinv.resolve_left hp
    obtain ⟨t, ht, hne⟩ := (isZero_false_iff _).mp hz
    refine ⟨hz, ⟨t, ht, hne⟩, fun env => ?_⟩
    unfold wasNodeRebooted isResourceDeletionExpired
    rw [ht]
    constructor
    · by_cases hlt : t > env.now
      · simp [hlt]
      · simp [hlt]
    · by_cases hlt : t + 300 * Second > env.now
      · simp [hlt]
      · simp [hlt]
  · intro r req env hget
    cases hpan : (Reconcile r req env).panicked with
    | false => rfl
    | true =>
      obtain ⟨hnone, hrecorded⟩ := Reconcile_panicked r req env snr hget hpan
      rcases hinv with hp | hz
      · exact absurd hp hrecorded
      · rw [hnone] at hz
        exact absurd hz (by simp [IsZero])

theorem exEnv_safeTime (now : Time) (snr : SelfNodeRemediation) :
    ∀ d, (exEnv now snr).timeToAssumeNodeRebooted = .ok d → 0 ≤ d := by
  intro d hd
  cases hd
  decide

theorem exPreReboot_reachableAfter : ReachableAfter 0 exPreReboot :=
  ReachableAfter.reconcile exFresh exPreReboot exManager exRequest (exEnv 1000 exFresh)
    (ReachableAfter.fresh exFresh rfl rfl) (by decide) (exEnv_safeTime 1000 exFresh)
    rfl rfl rfl

theorem exRebooted_reachableAfter : ReachableAfter 0 exRebooted :=
  ReachableAfter.reconcile exPreReboot exRebooted exManager exRequest
    (exEnv (1000 + 180 * Second) exPreReboot) exPreReboot_reachableAfter (by decide)
    (exEnv_safeTime (1000 + 180 * Second) exPreReboot) rfl rfl rfl

theorem timeAssumedRebooted_defined_witness :
    getPhase exRebooted = rebootCompletedPhase ∧
      IsZero exRebooted.Status.TimeAssumedRebooted = false :=
  ⟨by decide,
   ((timeAssumedRebooted_defined exRebooted exRebooted_reachableAfter).1
      (Or.inr (Or.inl (by decide)))).1⟩

end Controllers
